import Mathlib

/-!
# Bottario: OAuth token lifecycle manager

A shallow embedding of `src/configLoader.js` and `src/authUtils/authManager.js`
(check -> refresh -> re-authenticate), of `validateToken.js` and `oauthServer.js`,
and of the helpers `formatListNaturally`, `getAllLocalFiles`, `invalidURLSend` and
`timerMessages.js`, together with the properties proved about them.

JavaScript values are embedded as `JVal`; the configuration object is an
insertion-ordered association list; external collaborators (token validator,
refreshing provider, OAuth flow, clock) are oracles collected in `Env`, and
every call to one of them is recorded in a trace.
-/

namespace Bottario

/-! ## JavaScript values -/

/-- JSON-like JavaScript values as they occur in `config.json` and in the
provider responses. Arrays hold strings (scope lists). -/
inductive JVal where
  | undefined
  | null
  | bool (b : Bool)
  | num (n : Int)
  | str (s : String)
  | arr (xs : List String)
  deriving DecidableEq, Repr, Inhabited

namespace JVal

/-- JavaScript truthiness (`!!v`). -/
def truthy : JVal → Bool
  | undefined => false
  | null => false
  | bool b => b
  | num n => n != 0
  | str s => s != ""
  | arr _ => true

/-- Strict equality `a === b`. Two arrays are distinct objects here (they come
from different parses), so they are never strictly equal. -/
def strictEq : JVal → JVal → Bool
  | undefined, undefined => true
  | null, null => true
  | bool a, bool b => a == b
  | num a, num b => a == b
  | str a, str b => a == b
  | _, _ => false

/-- The expression `Array.isArray(v) ? v : []`. -/
def asArray : JVal → List String
  | arr xs => xs
  | _ => []

/-- The expression `v || []`. -/
def orEmptyArray (v : JVal) : JVal :=
  if v.truthy then v else arr []

/-- The expression `v || 3600`. -/
def orNum (v : JVal) (d : Int) : JVal :=
  if v.truthy then v else num d

end JVal

/-! ## configLoader.js -/

/-- A JavaScript object with string keys, in insertion order. -/
abbrev Config := List (String × JVal)

/-- Property read `c[k]`: the value of the first entry with key `k`, or
`undefined`. -/
def Config.get (c : Config) (k : String) : JVal :=
  match c with
  | [] => JVal.undefined
  | (k', v) :: rest => if k' = k then v else Config.get rest k

/-- Property write `c[k] = v`: overwrite in place, or append a new key. -/
def Config.set (c : Config) (k : String) (v : JVal) : Config :=
  match c with
  | [] => [(k, v)]
  | (k', v') :: rest => if k' = k then (k, v) :: rest else (k', v') :: Config.set rest k v

/-- The call `Object.assign(target, source)`. -/
def objectAssign (target source : Config) : Config :=
  source.foldl (fun acc kv => Config.set acc kv.1 kv.2) target

/-- What `JSON.parse(JSON.stringify(c))` yields: keys whose value is
`undefined` are dropped by `JSON.stringify`. -/
def jsonRoundTrip (c : Config) : Config :=
  c.filter (fun kv => kv.2 != JVal.undefined)

/-- The file `config.json`. -/
inductive Disk where
  | missing
  | invalid
  | json (c : Config)
  deriving DecidableEq, Repr

/-- Module state of `configLoader.js`: the variable `fileConfig`, the file
`config.json`, and whether `fs.writeFileSync` succeeds. -/
structure ConfigStore where
  fileConfig : Config
  disk : Disk
  writable : Bool
  deriving DecidableEq, Repr

/-- The function `loadConfigs` (the `fileConfig` part): every exception is
caught and leaves `fileConfig` as it was. -/
def loadConfigs (s : ConfigStore) : ConfigStore :=
  match s.disk with
  | Disk.json c => { s with fileConfig := c }
  | Disk.invalid => s
  | Disk.missing =>
    if s.writable then { s with disk := Disk.json [], fileConfig := [] } else s

/-- The function `getFileConfig`: reloads when `fileConfig` has no keys. -/
def getFileConfig (s : ConfigStore) : Config × ConfigStore :=
  if s.fileConfig.length = 0 then
    let s' := loadConfigs s
    (s'.fileConfig, s')
  else (s.fileConfig, s)

/-- The function `updateFileConfig`: merge into `fileConfig`, then try to
write the file; a failed write is logged and swallowed. -/
def updateFileConfig (s : ConfigStore) (newValues : Config) : ConfigStore :=
  let merged := objectAssign s.fileConfig newValues
  if s.writable then { s with fileConfig := merged, disk := Disk.json (jsonRoundTrip merged) }
  else { s with fileConfig := merged }

/-! ## Credential record keys -/

/-- The key of the access token: `<prefix>_OAUTH_TOKEN`. -/
def keyToken (pre : String) : String := pre ++ "_OAUTH_TOKEN"

/-- The key of the refresh token: `<prefix>_OAUTH_REFRESH_TOKEN`. -/
def keyRefreshToken (pre : String) : String := pre ++ "_OAUTH_REFRESH_TOKEN"

/-- The key of the user id: `<prefix>_TWITCH_USER_ID`. -/
def keyUserId (pre : String) : String := pre ++ "_TWITCH_USER_ID"

/-- The key of the username: `<prefix>_USERNAME`. -/
def keyUsername (pre : String) : String := pre ++ "_USERNAME"

/-- The key of the obtained-at timestamp: `LAST_<prefix>_TOKEN_REFRESH`. -/
def keyLastRefresh (pre : String) : String := "LAST_" ++ pre ++ "_TOKEN_REFRESH"

/-- The key of the token lifetime: `<prefix>_OAUTH_EXPIRES_IN`. -/
def keyExpiresIn (pre : String) : String := pre ++ "_OAUTH_EXPIRES_IN"

/-- The key of the granted scopes: `<prefix>_REQUIRED_SCOPES`. -/
def keyScopes (pre : String) : String := pre ++ "_REQUIRED_SCOPES"

/-- The key of the browser hint: `<prefix>_LAST_AUTH_BROWSER_USER_AGENT`. -/
def keyBrowser (pre : String) : String := pre ++ "_LAST_AUTH_BROWSER_USER_AGENT"

/-- The values `authenticateAccount` reads for one role in "Schritt 1". -/
structure Stored where
  accessToken : JVal
  refreshToken : JVal
  userId : JVal
  username : JVal
  scopes : List String
  expiresIn : JVal
  lastRefresh : JVal
  browserUserAgent : JVal
  deriving DecidableEq, Repr

/-- Lines 142-149 of `authManager.js`. -/
def readStored (pre : String) (c : Config) : Stored where
  accessToken := c.get (keyToken pre)
  refreshToken := c.get (keyRefreshToken pre)
  userId := c.get (keyUserId pre)
  username := c.get (keyUsername pre)
  scopes := (c.get (keyScopes pre)).asArray
  expiresIn := c.get (keyExpiresIn pre)
  lastRefresh := c.get (keyLastRefresh pre)
  browserUserAgent := c.get (keyBrowser pre)

/-- A stored value counts as absent when it is `undefined`, `null` or empty. -/
def JVal.absent (v : JVal) : Prop :=
  v = JVal.undefined ∨ v = JVal.null ∨ v = JVal.str "" ∨ v = JVal.arr []

instance (v : JVal) : Decidable v.absent := by
  unfold JVal.absent; infer_instance

/-- The object literal of `clearAuthData`. -/
def clearValues (pre : String) : Config :=
  [ (keyToken pre, JVal.null),
    (keyRefreshToken pre, JVal.null),
    (keyUserId pre, JVal.null),
    (keyUsername pre, JVal.null),
    (keyLastRefresh pre, JVal.null),
    (keyExpiresIn pre, JVal.null),
    (keyScopes pre, JVal.arr []) ]

/-- The function `clearAuthData`. -/
def clearAuthData (s : ConfigStore) (configKeyPrefix : String) : ConfigStore :=
  updateFileConfig s (clearValues configKeyPrefix)

/-! ## Scope comparison -/

/-- The expression `requiredScopes.every(scope => actualTokenScopes.includes(scope))`. -/
def allRequiredPresent (requiredScopes actualTokenScopes : List String) : Bool :=
  requiredScopes.all (fun scope => actualTokenScopes.contains scope)

/-- The expression `actualTokenScopes.every(scope => requiredScopes.includes(scope))`. -/
def noExtraScopes (requiredScopes actualTokenScopes : List String) : Bool :=
  actualTokenScopes.all (fun scope => requiredScopes.contains scope)

/-- The condition `allRequiredPresent && noExtraScopes` of lines 173 and 263. -/
def scopesMatch (requiredScopes actualTokenScopes : List String) : Bool :=
  allRequiredPresent requiredScopes actualTokenScopes && noExtraScopes requiredScopes actualTokenScopes

/-! ## External collaborators -/

/-- The object `validateToken` resolves with on HTTP success. -/
structure ValidationResult where
  clientId : JVal
  userId : JVal
  scopes : JVal
  deriving DecidableEq, Repr

/-- What a call of the validator does: it throws, or resolves with `null`
(`none`) or with a result. -/
inductive ValidateOutcome where
  | throws
  | returned (r : Option ValidationResult)
  deriving DecidableEq, Repr

/-- The two call sites of `validateToken` in `authenticateAccount`:
line 166 (CheckExisting) and line 248 (after the refresh). -/
inductive ValidateSite where
  | checkExisting
  | afterRefresh
  deriving DecidableEq, Repr

/-- The token object of the provider library (`AccessToken`). -/
structure AccessToken where
  accessToken : JVal
  refreshToken : JVal
  expiresIn : JVal
  scope : JVal
  obtainmentTimestamp : Int
  deriving DecidableEq, Repr

/-- What lines 228-245 do (temporary provider, `addUser`,
`getAccessTokenForUser`): an exception, or the resolved value, which the
library types as a token object or `null`. -/
inductive RefreshOutcome where
  | throws
  | returned (t : Option AccessToken)
  deriving DecidableEq, Repr

/-- The object `startOAuthServer` resolves with. -/
structure AuthData where
  accessToken : JVal
  refreshToken : JVal
  expiresIn : JVal
  scope : JVal
  userId : JVal
  username : JVal
  userAgent : JVal
  deriving DecidableEq, Repr

/-- The settled promise of `startOAuthServer`. -/
inductive FlowOutcome where
  | rejects
  | resolves (authData : AuthData)
  deriving DecidableEq, Repr

/-- The argument object of `startOAuthServer` (lines 313-321). -/
structure OAuthServerOptions where
  clientId : JVal
  clientSecret : JVal
  redirectUri : JVal
  scopes : List String
  port : Nat
  mode : String
  preferredBrowserUserAgent : JVal
  deriving DecidableEq, Repr

/-- The environment of one run of `authenticateAccount`. -/
structure Env where
  /-- The imported `validateToken`, per call site. -/
  validateToken : ValidateSite → JVal → ValidateOutcome
  /-- The forced refresh on the temporary provider: user id and seed token. -/
  getAccessTokenForUser : JVal → AccessToken → RefreshOutcome
  /-- The imported `startOAuthServer`. -/
  startOAuthServer : OAuthServerOptions → FlowOutcome
  /-- The expression `new Date(v).getTime()`. -/
  dateGetTime : JVal → Int
  /-- The expression `new Date().toISOString()`. -/
  nowISO : String
  /-- The message of the error that `addUser` of the provider library throws
  for a user id when it is given no refresh token
  (`Trying to add user <id> without refresh token`). -/
  addUserError : JVal → String

/-- The value held by the variable `userData`: a plain value (a token string,
`undefined`, `null`) or the token object the refresh resolved with. -/
inductive UserData where
  | val (v : JVal)
  | token (t : AccessToken)
  deriving DecidableEq, Repr

/-- Truthiness of `userData`; an object is always truthy. -/
def UserData.truthy : UserData → Bool
  | UserData.val v => v.truthy
  | UserData.token _ => true

/-- The provider built by `createAndConfigureAuthProvider`: the role whose
keys its `onRefresh` handler and token store use, and the `addUser` data. -/
structure AuthProvider where
  clientId : JVal
  clientSecret : JVal
  configKeyPrefix : String
  userId : JVal
  accessToken : UserData
  refreshToken : JVal
  expiresIn : JVal
  scope : JVal
  obtainmentTimestamp : Int
  deriving DecidableEq, Repr

/-- The API client, bound to its provider. -/
structure ApiClient where
  authProvider : AuthProvider
  deriving DecidableEq, Repr

/-- The object `authenticateAccount` returns. -/
structure Session where
  authProvider : AuthProvider
  apiClient : ApiClient
  userId : JVal
  username : JVal
  accessToken : UserData
  deriving DecidableEq, Repr

/-- The observable steps of a run, in order. The last one records a call of
`createAndConfigureAuthProvider` that returned, with the provider it built. -/
inductive Event where
  | validateToken (site : ValidateSite) (token : JVal) (outcome : ValidateOutcome)
  | refreshStepEntered
  | getAccessTokenForUser (userId : JVal) (seed : AccessToken) (outcome : RefreshOutcome)
  | fullReauthEntered
  | clearAuthData (configKeyPrefix : String)
  | updateFileConfig (newValues : Config)
  | startOAuthServer (options : OAuthServerOptions) (storeAtCall : ConfigStore) (outcome : FlowOutcome)
  | createAndConfigureAuthProvider (provider : AuthProvider)
  deriving DecidableEq, Repr

/-- The parameter object of `authenticateAccount`. -/
structure Params where
  clientId : JVal
  clientSecret : JVal
  redirectUri : JVal
  configKeyPrefix : String
  requiredScopes : List String
  oauthServerPort : Option Nat
  deriving DecidableEq, Repr

/-! ## authManager.js -/

/-- The function `createAndConfigureAuthProvider` (lines 42-102): builds the
provider with its `onRefresh` handler and token store bound to
`configKeyPrefix`, adds the user, and binds an API client to it. It does not
touch the configuration. The call `authProvider.addUser` of line 91 throws when
the refresh token it is given is falsy (the provider library refuses a user
without refresh token), and the function throws with it. With a refresh token
the calls into the provider library are taken to return. -/
def createAndConfigureAuthProvider (env : Env) (clientId clientSecret : JVal)
    (configKeyPrefix : String) (userId _username : JVal) (accessToken : UserData)
    (refreshToken expiresIn scope : JVal) (obtainmentTimestamp : Int) :
    Except String (AuthProvider × ApiClient) :=
  let authProvider : AuthProvider :=
    { clientId := clientId, clientSecret := clientSecret,
      configKeyPrefix := configKeyPrefix, userId := userId, accessToken := accessToken,
      refreshToken := refreshToken, expiresIn := expiresIn, scope := scope,
      obtainmentTimestamp := obtainmentTimestamp }
  if !refreshToken.truthy then Except.error (env.addUserError userId)
  else Except.ok (authProvider, { authProvider := authProvider })

/-- The object written by the `onRefresh` handler (lines 79-85). -/
def refreshValues (pre : String) (newTokenData : AccessToken) (nowISO : String) : Config :=
  [ (keyToken pre, newTokenData.accessToken),
    (keyRefreshToken pre, newTokenData.refreshToken),
    (keyExpiresIn pre, newTokenData.expiresIn),
    (keyScopes pre, newTokenData.scope),
    (keyLastRefresh pre, JVal.str nowISO) ]

/-- The `onRefresh` handler installed by `createAndConfigureAuthProvider`. -/
def onRefresh (provider : AuthProvider) (s : ConfigStore) (newTokenData : AccessToken)
    (nowISO : String) : ConfigStore :=
  updateFileConfig s (refreshValues provider.configKeyPrefix newTokenData nowISO)

/-- The local variables of `authenticateAccount` together with the module
state of the config loader and the trace of the run so far. -/
structure Run where
  store : ConfigStore
  trace : List Event
  authProvider : Option AuthProvider
  apiClient : Option ApiClient
  userId : JVal
  username : JVal
  userData : UserData
  tokenNeedsRefresh : Bool
  tokenNeedsFullReauth : Bool
  thrown : Option String
  deriving DecidableEq, Repr

/-- The expression `v ? new Date(v).getTime() : 0`. -/
def obtainmentTimestampOf (env : Env) (v : JVal) : Int :=
  if v.truthy then env.dateGetTime v else 0

/-- The block that occurs three times (lines 181-193, 280-292, 347-359):
re-read the configuration and build the final provider from the local
`userId`, `username`, `userData` and the re-read refresh data. The result is
the state after the block and, when `createAndConfigureAuthProvider` threw, its
error; the destructuring assignment to `authProvider` and `apiClient` then did
not happen. -/
def buildProvider (env : Env) (p : Params) (r : Run) : Run × Option String :=
  let (fileConfig, store) := getFileConfig r.store
  match createAndConfigureAuthProvider env p.clientId p.clientSecret p.configKeyPrefix
      r.userId r.username r.userData
      (fileConfig.get (keyRefreshToken p.configKeyPrefix))
      (fileConfig.get (keyExpiresIn p.configKeyPrefix))
      (fileConfig.get (keyScopes p.configKeyPrefix)).orEmptyArray
      (obtainmentTimestampOf env (fileConfig.get (keyLastRefresh p.configKeyPrefix))) with
  | Except.ok (authProvider, apiClient) =>
    ({ r with store := store, authProvider := some authProvider, apiClient := some apiClient,
              trace := r.trace ++ [Event.createAndConfigureAuthProvider authProvider] }, none)
  | Except.error message => ({ r with store := store }, some message)

/-- Schritt 2 (lines 163-218): check the stored access token. An error of the
provider build is caught at line 211 like one of the validator. -/
def checkExisting (env : Env) (p : Params) (stored : Stored) (r : Run) : Run :=
  if stored.accessToken.truthy && stored.userId.truthy then
    let outcome := env.validateToken ValidateSite.checkExisting stored.accessToken
    let r := { r with trace := r.trace ++
      [Event.validateToken ValidateSite.checkExisting stored.accessToken outcome] }
    match outcome with
    | ValidateOutcome.throws => { r with tokenNeedsRefresh := true }
    | ValidateOutcome.returned none => { r with tokenNeedsRefresh := true }
    | ValidateOutcome.returned (some validationResult) =>
      if validationResult.userId.strictEq stored.userId then
        let actualTokenScopes := validationResult.scopes.asArray
        if scopesMatch p.requiredScopes actualTokenScopes then
          let r := { r with userData := UserData.val stored.accessToken,
                            userId := stored.userId, username := stored.username }
          match buildProvider env p r with
          | (r, some _) => { r with tokenNeedsRefresh := true }
          | (r, none) =>
            if stored.scopes ≠ actualTokenScopes then
              let newValues : Config :=
                [(keyScopes p.configKeyPrefix, JVal.arr actualTokenScopes)]
              { r with store := updateFileConfig r.store newValues,
                       trace := r.trace ++ [Event.updateFileConfig newValues] }
            else r
        else { r with tokenNeedsRefresh := true }
      else { r with tokenNeedsRefresh := true }
  else { r with tokenNeedsRefresh := true }

/-- The re-validation after a refresh (lines 248-293), with `userData` already
set to the token object `t`. An error of the provider build is caught at line
295 like one of the refresh. -/
def afterRefresh (env : Env) (p : Params) (stored : Stored) (t : AccessToken) (r : Run) : Run :=
  let outcome := env.validateToken ValidateSite.afterRefresh t.accessToken
  let r := { r with trace := r.trace ++
    [Event.validateToken ValidateSite.afterRefresh t.accessToken outcome] }
  match outcome with
  | ValidateOutcome.throws => { r with tokenNeedsFullReauth := true }
  | ValidateOutcome.returned none => { r with tokenNeedsFullReauth := true }
  | ValidateOutcome.returned (some validationAfterRefresh) =>
    if !validationAfterRefresh.userId.strictEq stored.userId then
      { r with tokenNeedsFullReauth := true }
    else
      let actualTokenScopes := validationAfterRefresh.scopes.asArray
      if scopesMatch p.requiredScopes actualTokenScopes then
        match buildProvider env p
            { r with userId := stored.userId, username := stored.username } with
        | (r, none) => r
        | (r, some _) => { r with tokenNeedsFullReauth := true }
      else { r with tokenNeedsFullReauth := true }

/-- The object passed to `tempAuthProvider.addUser` (lines 234-240). -/
def refreshSeed (env : Env) (stored : Stored) : AccessToken :=
  { accessToken := stored.accessToken, refreshToken := stored.refreshToken,
    expiresIn := stored.expiresIn.orNum 3600, scope := JVal.arr stored.scopes,
    obtainmentTimestamp := obtainmentTimestampOf env stored.lastRefresh }

/-- Schritt 2.1 (lines 221-303): force a refresh through a temporary provider,
which has no `onRefresh` handler and no token store. -/
def refreshStep (env : Env) (p : Params) (stored : Stored) (r : Run) : Run :=
  if r.tokenNeedsRefresh then
    let r := { r with trace := r.trace ++ [Event.refreshStepEntered] }
    if stored.refreshToken.truthy && stored.userId.truthy then
      let seed := refreshSeed env stored
      let outcome := env.getAccessTokenForUser stored.userId seed
      let r := { r with trace := r.trace ++
        [Event.getAccessTokenForUser stored.userId seed outcome] }
      match outcome with
      | RefreshOutcome.throws => { r with tokenNeedsFullReauth := true }
      | RefreshOutcome.returned none =>
        -- `userData.accessToken` on `null` throws a TypeError, caught at line 295
        { r with userData := UserData.val JVal.null, tokenNeedsFullReauth := true }
      | RefreshOutcome.returned (some t) =>
        afterRefresh env p stored t { r with userData := UserData.token t }
    else { r with tokenNeedsFullReauth := true }
  else r

/-- The object written after a successful flow (lines 329-338). -/
def flowValues (pre : String) (authData : AuthData) (nowISO : String) : Config :=
  [ (keyToken pre, authData.accessToken),
    (keyRefreshToken pre, authData.refreshToken),
    (keyUserId pre, authData.userId),
    (keyUsername pre, authData.username),
    (keyLastRefresh pre, JVal.str nowISO),
    (keyScopes pre, authData.scope),
    (keyExpiresIn pre, authData.expiresIn),
    (keyBrowser pre, authData.userAgent) ]

/-- The message of the error thrown at line 325. -/
def oauthFailedMessage (configKeyPrefix : String) : String :=
  "[AuthManager][" ++ configKeyPrefix ++ "] OAuth-Authentifizierung fehlgeschlagen."

/-- The message of the error thrown at line 130. -/
def missingCredentialsMessage (configKeyPrefix : String) : String :=
  "[AuthManager][" ++ configKeyPrefix ++
    "] clientId, clientSecret oder redirectUri fehlen in der Konfiguration. Authentifizierung kann nicht erfolgen."

/-- The message of the error thrown at line 367. -/
def notInitializedMessage (configKeyPrefix : String) : String :=
  "[AuthManager][" ++ configKeyPrefix ++
    "] Twitch API Client konnte nach allen Authentifizierungsversuchen nicht initialisiert werden."

/-- The method `String.prototype.toLowerCase`, on ASCII letters. -/
def toLowerCase (s : String) : String :=
  String.mk (s.data.map Char.toLower)

/-- The options passed to `startOAuthServer` (lines 313-321). -/
def oauthOptions (p : Params) (stored : Stored) : OAuthServerOptions :=
  { clientId := p.clientId, clientSecret := p.clientSecret, redirectUri := p.redirectUri,
    scopes := p.requiredScopes, port := p.oauthServerPort.getD 8080,
    mode := toLowerCase p.configKeyPrefix, preferredBrowserUserAgent := stored.browserUserAgent }

/-- The full OAuth flow (lines 306-362). The provider build of lines 348-359
is outside any `try`: its error leaves `authenticateAccount`. -/
def fullReauth (env : Env) (p : Params) (stored : Stored) (r : Run) : Run :=
  if r.tokenNeedsFullReauth || !r.userData.truthy then
    let store := clearAuthData r.store p.configKeyPrefix
    let options := oauthOptions p stored
    let outcome := env.startOAuthServer options
    let r := { r with store := store, trace := r.trace ++
      [Event.fullReauthEntered, Event.clearAuthData p.configKeyPrefix,
       Event.updateFileConfig (clearValues p.configKeyPrefix),
       Event.startOAuthServer options store outcome] }
    match outcome with
    | FlowOutcome.rejects => { r with thrown := some (oauthFailedMessage p.configKeyPrefix) }
    | FlowOutcome.resolves authData =>
      let newValues := flowValues p.configKeyPrefix authData env.nowISO
      let r := { r with store := updateFileConfig r.store newValues,
                        trace := r.trace ++ [Event.updateFileConfig newValues],
                        userData := UserData.val authData.accessToken,
                        userId := authData.userId, username := authData.username }
      match buildProvider env p r with
      | (r, none) => r
      | (r, some message) => { r with thrown := some message }
  else r

/-- The result of a run: what the promise settles with, and the final state. -/
structure Outcome where
  result : Except String Session
  final : Run
  deriving Repr

/-- Schritt 3 (lines 366-378): the final check and the returned object. -/
def finalize (p : Params) (r : Run) : Outcome :=
  match r.thrown with
  | some msg => { result := Except.error msg, final := r }
  | none =>
    match r.authProvider, r.apiClient with
    | some authProvider, some apiClient =>
      if !r.userId.truthy || !r.username.truthy || !r.userData.truthy then
        { result := Except.error (notInitializedMessage p.configKeyPrefix),
          final := { r with thrown := some (notInitializedMessage p.configKeyPrefix) } }
      else
        let session : Session :=
          { authProvider := authProvider, apiClient := apiClient, userId := r.userId,
            username := r.username, accessToken := r.userData }
        { result := Except.ok session, final := r }
    | _, _ =>
      { result := Except.error (notInitializedMessage p.configKeyPrefix),
        final := { r with thrown := some (notInitializedMessage p.configKeyPrefix) } }

/-- The local variables at line 159, before any step has run. -/
def initialRun (store : ConfigStore) : Run :=
  { store := store, trace := [], authProvider := none, apiClient := none,
    userId := JVal.undefined, username := JVal.undefined,
    userData := UserData.val JVal.undefined,
    tokenNeedsRefresh := false, tokenNeedsFullReauth := false, thrown := none }

/-- The guard of line 129. -/
def appCredentialsPresent (p : Params) : Bool :=
  p.clientId.truthy && p.clientSecret.truthy && p.redirectUri.truthy

/-- The function `authenticateAccount`. -/
def authenticateAccount (env : Env) (p : Params) (store : ConfigStore) : Outcome :=
  if !appCredentialsPresent p then
    { result := Except.error (missingCredentialsMessage p.configKeyPrefix),
      final := { initialRun store with thrown := some (missingCredentialsMessage p.configKeyPrefix) } }
  else
    let (fileConfig, store) := getFileConfig store
    let stored := readStored p.configKeyPrefix fileConfig
    let r := initialRun store
    let r := checkExisting env p stored r
    let r := refreshStep env p stored r
    let r := fullReauth env p stored r
    finalize p r

/-! ## validateToken.js -/

/-- What an HTTP call made with `fetch` does: it throws (network error), or
it yields a response with its `ok` flag and its body read with `json()`.
`body = none` stands for a body that cannot be read as a JSON object
(`json()` throws, or the JSON value is `null`, so that reading a property of
it throws). -/
inductive FetchOutcome (β : Type) where
  | networkError
  | response (ok : Bool) (body : Option β)
  deriving DecidableEq, Repr

/-- The JSON object the validate endpoint answers with. -/
structure ValidateBody where
  client_id : JVal
  user_id : JVal
  scopes : JVal
  deriving DecidableEq, Repr

/-- The `try` block of `validateToken` (lines 17-37); an `Except.error` is an
exception raised inside it. -/
def validateTokenTry (response : FetchOutcome ValidateBody) :
    Except String (Option ValidationResult) :=
  match response with
  | FetchOutcome.networkError => Except.error "fetch failed"
  | FetchOutcome.response ok body =>
    if ok then
      match body with
      | none => Except.error "invalid json"
      | some data =>
        Except.ok (some { clientId := data.client_id, userId := data.user_id,
                          scopes := data.scopes.orEmptyArray })
    else Except.ok none

/-- What a call of `validateToken` does: its outcome and the tokens for which
it called the validate endpoint. -/
structure ValidateCall where
  outcome : ValidateOutcome
  requests : List JVal
  deriving DecidableEq, Repr

/-- The function `validateToken`; `fetch` answers the request made for a given
token. -/
def validateToken (fetch : JVal → FetchOutcome ValidateBody) (accessToken : JVal) :
    ValidateCall :=
  if !accessToken.truthy then
    { outcome := ValidateOutcome.returned none, requests := [] }
  else
    match validateTokenTry (fetch accessToken) with
    | Except.ok result =>
      { outcome := ValidateOutcome.returned result, requests := [accessToken] }
    | Except.error _ =>
      -- the `catch` of line 38
      { outcome := ValidateOutcome.returned none, requests := [accessToken] }

/-! ## oauthServer.js: the redirect callback and the listener -/

/-- The JSON object the token endpoint answers with. -/
structure TokenBody where
  access_token : JVal
  refresh_token : JVal
  expires_in : JVal
  scope : JVal
  message : JVal
  deriving DecidableEq, Repr

/-- An entry of the `data` array of the user-lookup answer. -/
structure HelixUser where
  login : JVal
  id : JVal
  deriving DecidableEq, Repr

/-- The JSON object the user-lookup endpoint answers with; `data = none` when
the property is missing or falsy. -/
structure UsersBody where
  data : Option (List HelixUser)
  deriving DecidableEq, Repr

/-- The part of the callback request the handler reads. -/
structure CallbackRequest where
  code : JVal
  userAgent : JVal
  deriving DecidableEq, Repr

/-- The two endpoints the handler calls. -/
inductive Endpoint where
  | token
  | users
  deriving DecidableEq, Repr

/-- The inner `try` of the handler (lines 207-232): `(userName, userID)`,
both `""` unless the lookup answers 2xx with a non-empty `data` array. -/
def lookupIdentity (userFetch : FetchOutcome UsersBody) : JVal × JVal :=
  match userFetch with
  | FetchOutcome.networkError => (JVal.str "", JVal.str "")
  | FetchOutcome.response _ none => (JVal.str "", JVal.str "")
  | FetchOutcome.response ok (some userData) =>
    if !ok then (JVal.str "", JVal.str "")
    else
      match userData.data with
      | none => (JVal.str "", JVal.str "")
      | some [] => (JVal.str "", JVal.str "")
      | some (user :: _) => (user.login, user.id)

/-- What one run of the callback handler does: what it passes to
`globalAuthPromiseResolve` or `globalAuthPromiseReject`, the HTTP status it
answers the browser with, and the endpoints it called, in order. -/
structure CallbackResult where
  attempt : FlowOutcome
  status : Nat
  requests : List Endpoint
  deriving DecidableEq, Repr

/-- The handler `app.get(callbackPath, ...)` (lines 163-264); `tokenFetch` and
`userFetch` are what the two HTTP calls do when they are made. -/
def oauthCallback (req : CallbackRequest) (tokenFetch : FetchOutcome TokenBody)
    (userFetch : FetchOutcome UsersBody) : CallbackResult :=
  if !req.code.truthy then
    { attempt := FlowOutcome.rejects, status := 400, requests := [] }
  else
    match tokenFetch with
    | FetchOutcome.networkError =>
      { attempt := FlowOutcome.rejects, status := 500, requests := [Endpoint.token] }
    | FetchOutcome.response _ none =>
      { attempt := FlowOutcome.rejects, status := 500, requests := [Endpoint.token] }
    | FetchOutcome.response ok (some tokenData) =>
      if !ok || !tokenData.access_token.truthy then
        { attempt := FlowOutcome.rejects, status := 500, requests := [Endpoint.token] }
      else
        let (userName, userID) := lookupIdentity userFetch
        let result : AuthData :=
          { accessToken := tokenData.access_token, refreshToken := tokenData.refresh_token,
            expiresIn := tokenData.expires_in, scope := tokenData.scope.orEmptyArray,
            userId := userID, username := userName, userAgent := req.userAgent }
        { attempt := FlowOutcome.resolves result, status := 200,
          requests := [Endpoint.token, Endpoint.users] }

/-- The module variable `currentAuthServerInstance`, the calls of `close` made
so far (by listener), and the promise of the run (`none` while pending). -/
structure FlowState where
  currentAuthServerInstance : Option Nat
  closeLog : List Nat
  promise : Option FlowOutcome
  deriving DecidableEq, Repr

/-- The wrapper `globalAuthPromiseResolve` (lines 69-76); resolving a settled
promise has no effect. -/
def globalAuthPromiseResolve (st : FlowState) (data : AuthData) : FlowState :=
  let st :=
    match st.currentAuthServerInstance with
    | some server =>
      { st with closeLog := st.closeLog ++ [server], currentAuthServerInstance := none }
    | none => st
  { st with promise := st.promise.orElse fun _ => some (FlowOutcome.resolves data) }

/-- The wrapper `globalAuthPromiseReject` (lines 77-84); rejecting a settled
promise has no effect. -/
def globalAuthPromiseReject (st : FlowState) : FlowState :=
  let st :=
    match st.currentAuthServerInstance with
    | some server =>
      { st with closeLog := st.closeLog ++ [server], currentAuthServerInstance := none }
    | none => st
  { st with promise := st.promise.orElse fun _ => some FlowOutcome.rejects }

/-- The start of `startOAuthServer` (lines 56-63 and 86): a stale instance is
closed, then the new listener `server` becomes the current instance. -/
def startListening (currentAuthServerInstance : Option Nat) (server : Nat) : FlowState :=
  { currentAuthServerInstance := some server,
    closeLog := match currentAuthServerInstance with
      | some stale => [stale]
      | none => [],
    promise := none }

/-- What can happen to a listening run: a redirect callback arrives (with what
its two HTTP calls do), or the listener emits `error` (lines 127-158; for
`EADDRINUSE` and for any other code the handler ends in
`globalAuthPromiseReject`). -/
inductive FlowEvent where
  | callback (req : CallbackRequest) (tokenFetch : FetchOutcome TokenBody)
      (userFetch : FetchOutcome UsersBody)
  | listenerError (addressInUse : Bool)
  deriving DecidableEq, Repr

/-- The effect of one event on the run. -/
def flowStep (st : FlowState) (e : FlowEvent) : FlowState :=
  match e with
  | FlowEvent.callback req tokenFetch userFetch =>
    match (oauthCallback req tokenFetch userFetch).attempt with
    | FlowOutcome.resolves data => globalAuthPromiseResolve st data
    | FlowOutcome.rejects => globalAuthPromiseReject st
  | FlowEvent.listenerError _ => globalAuthPromiseReject st

/-- A run of `startOAuthServer`: start listening, then handle the events in
the order in which their handlers reach the promise. -/
def runFlow (currentAuthServerInstance : Option Nat) (server : Nat)
    (events : List FlowEvent) : FlowState :=
  events.foldl flowStep (startListening currentAuthServerInstance server)

/-! ## commonUtils/formatListNaturally.js -/

/-- The function `formatListNaturally`; `none` is a missing (`null` or
`undefined`) argument. -/
def formatListNaturally (items : Option (List String)) : String :=
  match items with
  | none => ""
  | some [] => ""
  | some [a] => a
  | some [a, b] => a ++ " und " ++ b
  | some (a :: b :: c :: rest) =>
    let all := a :: b :: c :: rest
    let lastItem := all.getLast (List.cons_ne_nil a (b :: c :: rest))
    let otherItems := all.dropLast
    ", ".intercalate otherItems ++ " und " ++ lastItem ++ " "

/-! ## String methods -/

/-- The search of `String.prototype.includes`: try `needle` as a prefix at the
first position, then at the next one, up to the end of `hay`. -/
def includesChars : List Char → List Char → Bool
  | [], needle => needle.isEmpty
  | c :: rest, needle => needle.isPrefixOf (c :: rest) || includesChars rest needle

/-- The builtin method `String.prototype.includes`, which the source calls on
the lower-cased user agent (`userAgent.includes('chrome')`, oauthServer.js
lines 24-34). -/
def includes (s searchString : String) : Bool :=
  includesChars s.data searchString.data

/-- The method `String.prototype.endsWith`. -/
def endsWith (s searchString : String) : Bool :=
  searchString.data.isSuffixOf s.data

/-- The method `String.prototype.startsWith`. -/
def startsWith (s searchString : String) : Bool :=
  searchString.data.isPrefixOf s.data

/-- The pieces of `s.split(sep)` for a one-character separator. -/
def splitChars (sep : Char) : List Char → List (List Char)
  | [] => [[]]
  | c :: rest =>
    if c = sep then [] :: splitChars sep rest
    else
      match splitChars sep rest with
      | [] => [[c]]
      | piece :: pieces => (c :: piece) :: pieces

/-- The expression `s.split('.').pop()`: the last piece. -/
def splitDotPop (s : String) : String :=
  String.mk ((splitChars '.' s.data).getLastD [])

/-- The characters matched by `\s` in a regular expression, which are also the
ones `String.prototype.trim` removes: white space and line terminators. -/
def isWhiteSpace (c : Char) : Bool :=
  [9, 10, 11, 12, 13, 32, 0xa0, 0x1680, 0x2028, 0x2029, 0x202f, 0x205f, 0x3000, 0xfeff].contains
    c.toNat || (0x2000 ≤ c.toNat && c.toNat ≤ 0x200a)

/-- The test `s.trim() === ''`. -/
def trimIsEmpty (s : String) : Bool :=
  s.data.all isWhiteSpace

/-! ## oauthServer.js: browser detection -/

/-- The function `getBrowserAppFromUserAgent` (lines 13-38). `lowerCase` is
`String.prototype.toLowerCase`; `none` is the result `null`. A truthy value
that is not a string has no `toLowerCase` method, and the call throws. -/
def getBrowserAppFromUserAgent (lowerCase : String → String) (userAgent : JVal) :
    Except String (Option String) :=
  if !userAgent.truthy then Except.ok none
  else
    match userAgent with
    | JVal.str s =>
      let userAgent := lowerCase s
      if includes userAgent "chrome" && !includes userAgent "chromium" &&
          !includes userAgent "edge" then
        Except.ok (some "chrome")
      else if includes userAgent "firefox" then Except.ok (some "firefox")
      else if includes userAgent "edge" then Except.ok (some "edge")
      else if includes userAgent "safari" && !includes userAgent "chrome" then
        Except.ok (some "safari")
      else Except.ok none
    | _ => Except.error "TypeError: userAgent.toLowerCase is not a function"

/-! ## timerMessages.js -/

/-- The module variables of `timerMessages.js`. The two thresholds
`_min_messages` and `_message_min_interval_seconds` are set by
`startTimeMessageSending` before it starts the interval that calls
`checkAndSendTimerMessage`; times are milliseconds as `Date.now()` gives them. -/
structure TimerModule where
  min_messages : Int
  message_min_interval_seconds : Int
  lastTimerSentTime : Int
  currentTimerMessageIndex : Nat
  messageCountSinceLastTimer : Int
  timerMessages : List String
  deriving DecidableEq, Repr

/-- What one call of `checkAndSendTimerMessage` did: the module variables
afterwards, the argument of `client.say` if it was called (`undefined` for an
index outside the list), and whether the call threw (`client.say` rejected). -/
structure TimerCheck where
  state : TimerModule
  said : Option JVal
  threw : Bool
  deriving DecidableEq, Repr

/-- The expression `timerMessages[i]`; outside the list it is `undefined`. -/
def timerMessageAt (m : TimerModule) (i : Nat) : JVal :=
  match m.timerMessages.get? i with
  | some s => JVal.str s
  | none => JVal.undefined

/-- The condition of line 24. -/
def timerDue (m : TimerModule) (currentTime : Int) : Bool :=
  let timeSinceLastTimer : ℚ := ((currentTime - m.lastTimerSentTime : Int) : ℚ) / 1000
  decide (m.messageCountSinceLastTimer ≥ m.min_messages) &&
    decide (timeSinceLastTimer ≥ (m.message_min_interval_seconds : ℚ))

/-- The function `checkAndSendTimerMessage` (lines 16-33), as one atomic step;
`currentTime` is `Date.now()` and `sayRejects` tells whether `client.say`
rejects. -/
def checkAndSendTimerMessage (m : TimerModule) (currentTime : Int) (sayRejects : Bool) :
    TimerCheck :=
  if m.timerMessages.length = 0 then { state := m, said := none, threw := false }
  else if timerDue m currentTime then
    let message := timerMessageAt m m.currentTimerMessageIndex
    if sayRejects then { state := m, said := some message, threw := true }
    else
      { state :=
          { m with
            currentTimerMessageIndex := (m.currentTimerMessageIndex + 1) % m.timerMessages.length,
            messageCountSinceLastTimer := 0,
            lastTimerSentTime := currentTime },
        said := some message, threw := false }
  else { state := m, said := none, threw := false }

/-- The exported function `increaseMessageCount` (lines 67-69). -/
def increaseMessageCount (m : TimerModule) (additionalCount : Int) : TimerModule :=
  { m with messageCountSinceLastTimer := m.messageCountSinceLastTimer + additionalCount }

/-- What happens to the module between two moments: a chat message is counted,
or the interval fires a check. -/
inductive TimerEvent where
  | increase (additionalCount : Int)
  | check (currentTime : Int) (sayRejects : Bool)
  deriving DecidableEq, Repr

/-- One event of the module: the state afterwards and the message that went
out, if one did (a `client.say` that resolved). -/
def timerStep (m : TimerModule) (e : TimerEvent) : TimerModule × Option JVal :=
  match e with
  | TimerEvent.increase n => (increaseMessageCount m n, none)
  | TimerEvent.check t rejects =>
    let c := checkAndSendTimerMessage m t rejects
    (c.state, if c.threw then none else c.said)

/-- The module state after a sequence of events, and the messages that went
out, in order. -/
def runTimer : TimerModule → List TimerEvent → TimerModule × List JVal
  | m, [] => (m, [])
  | m, e :: rest =>
    let step := timerStep m e
    let later := runTimer step.1 rest
    (later.1, step.2.toList ++ later.2)

/-! ## bot.js: link filter -/

/-- The match of `/(https?:\/\/[^\s]+)/` at the start of `s`, if any: one of the
two prefixes followed by at least one character that is not white space, as
many as there are. -/
def urlAt (s : List Char) : Option (List Char) :=
  if "https://".data.isPrefixOf s then
    let rest := (s.drop 8).takeWhile (fun c => !isWhiteSpace c)
    if rest.isEmpty then none else some ("https://".data ++ rest)
  else if "http://".data.isPrefixOf s then
    let rest := (s.drop 7).takeWhile (fun c => !isWhiteSpace c)
    if rest.isEmpty then none else some ("http://".data ++ rest)
  else none

/-- The scan of a global regular expression: the leftmost match, then the next
one after its end; `skip` counts the characters of the last match still to be
passed over. -/
def scanUrls : Nat → List Char → List String
  | _, [] => []
  | skip + 1, _ :: rest => scanUrls skip rest
  | 0, c :: rest =>
    match urlAt (c :: rest) with
    | some url => String.mk url :: scanUrls (url.length - 1) rest
    | none => scanUrls 0 rest

/-- The expression `message.match(/(https?:\/\/[^\s]+)/g)`, with `[]` for
`null`. -/
def matchUrls (message : String) : List String :=
  scanUrls 0 message.data

/-- The list `allowedDomains` (lines 393-402). -/
def allowedDomains : List String :=
  [ "youtube.com", "youtu.be", "www.youtube.com", "m.youtube.com", "twitch.tv",
    "www.twitch.tv", "clips.twitch.tv", "go.twitch.tv" ]

/-- The body of the loop for one URL (lines 405-441): `true` when the function
returns `true` at this URL. `hostnameOf` is `new URL(url).hostname`, `none`
when the constructor throws; for `http` and `https` URLs the hostname is ASCII,
on which `toLowerCase` is exact. -/
def urlIsRejected (hostnameOf : String → Option String) (url : String) : Bool :=
  match hostnameOf url with
  | some hostname =>
    let hostname := toLowerCase hostname
    let isAllowed := allowedDomains.any (fun allowedDomain => endsWith hostname allowedDomain)
    !isAllowed
  | none => true

/-- What `invalidURLSend` did: its return value and whether it asked the API
to delete the message. -/
structure LinkCheck where
  result : Bool
  deleteRequested : Bool
  deriving DecidableEq, Repr

/-- The function `invalidURLSend` (lines 377-444). `senderIsMod` is
`isMod(msg.userInfo)`; the deletion is requested for the first rejected URL of
a sender who is no moderator. -/
def invalidURLSend (hostnameOf : String → Option String) (senderIsMod : Bool)
    (message : JVal) : LinkCheck :=
  match message with
  | JVal.str text =>
    if trimIsEmpty text then { result := false, deleteRequested := false }
    else if (matchUrls text).any (urlIsRejected hostnameOf) then
      { result := true, deleteRequested := !senderIsMod }
    else { result := false, deleteRequested := false }
  | _ => { result := false, deleteRequested := false }

/-! ## getAllLocalFiles.js -/

/-- The function `getAllLocalFiles` (lines 18-57). `extensions` is `none` for
an argument that is not an array; `readdir` is `fsPromises.readdir`, `none`
when it rejects; `join` is `path.join`. -/
def getAllLocalFiles (readdir : String → Option (List String))
    (join : String → String → String) (directoryPath : String)
    (extensions : Option (List String)) : List String :=
  match extensions with
  | none => []
  | some extensions =>
    if extensions.length = 0 then []
    else
      let normalizedExtensions :=
        extensions.map (fun ext => if startsWith ext "." then ext else "." ++ ext)
      match readdir directoryPath with
      | none => []
      | some files =>
        (files.filter (fun file =>
          let fileExtension := "." ++ splitDotPop file
          normalizedExtensions.contains fileExtension)).map (fun file => join directoryPath file)

/-! ## Vocabulary of the properties -/

/-- The event is a call of `startOAuthServer`. -/
def Event.isFlow : Event → Bool
  | Event.startOAuthServer _ _ _ => true
  | _ => false

/-- The event is a call of `clearAuthData`. -/
def Event.isClear : Event → Bool
  | Event.clearAuthData _ => true
  | _ => false

/-- The event is a refresh attempt (temporary provider, `getAccessTokenForUser`). -/
def Event.isRefreshAttempt : Event → Bool
  | Event.getAccessTokenForUser _ _ _ => true
  | _ => false

/-- The event is a configuration write. -/
def Event.isWrite : Event → Bool
  | Event.updateFileConfig _ => true
  | _ => false

/-- Every field of a role's credential record is absent, the browser hint
included. -/
def recordAbsent (r : Stored) : Prop :=
  r.accessToken.absent ∧ r.refreshToken.absent ∧ r.userId.absent ∧ r.username.absent ∧
  r.scopes = [] ∧ r.expiresIn.absent ∧ r.lastRefresh.absent ∧ r.browserUserAgent.absent

instance (r : Stored) : Decidable (recordAbsent r) := by
  unfold recordAbsent; infer_instance

/-- Every field of a role's credential record except the browser hint is absent. -/
def recordAbsentExceptBrowserHint (r : Stored) : Prop :=
  r.accessToken.absent ∧ r.refreshToken.absent ∧ r.userId.absent ∧ r.username.absent ∧
  r.scopes = [] ∧ r.expiresIn.absent ∧ r.lastRefresh.absent

instance (r : Stored) : Decidable (recordAbsentExceptBrowserHint r) := by
  unfold recordAbsentExceptBrowserHint; infer_instance

/-- The record a later `getFileConfig` call shows for the role. -/
def persistedRecord (pre : String) (s : ConfigStore) : Stored :=
  readStored pre (getFileConfig s).1

/-- The values `authenticateAccount` reads in "Schritt 1" from a given store. -/
def storedOf (p : Params) (store : ConfigStore) : Stored :=
  readStored p.configKeyPrefix (getFileConfig store).1

/-- The string `needle` occurs in `msg`. -/
def containsText (msg needle : String) : Prop :=
  ∃ front back : String, msg = front ++ needle ++ back

/-- The validator call of CheckExisting, as recorded in the trace. -/
def validateCheckEvent (env : Env) (stored : Stored) : Event :=
  Event.validateToken ValidateSite.checkExisting stored.accessToken
    (env.validateToken ValidateSite.checkExisting stored.accessToken)

/-- The validator accepts the stored token at CheckExisting: token and user id
are stored, the validator resolves with the stored user id, and the scope check
holds. -/
def validatorAccepts (env : Env) (p : Params) (stored : Stored) : Bool :=
  stored.accessToken.truthy && stored.userId.truthy &&
    match env.validateToken ValidateSite.checkExisting stored.accessToken with
    | ValidateOutcome.returned (some v) =>
      v.userId.strictEq stored.userId && scopesMatch p.requiredScopes v.scopes.asArray
    | _ => false

/-- CheckExisting succeeds: the validator accepts the stored token, and a
refresh token is stored, so that the provider can be built. -/
def checkAccepts (env : Env) (p : Params) (stored : Stored) : Bool :=
  validatorAccepts env p stored && stored.refreshToken.truthy

/-- The events of a CheckExisting that does not succeed: the validator call, if
there was one. -/
def checkTrace (env : Env) (stored : Stored) : List Event :=
  if stored.accessToken.truthy && stored.userId.truthy then [validateCheckEvent env stored] else []

/-- The refresh call, as recorded in the trace. -/
def refreshEvent (env : Env) (stored : Stored) : Event :=
  Event.getAccessTokenForUser stored.userId (refreshSeed env stored)
    (env.getAccessTokenForUser stored.userId (refreshSeed env stored))

/-- The validator call after a refresh that resolved with `t`. -/
def validateRefreshEvent (env : Env) (t : AccessToken) : Event :=
  Event.validateToken ValidateSite.afterRefresh t.accessToken
    (env.validateToken ValidateSite.afterRefresh t.accessToken)

/-- The Refresh step succeeds: refresh token and user id are stored, the
refresh resolves with a token, the validator resolves for it with the stored
user id, and the scope check holds. -/
def refreshAccepts (env : Env) (p : Params) (stored : Stored) : Bool :=
  stored.refreshToken.truthy && stored.userId.truthy &&
    match env.getAccessTokenForUser stored.userId (refreshSeed env stored) with
    | RefreshOutcome.returned (some t) =>
      match env.validateToken ValidateSite.afterRefresh t.accessToken with
      | ValidateOutcome.returned (some v) =>
        v.userId.strictEq stored.userId && scopesMatch p.requiredScopes v.scopes.asArray
      | _ => false
    | _ => false

/-- The events of the Refresh step up to (not including) the provider build. -/
def refreshTrace (env : Env) (stored : Stored) : List Event :=
  Event.refreshStepEntered ::
    if stored.refreshToken.truthy && stored.userId.truthy then
      refreshEvent env stored ::
        match env.getAccessTokenForUser stored.userId (refreshSeed env stored) with
        | RefreshOutcome.returned (some t) => [validateRefreshEvent env t]
        | _ => []
    else []

/-- The value of `userData` after the Refresh step. -/
def refreshUserData (env : Env) (stored : Stored) : UserData :=
  if stored.refreshToken.truthy && stored.userId.truthy then
    match env.getAccessTokenForUser stored.userId (refreshSeed env stored) with
    | RefreshOutcome.throws => UserData.val JVal.undefined
    | RefreshOutcome.returned none => UserData.val JVal.null
    | RefreshOutcome.returned (some t) => UserData.token t
  else UserData.val JVal.undefined

/-- The refresh token that `buildProvider` reads in state `r` and hands to
`addUser`. -/
def refreshTokenAt (p : Params) (r : Run) : JVal :=
  (getFileConfig r.store).1.get (keyRefreshToken p.configKeyPrefix)

/-- The provider `buildProvider` creates in state `r`. -/
def providerOf (env : Env) (p : Params) (r : Run) : AuthProvider :=
  { clientId := p.clientId, clientSecret := p.clientSecret,
    configKeyPrefix := p.configKeyPrefix, userId := r.userId, accessToken := r.userData,
    refreshToken := (getFileConfig r.store).1.get (keyRefreshToken p.configKeyPrefix),
    expiresIn := (getFileConfig r.store).1.get (keyExpiresIn p.configKeyPrefix),
    scope := ((getFileConfig r.store).1.get (keyScopes p.configKeyPrefix)).orEmptyArray,
    obtainmentTimestamp := obtainmentTimestampOf env
      ((getFileConfig r.store).1.get (keyLastRefresh p.configKeyPrefix)) }

/-- The state after a `buildProvider` that did not throw. -/
def builtRun (env : Env) (p : Params) (r : Run) : Run :=
  { r with store := (getFileConfig r.store).2,
           authProvider := some (providerOf env p r),
           apiClient := some { authProvider := providerOf env p r },
           trace := r.trace ++ [Event.createAndConfigureAuthProvider (providerOf env p r)] }

/-- The scope list the validator reports at CheckExisting. -/
def checkScopes (env : Env) (stored : Stored) : List String :=
  match env.validateToken ValidateSite.checkExisting stored.accessToken with
  | ValidateOutcome.returned (some v) => v.scopes.asArray
  | _ => []

/-- The state after a successful CheckExisting (lines 174-199). -/
def checkSuccessRun (env : Env) (p : Params) (stored : Stored) (r : Run) : Run :=
  let r1 := builtRun env p
    { r with trace := r.trace ++ [validateCheckEvent env stored],
             userData := UserData.val stored.accessToken,
             userId := stored.userId, username := stored.username }
  if stored.scopes ≠ checkScopes env stored then
    { r1 with store := updateFileConfig r1.store
                [(keyScopes p.configKeyPrefix, JVal.arr (checkScopes env stored))],
              trace := r1.trace ++ [Event.updateFileConfig
                [(keyScopes p.configKeyPrefix, JVal.arr (checkScopes env stored))]] }
  else r1

/-- The state after a successful Refresh step (lines 264-292), following a
CheckExisting that did not succeed. -/
def refreshSuccessRun (env : Env) (p : Params) (stored : Stored) (r : Run) : Run :=
  builtRun env p
    { r with tokenNeedsRefresh := true, userData := refreshUserData env stored,
             userId := stored.userId, username := stored.username,
             trace := r.trace ++ checkTrace env stored ++ refreshTrace env stored }

/-- The state after a CheckExisting that did not succeed. When the validator
accepted the token, it was the provider build that threw: the three locals are
already assigned and the configuration was re-read. -/
def checkFailRun (env : Env) (p : Params) (stored : Stored) (r : Run) : Run :=
  if validatorAccepts env p stored then
    { r with tokenNeedsRefresh := true,
             userData := UserData.val stored.accessToken,
             userId := stored.userId, username := stored.username,
             store := (getFileConfig r.store).2,
             trace := r.trace ++ checkTrace env stored }
  else { r with tokenNeedsRefresh := true, trace := r.trace ++ checkTrace env stored }

/-- The state at line 306 when neither CheckExisting nor Refresh succeeded. -/
def reauthNeededRun (env : Env) (p : Params) (stored : Stored) (r : Run) : Run :=
  { checkFailRun env p stored r with
    tokenNeedsFullReauth := true,
    userData := if stored.refreshToken.truthy && stored.userId.truthy
      then refreshUserData env stored else (checkFailRun env p stored r).userData,
    trace := r.trace ++ checkTrace env stored ++ refreshTrace env stored }

/-- The four events with which FullReauth starts. -/
def flowTrace (env : Env) (p : Params) (stored : Stored) (store : ConfigStore) : List Event :=
  [ Event.fullReauthEntered, Event.clearAuthData p.configKeyPrefix,
    Event.updateFileConfig (clearValues p.configKeyPrefix),
    Event.startOAuthServer (oauthOptions p stored) (clearAuthData store p.configKeyPrefix)
      (env.startOAuthServer (oauthOptions p stored)) ]

/-! ## Vocabulary of the properties: lists, validator, flow, roles -/

/-- The natural-language list as the docstring of `formatListNaturally`
describes it ("A, B und C"): the items in order, all but the last separated by
", ", the last joined with " und ", nothing before or after. -/
def naturalList (items : List String) : String :=
  match items with
  | [] => ""
  | [a] => a
  | a :: b :: rest =>
    ", ".intercalate (a :: b :: rest).dropLast ++ " und " ++
      (a :: b :: rest).getLast (List.cons_ne_nil a (b :: rest))

/-- The keys of a configuration object, in insertion order. -/
def Config.keys (c : Config) : List String :=
  c.map Prod.fst

/-- The eight keys of a role's credential record. -/
def roleKeys (pre : String) : List String :=
  [ keyToken pre, keyRefreshToken pre, keyUserId pre, keyUsername pre, keyLastRefresh pre,
    keyExpiresIn pre, keyScopes pre, keyBrowser pre ]

/-- The five keys the `onRefresh` handler writes. -/
def refreshKeys (pre : String) : List String :=
  [ keyToken pre, keyRefreshToken pre, keyExpiresIn pre, keyScopes pre, keyLastRefresh pre ]

/-- Access token and refresh token are both present (truthy) or both absent. -/
def pairInvariant (r : Stored) : Prop :=
  r.accessToken.truthy = r.refreshToken.truthy

instance (r : Stored) : Decidable (pairInvariant r) := by
  unfold pairInvariant; infer_instance

/-- The in-memory config is in step with what `getFileConfig` returns: a
further `getFileConfig` changes nothing. -/
def ConfigStore.loaded (s : ConfigStore) : Prop :=
  getFileConfig s = (s.fileConfig, s)

/-- A hostname comes from YouTube or Twitch: it is one of the allowed domains
or a subdomain of one. -/
def fromAllowedDomain (hostname : String) : Bool :=
  allowedDomains.any (fun allowedDomain =>
    hostname == allowedDomain || endsWith hostname ("." ++ allowedDomain))

/-- A URL is a link that does not come from YouTube or Twitch: its hostname is
not from an allowed domain, or it has none. -/
def linkNotAllowed (hostnameOf : String → Option String) (url : String) : Bool :=
  match hostnameOf url with
  | some hostname => !fromAllowedDomain (toLowerCase hostname)
  | none => true

/-- A file name has the extension `ext` (given with or without its dot): it
ends with the dot and the extension. -/
def hasExtension (file ext : String) : Bool :=
  endsWith file (if startsWith ext "." then ext else "." ++ ext)

/-! ## Concrete scenarios -/

/-- The bot role with two required scopes. -/
def botParams : Params :=
  { clientId := JVal.str "client-id", clientSecret := JVal.str "client-secret",
    redirectUri := JVal.str "http://localhost:8080/auth/callback",
    configKeyPrefix := "BOT", requiredScopes := ["chat:read", "chat:edit"],
    oauthServerPort := none }

/-- A store without any key, file included. -/
def emptyStore : ConfigStore :=
  { fileConfig := [], disk := Disk.json [], writable := true }

/-- A complete bot record, with a browser hint. -/
def fullBotConfig : Config :=
  [ ("BOT_OAUTH_TOKEN", JVal.str "A0"),
    ("BOT_OAUTH_REFRESH_TOKEN", JVal.str "R0"),
    ("BOT_TWITCH_USER_ID", JVal.str "123"),
    ("BOT_USERNAME", JVal.str "mybot"),
    ("LAST_BOT_TOKEN_REFRESH", JVal.str "2024-01-01T00:00:00.000Z"),
    ("BOT_OAUTH_EXPIRES_IN", JVal.num 3600),
    ("BOT_REQUIRED_SCOPES", JVal.arr ["chat:read", "chat:edit"]),
    ("BOT_LAST_AUTH_BROWSER_USER_AGENT", JVal.str "Mozilla/5.0 Firefox/120.0") ]

/-- The complete bot record, in memory and on disk. -/
def fullBotStore : ConfigStore :=
  { fileConfig := fullBotConfig, disk := Disk.json fullBotConfig, writable := true }

/-- The bot record without a username. -/
def noUsernameConfig : Config :=
  [ ("BOT_OAUTH_TOKEN", JVal.str "A0"),
    ("BOT_OAUTH_REFRESH_TOKEN", JVal.str "R0"),
    ("BOT_TWITCH_USER_ID", JVal.str "123"),
    ("LAST_BOT_TOKEN_REFRESH", JVal.str "2024-01-01T00:00:00.000Z"),
    ("BOT_OAUTH_EXPIRES_IN", JVal.num 3600),
    ("BOT_REQUIRED_SCOPES", JVal.arr ["chat:read", "chat:edit"]) ]

/-- The bot record without a username, in memory and on disk. -/
def noUsernameStore : ConfigStore :=
  { fileConfig := noUsernameConfig, disk := Disk.json noUsernameConfig, writable := true }

/-- The bot role called without a client id. -/
def noClientIdParams : Params :=
  { botParams with clientId := JVal.null }

/-- The validator's answer for user 123 with exactly the two required scopes,
in another order. -/
def exactValidation : ValidationResult :=
  { clientId := JVal.str "client-id", userId := JVal.str "123",
    scopes := JVal.arr ["chat:edit", "chat:read"] }

/-- The validator's answer for user 123 with one scope more than required. -/
def supersetValidation : ValidationResult :=
  { clientId := JVal.str "client-id", userId := JVal.str "123",
    scopes := JVal.arr ["chat:read", "chat:edit", "bits:read"] }

/-- The validator's answer for another user. -/
def otherUserValidation : ValidationResult :=
  { clientId := JVal.str "client-id", userId := JVal.str "999",
    scopes := JVal.arr ["chat:read", "chat:edit"] }

/-- The token pair a refresh produces. -/
def refreshedToken : AccessToken :=
  { accessToken := JVal.str "A1", refreshToken := JVal.str "R1", expiresIn := JVal.num 14400,
    scope := JVal.arr ["chat:read", "chat:edit"], obtainmentTimestamp := 1717243200000 }

/-- The result of the simulated flow of the end-to-end scenario. -/
def botAuthData : AuthData :=
  { accessToken := JVal.str "A1", refreshToken := JVal.str "R1", expiresIn := JVal.num 3600,
    scope := JVal.arr ["chat:read", "chat:edit"], userId := JVal.str "123",
    username := JVal.str "mybot", userAgent := JVal.str "Mozilla/5.0 Chrome/120.0" }

/-- A flow result whose identity lookup failed. -/
def partialAuthData : AuthData :=
  { botAuthData with userId := JVal.str "", username := JVal.str "" }

/-- The text of the provider library's error for a user id given as a string;
the examples use no other kind of user id. -/
def addUserErrorText (userId : JVal) : String :=
  match userId with
  | JVal.str s => "Trying to add user " ++ s ++ " without refresh token"
  | _ => "Trying to add a user without refresh token"

/-- The stored token is valid with exact scopes; refresh and flow would fail. -/
def checkOkEnv : Env :=
  { validateToken := fun _ _ => ValidateOutcome.returned (some exactValidation),
    getAccessTokenForUser := fun _ _ => RefreshOutcome.throws,
    startOAuthServer := fun _ => FlowOutcome.rejects,
    dateGetTime := fun _ => 1704067200000,
    nowISO := "2024-06-01T12:00:00.000Z",
    addUserError := addUserErrorText }

/-- The stored token is valid but has an extra scope; refresh and flow fail. -/
def supersetEnv : Env :=
  { checkOkEnv with
    validateToken := fun _ _ => ValidateOutcome.returned (some supersetValidation) }

/-- The stored token is expired, the refresh works and the new token is valid
with exact scopes; the flow would fail. -/
def refreshOkEnv : Env :=
  { checkOkEnv with
    validateToken := fun site _ =>
      match site with
      | ValidateSite.checkExisting => ValidateOutcome.returned none
      | ValidateSite.afterRefresh => ValidateOutcome.returned (some exactValidation),
    getAccessTokenForUser := fun _ _ => RefreshOutcome.returned (some refreshedToken) }

/-- The stored token is expired, the refresh works but the new token belongs
to another user; the flow succeeds. -/
def identityChangeEnv : Env :=
  { refreshOkEnv with
    validateToken := fun site _ =>
      match site with
      | ValidateSite.checkExisting => ValidateOutcome.returned none
      | ValidateSite.afterRefresh => ValidateOutcome.returned (some otherUserValidation),
    startOAuthServer := fun _ => FlowOutcome.resolves botAuthData }

/-- The stored token is expired, the refresh throws and the flow rejects. -/
def refreshThrowsEnv : Env :=
  { checkOkEnv with validateToken := fun _ _ => ValidateOutcome.returned none }

/-- Nothing stored is usable and the flow succeeds. -/
def flowOkEnv : Env :=
  { refreshThrowsEnv with startOAuthServer := fun _ => FlowOutcome.resolves botAuthData }

/-- Nothing stored is usable and the flow resolves without an identity. -/
def partialIdentityEnv : Env :=
  { refreshThrowsEnv with startOAuthServer := fun _ => FlowOutcome.resolves partialAuthData }

/-- The validate endpoint answers 2xx for user 123, without a `scopes`
property. -/
def validateOkNoScopes : JVal → FetchOutcome ValidateBody :=
  fun _ => FetchOutcome.response true
    (some { client_id := JVal.str "client-id", user_id := JVal.str "123",
            scopes := JVal.undefined })

/-- The validate endpoint answers 401. -/
def validateUnauthorized : JVal → FetchOutcome ValidateBody :=
  fun _ => FetchOutcome.response false none

/-- A redirect callback with a code, from a Chrome browser. -/
def codeRequest : CallbackRequest :=
  { code := JVal.str "one-time-code", userAgent := JVal.str "Mozilla/5.0 Chrome/120.0" }

/-- A redirect callback without a code. -/
def noCodeRequest : CallbackRequest :=
  { code := JVal.undefined, userAgent := JVal.str "Mozilla/5.0 Chrome/120.0" }

/-- The token endpoint's answer of the end-to-end scenario. -/
def tokenBodyA1 : TokenBody :=
  { access_token := JVal.str "A1", refresh_token := JVal.str "R1", expires_in := JVal.num 3600,
    scope := JVal.arr ["chat:read", "chat:edit"], message := JVal.undefined }

/-- A token answer with an access token but no refresh token. -/
def tokenBodyNoRefresh : TokenBody :=
  { tokenBodyA1 with refresh_token := JVal.undefined }

/-- A token answer without an access token. -/
def tokenBodyDenied : TokenBody :=
  { access_token := JVal.undefined, refresh_token := JVal.undefined,
    expires_in := JVal.undefined, scope := JVal.undefined,
    message := JVal.str "Invalid authorization code" }

/-- The user lookup answers with the bot account. -/
def usersOk : FetchOutcome UsersBody :=
  FetchOutcome.response true
    (some { data := some [{ login := JVal.str "mybot", id := JVal.str "123" }] })

/-- The user lookup answers 2xx with an empty `data` array. -/
def usersEmpty : FetchOutcome UsersBody :=
  FetchOutcome.response true (some { data := some [] })

/-- Nothing stored is usable, and the flow is the callback handler run on a
token answer without a refresh token. -/
def noRefreshTokenEnv : Env :=
  { refreshThrowsEnv with
    startOAuthServer := fun _ =>
      (oauthCallback codeRequest (FetchOutcome.response true (some tokenBodyNoRefresh))
        usersOk).attempt }


/-- The provider built at the end of the end-to-end scenario. -/
def flowOkProvider : AuthProvider :=
  { clientId := JVal.str "client-id", clientSecret := JVal.str "client-secret",
    configKeyPrefix := "BOT", userId := JVal.str "123",
    accessToken := UserData.val (JVal.str "A1"), refreshToken := JVal.str "R1",
    expiresIn := JVal.num 3600, scope := JVal.arr ["chat:read", "chat:edit"],
    obtainmentTimestamp := 1704067200000 }

/-- The session returned in the end-to-end scenario. -/
def flowOkSession : Session :=
  { authProvider := flowOkProvider, apiClient := { authProvider := flowOkProvider },
    userId := JVal.str "123", username := JVal.str "mybot",
    accessToken := UserData.val (JVal.str "A1") }

/-- A token pair delivered by a later refresh. -/
def laterToken : AccessToken :=
  { accessToken := JVal.str "A2", refreshToken := JVal.str "R2", expiresIn := JVal.num 14400,
    scope := JVal.arr ["chat:read", "chat:edit"], obtainmentTimestamp := 1717250400000 }

/-- A config holding both roles' records. -/
def bothRolesConfig : Config :=
  fullBotConfig ++
    [ ("STREAMER_OAUTH_TOKEN", JVal.str "S0"), ("STREAMER_OAUTH_REFRESH_TOKEN", JVal.str "SR0"),
      ("STREAMER_TWITCH_USER_ID", JVal.str "777"), ("STREAMER_USERNAME", JVal.str "streamer") ]

/-- Both roles' records, in memory and on disk. -/
def bothRolesStore : ConfigStore :=
  { fileConfig := bothRolesConfig, disk := Disk.json bothRolesConfig, writable := true }

/-- A bot record with an access token and an identity but no refresh token. -/
def noRefreshConfig : Config :=
  [ ("BOT_OAUTH_TOKEN", JVal.str "A0"),
    ("BOT_TWITCH_USER_ID", JVal.str "123"),
    ("BOT_USERNAME", JVal.str "mybot"),
    ("BOT_REQUIRED_SCOPES", JVal.arr ["chat:read", "chat:edit"]) ]

/-- The record without a refresh token, in memory and on disk. -/
def noRefreshStore : ConfigStore :=
  { fileConfig := noRefreshConfig, disk := Disk.json noRefreshConfig, writable := true }

/-- The stored token is expired, the refresh works but the validator rejects
the new token too; the flow succeeds. -/
def refreshInvalidEnv : Env :=
  { refreshOkEnv with
    validateToken := fun _ _ => ValidateOutcome.returned none,
    startOAuthServer := fun _ => FlowOutcome.resolves botAuthData }

/-- The stored token is expired, the refresh works but the new token has an
extra scope; the flow succeeds. -/
def refreshExtraScopeEnv : Env :=
  { refreshOkEnv with
    validateToken := fun site _ =>
      match site with
      | ValidateSite.checkExisting => ValidateOutcome.returned none
      | ValidateSite.afterRefresh => ValidateOutcome.returned (some supersetValidation),
    startOAuthServer := fun _ => FlowOutcome.resolves botAuthData }

/-- A timer module with three messages, at the last one, with 30 chat messages
counted since the last send at time 0; the thresholds are the defaults of
`startTimeMessageSending`. -/
def threeMessageTimer : TimerModule :=
  { min_messages := 30, message_min_interval_seconds := 30 * 60, lastTimerSentTime := 0,
    currentTimerMessageIndex := 2, messageCountSinceLastTimer := 30,
    timerMessages := ["first", "second", "third"] }

/-- The hostnames `new URL(url).hostname` gives for the URLs of the examples;
for any other string the constructor is taken to throw. -/
def exampleHostnameOf (url : String) : Option String :=
  if url = "https://evilyoutube.com/watch" then some "evilyoutube.com"
  else if url = "https://www.youtube.com/watch?v=1" then some "www.youtube.com"
  else if url = "https://example.org/" then some "example.org"
  else none

/-- A directory `botCommands` with four entries; any other directory cannot be
read. -/
def exampleReaddir (directoryPath : String) : Option (List String) :=
  if directoryPath = "botCommands" then
    some ["followageCommand.js", "js", "notes.txt", "backup.tar.gz"]
  else none

/-- What `path.join` gives for a plain directory name and a plain file name. -/
def exampleJoin (directoryPath file : String) : String :=
  directoryPath ++ "/" ++ file
/-! ## Basic facts: strings, keys, configuration objects -/

theorem str_append_left_cancel (p a b : String) : p ++ a = p ++ b ↔ a = b := by
  constructor
  · intro h
    have h2 := congrArg String.data h
    simp only [String.data_append] at h2
    exact String.ext (List.append_cancel_left h2)
  · rintro rfl; rfl

theorem last_key_ne_suffix (p a : String) (h : a.length ≠ 19) :
    "LAST_" ++ p ++ "_TOKEN_REFRESH" ≠ p ++ a := by
  intro heq
  have h2 := congrArg String.length heq
  simp only [String.length_append] at h2
  have e1 : "LAST_".length = 5 := by decide
  have e2 : "_TOKEN_REFRESH".length = 14 := by decide
  omega

@[simp] theorem keyToken_ne_keyRefreshToken (p : String) : (keyToken p = keyRefreshToken p) = False := by
  simp [keyToken, keyRefreshToken, str_append_left_cancel]

@[simp] theorem keyToken_ne_keyUserId (p : String) : (keyToken p = keyUserId p) = False := by
  simp [keyToken, keyUserId, str_append_left_cancel]

@[simp] theorem keyToken_ne_keyUsername (p : String) : (keyToken p = keyUsername p) = False := by
  simp [keyToken, keyUsername, str_append_left_cancel]

@[simp] theorem keyToken_ne_keyLastRefresh (p : String) : (keyToken p = keyLastRefresh p) = False := by
  simpa [keyToken, keyLastRefresh, eq_comm] using last_key_ne_suffix p "_OAUTH_TOKEN" (by decide)

@[simp] theorem keyToken_ne_keyExpiresIn (p : String) : (keyToken p = keyExpiresIn p) = False := by
  simp [keyToken, keyExpiresIn, str_append_left_cancel]

@[simp] theorem keyToken_ne_keyScopes (p : String) : (keyToken p = keyScopes p) = False := by
  simp [keyToken, keyScopes, str_append_left_cancel]

@[simp] theorem keyToken_ne_keyBrowser (p : String) : (keyToken p = keyBrowser p) = False := by
  simp [keyToken, keyBrowser, str_append_left_cancel]

@[simp] theorem keyRefreshToken_ne_keyToken (p : String) : (keyRefreshToken p = keyToken p) = False := by
  simp [keyRefreshToken, keyToken, str_append_left_cancel]

@[simp] theorem keyRefreshToken_ne_keyUserId (p : String) : (keyRefreshToken p = keyUserId p) = False := by
  simp [keyRefreshToken, keyUserId, str_append_left_cancel]

@[simp] theorem keyRefreshToken_ne_keyUsername (p : String) : (keyRefreshToken p = keyUsername p) = False := by
  simp [keyRefreshToken, keyUsername, str_append_left_cancel]

@[simp] theorem keyRefreshToken_ne_keyLastRefresh (p : String) : (keyRefreshToken p = keyLastRefresh p) = False := by
  simpa [keyRefreshToken, keyLastRefresh, eq_comm] using last_key_ne_suffix p "_OAUTH_REFRESH_TOKEN" (by decide)

@[simp] theorem keyRefreshToken_ne_keyExpiresIn (p : String) : (keyRefreshToken p = keyExpiresIn p) = False := by
  simp [keyRefreshToken, keyExpiresIn, str_append_left_cancel]

@[simp] theorem keyRefreshToken_ne_keyScopes (p : String) : (keyRefreshToken p = keyScopes p) = False := by
  simp [keyRefreshToken, keyScopes, str_append_left_cancel]

@[simp] theorem keyRefreshToken_ne_keyBrowser (p : String) : (keyRefreshToken p = keyBrowser p) = False := by
  simp [keyRefreshToken, keyBrowser, str_append_left_cancel]

@[simp] theorem keyUserId_ne_keyToken (p : String) : (keyUserId p = keyToken p) = False := by
  simp [keyUserId, keyToken, str_append_left_cancel]

@[simp] theorem keyUserId_ne_keyRefreshToken (p : String) : (keyUserId p = keyRefreshToken p) = False := by
  simp [keyUserId, keyRefreshToken, str_append_left_cancel]

@[simp] theorem keyUserId_ne_keyUsername (p : String) : (keyUserId p = keyUsername p) = False := by
  simp [keyUserId, keyUsername, str_append_left_cancel]

@[simp] theorem keyUserId_ne_keyLastRefresh (p : String) : (keyUserId p = keyLastRefresh p) = False := by
  simpa [keyUserId, keyLastRefresh, eq_comm] using last_key_ne_suffix p "_TWITCH_USER_ID" (by decide)

@[simp] theorem keyUserId_ne_keyExpiresIn (p : String) : (keyUserId p = keyExpiresIn p) = False := by
  simp [keyUserId, keyExpiresIn, str_append_left_cancel]

@[simp] theorem keyUserId_ne_keyScopes (p : String) : (keyUserId p = keyScopes p) = False := by
  simp [keyUserId, keyScopes, str_append_left_cancel]

@[simp] theorem keyUserId_ne_keyBrowser (p : String) : (keyUserId p = keyBrowser p) = False := by
  simp [keyUserId, keyBrowser, str_append_left_cancel]

@[simp] theorem keyUsername_ne_keyToken (p : String) : (keyUsername p = keyToken p) = False := by
  simp [keyUsername, keyToken, str_append_left_cancel]

@[simp] theorem keyUsername_ne_keyRefreshToken (p : String) : (keyUsername p = keyRefreshToken p) = False := by
  simp [keyUsername, keyRefreshToken, str_append_left_cancel]

@[simp] theorem keyUsername_ne_keyUserId (p : String) : (keyUsername p = keyUserId p) = False := by
  simp [keyUsername, keyUserId, str_append_left_cancel]

@[simp] theorem keyUsername_ne_keyLastRefresh (p : String) : (keyUsername p = keyLastRefresh p) = False := by
  simpa [keyUsername, keyLastRefresh, eq_comm] using last_key_ne_suffix p "_USERNAME" (by decide)

@[simp] theorem keyUsername_ne_keyExpiresIn (p : String) : (keyUsername p = keyExpiresIn p) = False := by
  simp [keyUsername, keyExpiresIn, str_append_left_cancel]

@[simp] theorem keyUsername_ne_keyScopes (p : String) : (keyUsername p = keyScopes p) = False := by
  simp [keyUsername, keyScopes, str_append_left_cancel]

@[simp] theorem keyUsername_ne_keyBrowser (p : String) : (keyUsername p = keyBrowser p) = False := by
  simp [keyUsername, keyBrowser, str_append_left_cancel]

@[simp] theorem keyLastRefresh_ne_keyToken (p : String) : (keyLastRefresh p = keyToken p) = False := by
  simpa [keyLastRefresh, keyToken] using last_key_ne_suffix p "_OAUTH_TOKEN" (by decide)

@[simp] theorem keyLastRefresh_ne_keyRefreshToken (p : String) : (keyLastRefresh p = keyRefreshToken p) = False := by
  simpa [keyLastRefresh, keyRefreshToken] using last_key_ne_suffix p "_OAUTH_REFRESH_TOKEN" (by decide)

@[simp] theorem keyLastRefresh_ne_keyUserId (p : String) : (keyLastRefresh p = keyUserId p) = False := by
  simpa [keyLastRefresh, keyUserId] using last_key_ne_suffix p "_TWITCH_USER_ID" (by decide)

@[simp] theorem keyLastRefresh_ne_keyUsername (p : String) : (keyLastRefresh p = keyUsername p) = False := by
  simpa [keyLastRefresh, keyUsername] using last_key_ne_suffix p "_USERNAME" (by decide)

@[simp] theorem keyLastRefresh_ne_keyExpiresIn (p : String) : (keyLastRefresh p = keyExpiresIn p) = False := by
  simpa [keyLastRefresh, keyExpiresIn] using last_key_ne_suffix p "_OAUTH_EXPIRES_IN" (by decide)

@[simp] theorem keyLastRefresh_ne_keyScopes (p : String) : (keyLastRefresh p = keyScopes p) = False := by
  simpa [keyLastRefresh, keyScopes] using last_key_ne_suffix p "_REQUIRED_SCOPES" (by decide)

@[simp] theorem keyLastRefresh_ne_keyBrowser (p : String) : (keyLastRefresh p = keyBrowser p) = False := by
  simpa [keyLastRefresh, keyBrowser] using last_key_ne_suffix p "_LAST_AUTH_BROWSER_USER_AGENT" (by decide)

@[simp] theorem keyExpiresIn_ne_keyToken (p : String) : (keyExpiresIn p = keyToken p) = False := by
  simp [keyExpiresIn, keyToken, str_append_left_cancel]

@[simp] theorem keyExpiresIn_ne_keyRefreshToken (p : String) : (keyExpiresIn p = keyRefreshToken p) = False := by
  simp [keyExpiresIn, keyRefreshToken, str_append_left_cancel]

@[simp] theorem keyExpiresIn_ne_keyUserId (p : String) : (keyExpiresIn p = keyUserId p) = False := by
  simp [keyExpiresIn, keyUserId, str_append_left_cancel]

@[simp] theorem keyExpiresIn_ne_keyUsername (p : String) : (keyExpiresIn p = keyUsername p) = False := by
  simp [keyExpiresIn, keyUsername, str_append_left_cancel]

@[simp] theorem keyExpiresIn_ne_keyLastRefresh (p : String) : (keyExpiresIn p = keyLastRefresh p) = False := by
  simpa [keyExpiresIn, keyLastRefresh, eq_comm] using last_key_ne_suffix p "_OAUTH_EXPIRES_IN" (by decide)

@[simp] theorem keyExpiresIn_ne_keyScopes (p : String) : (keyExpiresIn p = keyScopes p) = False := by
  simp [keyExpiresIn, keyScopes, str_append_left_cancel]

@[simp] theorem keyExpiresIn_ne_keyBrowser (p : String) : (keyExpiresIn p = keyBrowser p) = False := by
  simp [keyExpiresIn, keyBrowser, str_append_left_cancel]

@[simp] theorem keyScopes_ne_keyToken (p : String) : (keyScopes p = keyToken p) = False := by
  simp [keyScopes, keyToken, str_append_left_cancel]

@[simp] theorem keyScopes_ne_keyRefreshToken (p : String) : (keyScopes p = keyRefreshToken p) = False := by
  simp [keyScopes, keyRefreshToken, str_append_left_cancel]

@[simp] theorem keyScopes_ne_keyUserId (p : String) : (keyScopes p = keyUserId p) = False := by
  simp [keyScopes, keyUserId, str_append_left_cancel]

@[simp] theorem keyScopes_ne_keyUsername (p : String) : (keyScopes p = keyUsername p) = False := by
  simp [keyScopes, keyUsername, str_append_left_cancel]

@[simp] theorem keyScopes_ne_keyLastRefresh (p : String) : (keyScopes p = keyLastRefresh p) = False := by
  simpa [keyScopes, keyLastRefresh, eq_comm] using last_key_ne_suffix p "_REQUIRED_SCOPES" (by decide)

@[simp] theorem keyScopes_ne_keyExpiresIn (p : String) : (keyScopes p = keyExpiresIn p) = False := by
  simp [keyScopes, keyExpiresIn, str_append_left_cancel]

@[simp] theorem keyScopes_ne_keyBrowser (p : String) : (keyScopes p = keyBrowser p) = False := by
  simp [keyScopes, keyBrowser, str_append_left_cancel]

@[simp] theorem keyBrowser_ne_keyToken (p : String) : (keyBrowser p = keyToken p) = False := by
  simp [keyBrowser, keyToken, str_append_left_cancel]

@[simp] theorem keyBrowser_ne_keyRefreshToken (p : String) : (keyBrowser p = keyRefreshToken p) = False := by
  simp [keyBrowser, keyRefreshToken, str_append_left_cancel]

@[simp] theorem keyBrowser_ne_keyUserId (p : String) : (keyBrowser p = keyUserId p) = False := by
  simp [keyBrowser, keyUserId, str_append_left_cancel]

@[simp] theorem keyBrowser_ne_keyUsername (p : String) : (keyBrowser p = keyUsername p) = False := by
  simp [keyBrowser, keyUsername, str_append_left_cancel]

@[simp] theorem keyBrowser_ne_keyLastRefresh (p : String) : (keyBrowser p = keyLastRefresh p) = False := by
  simpa [keyBrowser, keyLastRefresh, eq_comm] using last_key_ne_suffix p "_LAST_AUTH_BROWSER_USER_AGENT" (by decide)

@[simp] theorem keyBrowser_ne_keyExpiresIn (p : String) : (keyBrowser p = keyExpiresIn p) = False := by
  simp [keyBrowser, keyExpiresIn, str_append_left_cancel]

@[simp] theorem keyBrowser_ne_keyScopes (p : String) : (keyBrowser p = keyScopes p) = False := by
  simp [keyBrowser, keyScopes, str_append_left_cancel]

theorem Config.get_set (c : Config) (k k' : String) (v : JVal) :
    (c.set k v).get k' = if k = k' then v else c.get k' := by
  induction c with
  | nil => simp [Config.set, Config.get]
  | cons hd tl ih =>
    obtain ⟨k0, v0⟩ := hd
    by_cases h : k0 = k
    · subst h
      by_cases h2 : k0 = k' <;> simp [Config.set, Config.get, h2]
    · simp only [Config.set, h, if_false, Config.get, ih]
      by_cases h2 : k0 = k'
      · subst h2
        simp [Ne.symm h]
      · simp [h2]

theorem objectAssign_nil (c : Config) : objectAssign c [] = c := rfl

theorem objectAssign_cons (c : Config) (k : String) (v : JVal) (rest : Config) :
    objectAssign c ((k, v) :: rest) = objectAssign (c.set k v) rest := rfl

theorem Config.set_length_pos (c : Config) (k : String) (v : JVal) : 0 < (c.set k v).length := by
  cases c with
  | nil => simp [Config.set]
  | cons hd tl =>
    obtain ⟨k0, v0⟩ := hd
    by_cases h : k0 = k <;> simp [Config.set, h]

theorem objectAssign_length_pos (c : Config) (k : String) (v : JVal) (rest : Config) :
    0 < (objectAssign c ((k, v) :: rest)).length := by
  rw [objectAssign_cons]
  generalize hc : c.set k v = c'
  have hpos : 0 < c'.length := hc ▸ Config.set_length_pos c k v
  clear hc
  induction rest generalizing c' with
  | nil => simpa [objectAssign_nil] using hpos
  | cons hd tl ih =>
    obtain ⟨k1, v1⟩ := hd
    rw [objectAssign_cons]
    exact ih _ (Config.set_length_pos _ _ _)

/-! ### The config store -/

theorem getFileConfig_of_ne_nil (s : ConfigStore) (h : 0 < s.fileConfig.length) :
    getFileConfig s = (s.fileConfig, s) := by
  unfold getFileConfig
  rw [if_neg (by omega)]

theorem updateFileConfig_fileConfig (s : ConfigStore) (newValues : Config) :
    (updateFileConfig s newValues).fileConfig = objectAssign s.fileConfig newValues := by
  unfold updateFileConfig
  by_cases h : s.writable <;> simp [h]

theorem getFileConfig_updateFileConfig (s : ConfigStore) (k : String) (v : JVal) (rest : Config) :
    getFileConfig (updateFileConfig s ((k, v) :: rest)) =
      (objectAssign s.fileConfig ((k, v) :: rest), updateFileConfig s ((k, v) :: rest)) := by
  rw [getFileConfig_of_ne_nil, updateFileConfig_fileConfig]
  rw [updateFileConfig_fileConfig]
  exact objectAssign_length_pos _ _ _ _

theorem getFileConfig_clearAuthData (s : ConfigStore) (pre : String) :
    getFileConfig (clearAuthData s pre) =
      (objectAssign s.fileConfig (clearValues pre), clearAuthData s pre) := by
  unfold clearAuthData clearValues
  exact getFileConfig_updateFileConfig _ _ _ _

theorem readStored_clearValues (c : Config) (pre : String) :
    readStored pre (objectAssign c (clearValues pre)) =
      { accessToken := JVal.null, refreshToken := JVal.null, userId := JVal.null,
        username := JVal.null, scopes := [], expiresIn := JVal.null, lastRefresh := JVal.null,
        browserUserAgent := c.get (keyBrowser pre) } := by
  simp [readStored, objectAssign_cons, objectAssign_nil, clearValues, Config.get_set, JVal.asArray]


theorem clearAuthData_record (s : ConfigStore) (pre : String) :
    persistedRecord pre (clearAuthData s pre) =
      { accessToken := JVal.null, refreshToken := JVal.null, userId := JVal.null,
        username := JVal.null, scopes := [], expiresIn := JVal.null, lastRefresh := JVal.null,
        browserUserAgent := s.fileConfig.get (keyBrowser pre) } := by
  unfold persistedRecord
  rw [getFileConfig_clearAuthData]
  exact readStored_clearValues _ _

theorem getFileConfig_fst (s : ConfigStore) : (getFileConfig s).1 = (getFileConfig s).2.fileConfig := by
  unfold getFileConfig
  split <;> rfl

theorem updateFileConfig_writable (s : ConfigStore) (newValues : Config) :
    (updateFileConfig s newValues).writable = s.writable := by
  unfold updateFileConfig
  by_cases h : s.writable <;> simp [h]

/-- Write-through: after an update the file holds the in-memory object (as
JSON, so without keys whose value is `undefined`) whenever it can be written. -/
theorem updateFileConfig_disk (s : ConfigStore) (newValues : Config) :
    (updateFileConfig s newValues).disk =
      if s.writable then Disk.json (jsonRoundTrip (updateFileConfig s newValues).fileConfig)
      else s.disk := by
  unfold updateFileConfig
  by_cases h : s.writable <;> simp [h]

theorem getFileConfig_writable (s : ConfigStore) : (getFileConfig s).2.writable = s.writable := by
  unfold getFileConfig loadConfigs
  split
  · split
    · rfl
    · rfl
    · split <;> rfl
  · rfl

theorem getFileConfig_idem (s : ConfigStore) :
    getFileConfig (getFileConfig s).2 = getFileConfig s := by
  obtain ⟨fc, disk, w⟩ := s
  unfold getFileConfig
  by_cases h : fc.length = 0
  · simp only [h, if_true]
    cases disk with
    | missing =>
      cases w <;> simp [loadConfigs, h]
    | invalid => simp [loadConfigs, h]
    | json c =>
      by_cases hc : c.length = 0
      · simp [loadConfigs, hc]
      · simp [loadConfigs, hc]
  · simp [h]

/-- The refresh token a provider build reads right after "Schritt 1" is the
stored one. -/
theorem refreshTokenAt_initial (p : Params) (store : ConfigStore) (r : Run)
    (h : r.store = (getFileConfig store).2) :
    refreshTokenAt p r = (storedOf p store).refreshToken := by
  unfold refreshTokenAt storedOf
  rw [h, getFileConfig_idem]
  rfl

/-- The refresh token a provider build reads after the flow's data was written
is the flow's. -/
theorem refreshTokenAt_flowValues (p : Params) (r : Run) (s : ConfigStore) (d : AuthData)
    (now : String) (h : r.store = updateFileConfig s (flowValues p.configKeyPrefix d now)) :
    refreshTokenAt p r = d.refreshToken := by
  unfold refreshTokenAt
  have hg := getFileConfig_updateFileConfig s (keyToken p.configKeyPrefix) d.accessToken
    (flowValues p.configKeyPrefix d now).tail
  have e : (keyToken p.configKeyPrefix, d.accessToken) ::
      (flowValues p.configKeyPrefix d now).tail = flowValues p.configKeyPrefix d now := rfl
  rw [e] at hg
  rw [h, hg]
  simp [objectAssign_cons, objectAssign_nil, flowValues, Config.get_set]
/-! ### Scope comparison -/

theorem allRequiredPresent_iff (req act : List String) :
    allRequiredPresent req act = true ↔ ∀ s, s ∈ req → s ∈ act := by
  simp [allRequiredPresent, List.all_eq_true]

theorem noExtraScopes_iff (req act : List String) :
    noExtraScopes req act = true ↔ ∀ s, s ∈ act → s ∈ req := by
  simp [noExtraScopes, List.all_eq_true]

theorem scopesMatch_iff (req act : List String) :
    scopesMatch req act = true ↔ ∀ s, s ∈ req ↔ s ∈ act := by
  simp only [scopesMatch, Bool.and_eq_true, allRequiredPresent_iff, noExtraScopes_iff]
  constructor
  · rintro ⟨h1, h2⟩ s
    exact ⟨h1 s, h2 s⟩
  · intro h
    exact ⟨fun s => (h s).1, fun s => (h s).2⟩

theorem scopesMatch_congr (req req' act act' : List String)
    (hr : ∀ s, s ∈ req ↔ s ∈ req') (ha : ∀ s, s ∈ act ↔ s ∈ act') :
    scopesMatch req act = scopesMatch req' act' := by
  rw [Bool.eq_iff_iff, scopesMatch_iff, scopesMatch_iff]
  constructor
  · intro h s
    rw [← hr, ← ha]; exact h s
  · intro h s
    rw [hr, ha]; exact h s

/-! ### The steps of `authenticateAccount`, path by path -/

theorem builtRun_eq (env : Env) (p : Params) (r : Run) :
    builtRun env p r =
      { r with store := (getFileConfig r.store).2,
               authProvider := some (providerOf env p r),
               apiClient := some { authProvider := providerOf env p r },
               trace := r.trace ++ [Event.createAndConfigureAuthProvider (providerOf env p r)] } := by
  rfl

/-- With a refresh token the provider build returns. -/
theorem buildProvider_ok (env : Env) (p : Params) (r : Run)
    (h : (refreshTokenAt p r).truthy = true) :
    buildProvider env p r = (builtRun env p r, none) := by
  unfold refreshTokenAt at h
  unfold buildProvider createAndConfigureAuthProvider
  simp only [h, Bool.not_true, Bool.false_eq_true, if_false]
  rfl

/-- Without a refresh token the provider build throws the library's error. -/
theorem buildProvider_throws (env : Env) (p : Params) (r : Run)
    (h : (refreshTokenAt p r).truthy = false) :
    buildProvider env p r =
      ({ r with store := (getFileConfig r.store).2 }, some (env.addUserError r.userId)) := by
  unfold refreshTokenAt at h
  unfold buildProvider createAndConfigureAuthProvider
  simp only [h, Bool.not_false, if_true]

theorem validatorAccepts_spec (env : Env) (p : Params) (stored : Stored) :
    validatorAccepts env p stored = true ↔
      stored.accessToken.truthy = true ∧ stored.userId.truthy = true ∧
      ∃ v, env.validateToken ValidateSite.checkExisting stored.accessToken
            = ValidateOutcome.returned (some v) ∧
          v.userId.strictEq stored.userId = true ∧
          scopesMatch p.requiredScopes v.scopes.asArray = true := by
  unfold validatorAccepts
  cases ho : env.validateToken ValidateSite.checkExisting stored.accessToken with
  | throws => simp
  | returned o =>
    cases o with
    | none => simp
    | some v => simp [and_assoc]

theorem checkAccepts_spec (env : Env) (p : Params) (stored : Stored) :
    checkAccepts env p stored = true ↔
      stored.accessToken.truthy = true ∧ stored.userId.truthy = true ∧
      ∃ v, env.validateToken ValidateSite.checkExisting stored.accessToken
            = ValidateOutcome.returned (some v) ∧
          v.userId.strictEq stored.userId = true ∧
          scopesMatch p.requiredScopes v.scopes.asArray = true ∧
          stored.refreshToken.truthy = true := by
  unfold checkAccepts
  rw [Bool.and_eq_true, validatorAccepts_spec]
  constructor
  · rintro ⟨⟨h1, h2, v, ho, hu, hm⟩, hrt⟩
    exact ⟨h1, h2, v, ho, hu, hm, hrt⟩
  · rintro ⟨h1, h2, v, ho, hu, hm, hrt⟩
    exact ⟨⟨h1, h2, v, ho, hu, hm⟩, hrt⟩

theorem checkAccepts_false_of_validator (env : Env) (p : Params) (stored : Stored)
    (h : validatorAccepts env p stored = false) : checkAccepts env p stored = false := by
  unfold checkAccepts
  rw [h]
  rfl

/-- A CheckExisting that does not succeed although the validator accepted the
token is one without a stored refresh token. -/
theorem refreshToken_of_validatorAccepts (env : Env) (p : Params) (stored : Stored)
    (h : checkAccepts env p stored = false) (hv : validatorAccepts env p stored = true) :
    stored.refreshToken.truthy = false := by
  unfold checkAccepts at h
  rw [hv] at h
  simpa using h

theorem validatorAccepts_false_of_refreshToken (env : Env) (p : Params) (stored : Stored)
    (h : checkAccepts env p stored = false) (hrt : stored.refreshToken.truthy = true) :
    validatorAccepts env p stored = false := by
  unfold checkAccepts at h
  rw [hrt] at h
  simpa using h

theorem checkExisting_validator_rejects (env : Env) (p : Params) (stored : Stored) (r : Run)
    (h : validatorAccepts env p stored = false) :
    checkExisting env p stored r =
      { r with tokenNeedsRefresh := true, trace := r.trace ++ checkTrace env stored } := by
  unfold validatorAccepts at h
  unfold checkExisting checkTrace validateCheckEvent
  by_cases hc : (stored.accessToken.truthy && stored.userId.truthy) = true
  · rw [if_pos hc, if_pos hc]
    rw [hc] at h
    simp only [Bool.true_and] at h
    cases ho : env.validateToken ValidateSite.checkExisting stored.accessToken with
    | throws => simp
    | returned o =>
      cases o with
      | none => simp
      | some v =>
        rw [ho] at h
        simp only [Bool.and_eq_false_iff] at h
        by_cases h1 : v.userId.strictEq stored.userId = true
        · have h2 : scopesMatch p.requiredScopes v.scopes.asArray = false := by
            rcases h with h | h
            · rw [h1] at h; exact absurd h (by decide)
            · exact h
          simp [h1, h2]
        · simp [h1]
  · rw [if_neg hc, if_neg hc]
    simp

theorem checkExisting_validator_accepts (env : Env) (p : Params) (stored : Stored) (r : Run)
    (h : validatorAccepts env p stored = true) :
    checkExisting env p stored r =
      match buildProvider env p
          { r with trace := r.trace ++ [validateCheckEvent env stored],
                   userData := UserData.val stored.accessToken,
                   userId := stored.userId, username := stored.username } with
      | (r1, some _) => { r1 with tokenNeedsRefresh := true }
      | (r1, none) =>
        if stored.scopes ≠ checkScopes env stored then
          { r1 with store := updateFileConfig r1.store
                      [(keyScopes p.configKeyPrefix, JVal.arr (checkScopes env stored))],
                    trace := r1.trace ++ [Event.updateFileConfig
                      [(keyScopes p.configKeyPrefix, JVal.arr (checkScopes env stored))]] }
        else r1 := by
  obtain ⟨h1, h2, v, ho, hu, hm⟩ := (validatorAccepts_spec env p stored).1 h
  unfold checkExisting checkScopes validateCheckEvent
  simp only [h1, h2, ho, hu, hm, Bool.and_self, if_true]

theorem checkExisting_reject (env : Env) (p : Params) (stored : Stored) (r : Run)
    (hs : refreshTokenAt p r = stored.refreshToken)
    (h : checkAccepts env p stored = false) :
    checkExisting env p stored r = checkFailRun env p stored r := by
  unfold checkFailRun
  cases hv : validatorAccepts env p stored with
  | false =>
    rw [checkExisting_validator_rejects env p stored r hv]
    simp
  | true =>
    have hrt := refreshToken_of_validatorAccepts env p stored h hv
    have hthrow : (refreshTokenAt p
        { r with trace := r.trace ++ [validateCheckEvent env stored],
                 userData := UserData.val stored.accessToken,
                 userId := stored.userId, username := stored.username }).truthy = false := by
      have e : refreshTokenAt p
          { r with trace := r.trace ++ [validateCheckEvent env stored],
                   userData := UserData.val stored.accessToken,
                   userId := stored.userId, username := stored.username }
          = refreshTokenAt p r := rfl
      rw [e, hs]
      exact hrt
    obtain ⟨h1, h2, -⟩ := (validatorAccepts_spec env p stored).1 hv
    rw [checkExisting_validator_accepts env p stored r hv, buildProvider_throws _ _ _ hthrow]
    simp [checkTrace, h1, h2]

theorem checkExisting_accept (env : Env) (p : Params) (stored : Stored) (r : Run)
    (hs : refreshTokenAt p r = stored.refreshToken)
    (h : checkAccepts env p stored = true) :
    checkExisting env p stored r = checkSuccessRun env p stored r := by
  have hv : validatorAccepts env p stored = true := by
    unfold checkAccepts at h
    simp only [Bool.and_eq_true] at h
    exact h.1
  have hrt : stored.refreshToken.truthy = true := by
    unfold checkAccepts at h
    simp only [Bool.and_eq_true] at h
    exact h.2
  have hok : (refreshTokenAt p
      { r with trace := r.trace ++ [validateCheckEvent env stored],
               userData := UserData.val stored.accessToken,
               userId := stored.userId, username := stored.username }).truthy = true := by
    have e : refreshTokenAt p
        { r with trace := r.trace ++ [validateCheckEvent env stored],
                 userData := UserData.val stored.accessToken,
                 userId := stored.userId, username := stored.username }
        = refreshTokenAt p r := rfl
    rw [e, hs]
    exact hrt
  rw [checkExisting_validator_accepts env p stored r hv, buildProvider_ok _ _ _ hok]
  rfl

theorem refreshAccepts_spec (env : Env) (p : Params) (stored : Stored) :
    refreshAccepts env p stored = true ↔
      stored.refreshToken.truthy = true ∧ stored.userId.truthy = true ∧
      ∃ t v, env.getAccessTokenForUser stored.userId (refreshSeed env stored)
            = RefreshOutcome.returned (some t) ∧
          env.validateToken ValidateSite.afterRefresh t.accessToken
            = ValidateOutcome.returned (some v) ∧
          v.userId.strictEq stored.userId = true ∧
          scopesMatch p.requiredScopes v.scopes.asArray = true := by
  unfold refreshAccepts
  cases ho : env.getAccessTokenForUser stored.userId (refreshSeed env stored) with
  | throws => simp
  | returned o =>
    cases o with
    | none => simp
    | some t =>
      cases hv : env.validateToken ValidateSite.afterRefresh t.accessToken with
      | throws => simp [hv]
      | returned o2 =>
        cases o2 with
        | none => simp [hv]
        | some v => simp [hv, and_assoc]

theorem refreshStep_reject (env : Env) (p : Params) (stored : Stored) (r : Run)
    (hr : r.tokenNeedsRefresh = true)
    (h : refreshAccepts env p stored = false) :
    refreshStep env p stored r =
      { r with tokenNeedsFullReauth := true,
               userData := if stored.refreshToken.truthy && stored.userId.truthy
                 then (match env.getAccessTokenForUser stored.userId (refreshSeed env stored) with
                        | RefreshOutcome.throws => r.userData
                        | RefreshOutcome.returned none => UserData.val JVal.null
                        | RefreshOutcome.returned (some t) => UserData.token t)
                 else r.userData,
               trace := r.trace ++ refreshTrace env stored } := by
  unfold refreshAccepts at h
  unfold refreshStep refreshTrace refreshEvent validateRefreshEvent afterRefresh
  rw [if_pos hr]
  by_cases hc : (stored.refreshToken.truthy && stored.userId.truthy) = true
  · rw [hc] at h
    simp only [Bool.true_and] at h
    simp only [hc, if_true]
    cases ho : env.getAccessTokenForUser stored.userId (refreshSeed env stored) with
    | throws => simp
    | returned o =>
      cases o with
      | none => simp
      | some t =>
        rw [ho] at h
        simp only at h
        cases hv : env.validateToken ValidateSite.afterRefresh t.accessToken with
        | throws => simp [hv]
        | returned o2 =>
          cases o2 with
          | none => simp [hv]
          | some v =>
            rw [hv] at h
            simp only [Bool.and_eq_false_iff] at h
            by_cases h1 : v.userId.strictEq stored.userId = true
            · have h2 : scopesMatch p.requiredScopes v.scopes.asArray = false := by
                rcases h with h | h
                · rw [h1] at h; exact absurd h (by decide)
                · exact h
              simp [hv, h1, h2]
            · simp [hv, h1]
  · simp [hc]

theorem refreshStep_accept (env : Env) (p : Params) (stored : Stored) (r : Run)
    (hs : refreshTokenAt p r = stored.refreshToken)
    (hr : r.tokenNeedsRefresh = true)
    (h : refreshAccepts env p stored = true) :
    refreshStep env p stored r =
      builtRun env p
        { r with userData := refreshUserData env stored,
                 userId := stored.userId, username := stored.username,
                 trace := r.trace ++ refreshTrace env stored } := by
  obtain ⟨h1, h2, t, v, ho, hv, h3, h4⟩ := (refreshAccepts_spec env p stored).1 h
  unfold refreshStep refreshTrace refreshEvent validateRefreshEvent afterRefresh refreshUserData
  simp only [hr, h1, h2, ho, hv, h3, h4, Bool.and_self, if_true, Bool.not_true,
    Bool.false_eq_true, if_false]
  rw [buildProvider_ok]
  · simp
  · show (refreshTokenAt p r).truthy = true
    rw [hs]
    exact h1

theorem authenticateAccount_no_credentials (env : Env) (p : Params) (store : ConfigStore)
    (h : appCredentialsPresent p = false) :
    authenticateAccount env p store =
      { result := Except.error (missingCredentialsMessage p.configKeyPrefix),
        final := { initialRun store with
                   thrown := some (missingCredentialsMessage p.configKeyPrefix) } } := by
  unfold authenticateAccount
  simp [h]

theorem authenticateAccount_steps (env : Env) (p : Params) (store : ConfigStore)
    (h : appCredentialsPresent p = true) :
    authenticateAccount env p store =
      finalize p (fullReauth env p (storedOf p store)
        (refreshStep env p (storedOf p store)
          (checkExisting env p (storedOf p store) (initialRun (getFileConfig store).2)))) := by
  unfold authenticateAccount storedOf
  simp [h]

theorem fullReauth_skip (env : Env) (p : Params) (stored : Stored) (r : Run)
    (hf : r.tokenNeedsFullReauth = false) (hu : r.userData.truthy = true) :
    fullReauth env p stored r = r := by
  unfold fullReauth
  simp [hf, hu]

/-- The state in which the provider is built after the flow resolved. -/
theorem fullReauth_run (env : Env) (p : Params) (stored : Stored) (r : Run)
    (hf : r.tokenNeedsFullReauth = true) :
    fullReauth env p stored r =
      match env.startOAuthServer (oauthOptions p stored) with
      | FlowOutcome.rejects =>
        { r with store := clearAuthData r.store p.configKeyPrefix,
                 trace := r.trace ++ flowTrace env p stored r.store,
                 thrown := some (oauthFailedMessage p.configKeyPrefix) }
      | FlowOutcome.resolves authData =>
        if authData.refreshToken.truthy then
          builtRun env p
            { r with store := updateFileConfig (clearAuthData r.store p.configKeyPrefix)
                        (flowValues p.configKeyPrefix authData env.nowISO),
                     trace := r.trace ++ flowTrace env p stored r.store ++
                        [Event.updateFileConfig
                          (flowValues p.configKeyPrefix authData env.nowISO)],
                     userData := UserData.val authData.accessToken,
                     userId := authData.userId, username := authData.username }
        else
          { r with store := (getFileConfig (updateFileConfig
                        (clearAuthData r.store p.configKeyPrefix)
                        (flowValues p.configKeyPrefix authData env.nowISO))).2,
                   trace := r.trace ++ flowTrace env p stored r.store ++
                      [Event.updateFileConfig
                        (flowValues p.configKeyPrefix authData env.nowISO)],
                   userData := UserData.val authData.accessToken,
                   userId := authData.userId, username := authData.username,
                   thrown := some (env.addUserError authData.userId) } := by
  unfold fullReauth flowTrace
  simp only [hf, Bool.true_or, if_true]
  cases hflow : env.startOAuthServer (oauthOptions p stored) with
  | rejects => simp
  | resolves d =>
    simp only
    cases hrt : d.refreshToken.truthy with
    | true =>
      rw [buildProvider_ok]
      · simp
      · rw [refreshTokenAt_flowValues p _ (clearAuthData r.store p.configKeyPrefix) d
          env.nowISO rfl]
        exact hrt
    | false =>
      rw [buildProvider_throws]
      · simp
      · rw [refreshTokenAt_flowValues p _ (clearAuthData r.store p.configKeyPrefix) d
          env.nowISO rfl]
        exact hrt

theorem authenticateAccount_check_success (env : Env) (p : Params) (store : ConfigStore)
    (h : appCredentialsPresent p = true)
    (hc : checkAccepts env p (storedOf p store) = true) :
    authenticateAccount env p store =
      finalize p (checkSuccessRun env p (storedOf p store) (initialRun (getFileConfig store).2)) := by
  rw [authenticateAccount_steps env p store h,
    checkExisting_accept env p _ _ (refreshTokenAt_initial p store _ rfl) hc]
  have htok : (storedOf p store).accessToken.truthy = true :=
    ((checkAccepts_spec env p _).1 hc).1
  have h1 : (checkSuccessRun env p (storedOf p store)
      (initialRun (getFileConfig store).2)).tokenNeedsRefresh = false := by
    unfold checkSuccessRun
    simp only [builtRun_eq]
    split <;> rfl
  have h2 : (checkSuccessRun env p (storedOf p store)
      (initialRun (getFileConfig store).2)).tokenNeedsFullReauth = false := by
    unfold checkSuccessRun
    simp only [builtRun_eq]
    split <;> rfl
  have h3 : (checkSuccessRun env p (storedOf p store)
      (initialRun (getFileConfig store).2)).userData.truthy = true := by
    unfold checkSuccessRun
    simp only [builtRun_eq]
    split <;> simpa [UserData.truthy] using htok
  have e1 : refreshStep env p (storedOf p store) (checkSuccessRun env p (storedOf p store)
      (initialRun (getFileConfig store).2)) = checkSuccessRun env p (storedOf p store)
      (initialRun (getFileConfig store).2) := by
    unfold refreshStep
    rw [h1]; rfl
  rw [e1, fullReauth_skip env p _ _ h2 h3]

/-- After a CheckExisting that did not succeed the run is in a state that has
`tokenNeedsRefresh` set and still reads the stored refresh token. -/
theorem checkFailRun_facts (env : Env) (p : Params) (store : ConfigStore) :
    (checkFailRun env p (storedOf p store) (initialRun (getFileConfig store).2)).tokenNeedsRefresh
      = true ∧
    (checkFailRun env p (storedOf p store) (initialRun (getFileConfig store).2)).store
      = (getFileConfig store).2 ∧
    refreshTokenAt p (checkFailRun env p (storedOf p store) (initialRun (getFileConfig store).2))
      = (storedOf p store).refreshToken := by
  have hstore : (checkFailRun env p (storedOf p store)
      (initialRun (getFileConfig store).2)).store = (getFileConfig store).2 := by
    unfold checkFailRun
    split
    · exact congrArg Prod.snd (getFileConfig_idem store)
    · rfl
  refine ⟨?_, hstore, refreshTokenAt_initial p store _ hstore⟩
  unfold checkFailRun
  split <;> rfl

theorem authenticateAccount_refresh_success (env : Env) (p : Params) (store : ConfigStore)
    (h : appCredentialsPresent p = true)
    (hc : checkAccepts env p (storedOf p store) = false)
    (hr : refreshAccepts env p (storedOf p store) = true) :
    authenticateAccount env p store =
      finalize p (refreshSuccessRun env p (storedOf p store)
        (initialRun (getFileConfig store).2)) := by
  obtain ⟨h1, h2, t, v, ho, hv, h3, h4⟩ := (refreshAccepts_spec env p _).1 hr
  obtain ⟨hf1, -, hf3⟩ := checkFailRun_facts env p store
  have hva := validatorAccepts_false_of_refreshToken env p _ hc h1
  rw [authenticateAccount_steps env p store h,
    checkExisting_reject env p _ _ (refreshTokenAt_initial p store _ rfl) hc,
    refreshStep_accept env p _ _ hf3 hf1 hr]
  rw [fullReauth_skip]
  · unfold refreshSuccessRun checkFailRun
    simp [hva, initialRun, List.append_assoc]
  · unfold checkFailRun
    simp only [hva]
    rfl
  · simp [builtRun_eq, refreshUserData, h1, h2, ho, UserData.truthy]

theorem authenticateAccount_full_reauth (env : Env) (p : Params) (store : ConfigStore)
    (h : appCredentialsPresent p = true)
    (hc : checkAccepts env p (storedOf p store) = false)
    (hr : refreshAccepts env p (storedOf p store) = false) :
    authenticateAccount env p store =
      finalize p (fullReauth env p (storedOf p store)
        (reauthNeededRun env p (storedOf p store) (initialRun (getFileConfig store).2))) := by
  obtain ⟨hf1, -, -⟩ := checkFailRun_facts env p store
  rw [authenticateAccount_steps env p store h,
    checkExisting_reject env p _ _ (refreshTokenAt_initial p store _ rfl) hc,
    refreshStep_reject env p _ _ hf1 hr]
  congr 2
  have htrace : (checkFailRun env p (storedOf p store) (initialRun (getFileConfig store).2)).trace
      = (initialRun (getFileConfig store).2).trace ++ checkTrace env (storedOf p store) := by
    unfold checkFailRun
    split <;> rfl
  unfold reauthNeededRun
  rw [htrace]
  cases hcreds : ((storedOf p store).refreshToken.truthy && (storedOf p store).userId.truthy) with
  | false => simp
  | true =>
    simp only [Bool.and_eq_true] at hcreds
    have hva := validatorAccepts_false_of_refreshToken env p _ hc hcreds.1
    have hud : (checkFailRun env p (storedOf p store)
        (initialRun (getFileConfig store).2)).userData = UserData.val JVal.undefined := by
      unfold checkFailRun
      simp only [hva]
      rfl
    simp only [if_true, refreshUserData, hcreds.1, hcreds.2, Bool.and_self, hud]

theorem reauthNeededRun_facts (env : Env) (p : Params) (store : ConfigStore) :
    (reauthNeededRun env p (storedOf p store) (initialRun (getFileConfig store).2)).store
      = (getFileConfig store).2 ∧
    (reauthNeededRun env p (storedOf p store) (initialRun (getFileConfig store).2)).trace
      = checkTrace env (storedOf p store) ++ refreshTrace env (storedOf p store) ∧
    (reauthNeededRun env p (storedOf p store)
      (initialRun (getFileConfig store).2)).tokenNeedsRefresh = true ∧
    (reauthNeededRun env p (storedOf p store)
      (initialRun (getFileConfig store).2)).tokenNeedsFullReauth = true ∧
    (reauthNeededRun env p (storedOf p store) (initialRun (getFileConfig store).2)).thrown
      = none ∧
    (reauthNeededRun env p (storedOf p store) (initialRun (getFileConfig store).2)).authProvider
      = none := by
  obtain ⟨hf1, hf2, -⟩ := checkFailRun_facts env p store
  refine ⟨hf2, ?_, hf1, rfl, ?_, ?_⟩
  · simp [reauthNeededRun, initialRun]
  · unfold reauthNeededRun checkFailRun
    split <;> rfl
  · unfold reauthNeededRun checkFailRun
    split <;> rfl
/-! ### The trace of a run -/

theorem finalize_final_trace (p : Params) (r : Run) : (finalize p r).final.trace = r.trace := by
  unfold finalize
  split
  · rfl
  · split
    · split <;> rfl
    · rfl

theorem finalize_final_store (p : Params) (r : Run) : (finalize p r).final.store = r.store := by
  unfold finalize
  split
  · rfl
  · split
    · split <;> rfl
    · rfl

theorem trace_no_credentials (env : Env) (p : Params) (store : ConfigStore)
    (h : appCredentialsPresent p = false) :
    (authenticateAccount env p store).final.trace = [] := by
  rw [authenticateAccount_no_credentials env p store h]
  rfl

theorem checkSuccessRun_trace (env : Env) (p : Params) (stored : Stored) (r : Run) :
    (checkSuccessRun env p stored r).trace =
      r.trace ++ ([validateCheckEvent env stored,
        Event.createAndConfigureAuthProvider (providerOf env p
          { r with trace := r.trace ++ [validateCheckEvent env stored],
                   userData := UserData.val stored.accessToken,
                   userId := stored.userId, username := stored.username })] ++
        if stored.scopes ≠ checkScopes env stored then
          [Event.updateFileConfig
            [(keyScopes p.configKeyPrefix, JVal.arr (checkScopes env stored))]]
        else []) := by
  unfold checkSuccessRun
  simp only [builtRun_eq]
  split <;> simp

theorem trace_check_success (env : Env) (p : Params) (store : ConfigStore)
    (h : appCredentialsPresent p = true)
    (hc : checkAccepts env p (storedOf p store) = true) :
    ∃ prov, (authenticateAccount env p store).final.trace =
      [validateCheckEvent env (storedOf p store), Event.createAndConfigureAuthProvider prov] ++
        if (storedOf p store).scopes ≠ checkScopes env (storedOf p store) then
          [Event.updateFileConfig
            [(keyScopes p.configKeyPrefix, JVal.arr (checkScopes env (storedOf p store)))]]
        else [] := by
  rw [authenticateAccount_check_success env p store h hc, finalize_final_trace,
    checkSuccessRun_trace]
  exact ⟨_, rfl⟩

theorem trace_refresh_success (env : Env) (p : Params) (store : ConfigStore)
    (h : appCredentialsPresent p = true)
    (hc : checkAccepts env p (storedOf p store) = false)
    (hr : refreshAccepts env p (storedOf p store) = true) :
    ∃ prov, (authenticateAccount env p store).final.trace =
      checkTrace env (storedOf p store) ++ refreshTrace env (storedOf p store) ++
        [Event.createAndConfigureAuthProvider prov] := by
  rw [authenticateAccount_refresh_success env p store h hc hr, finalize_final_trace]
  unfold refreshSuccessRun
  simp only [builtRun_eq]
  exact ⟨_, rfl⟩

/-- The events after the flow call: nothing when it rejects, the write of the
new record and the provider build when it resolves with a refresh token, the
write alone when it resolves without one (the provider build throws). -/
theorem trace_full_reauth (env : Env) (p : Params) (store : ConfigStore)
    (h : appCredentialsPresent p = true)
    (hc : checkAccepts env p (storedOf p store) = false)
    (hr : refreshAccepts env p (storedOf p store) = false) :
    ∃ tail, (authenticateAccount env p store).final.trace =
      checkTrace env (storedOf p store) ++ refreshTrace env (storedOf p store) ++
        flowTrace env p (storedOf p store) (getFileConfig store).2 ++ tail ∧
      ((env.startOAuthServer (oauthOptions p (storedOf p store)) = FlowOutcome.rejects ∧ tail = []) ∨
       (∃ authData prov, env.startOAuthServer (oauthOptions p (storedOf p store))
            = FlowOutcome.resolves authData ∧ authData.refreshToken.truthy = true ∧
          tail = [Event.updateFileConfig (flowValues p.configKeyPrefix authData env.nowISO),
                  Event.createAndConfigureAuthProvider prov]) ∨
       (∃ authData, env.startOAuthServer (oauthOptions p (storedOf p store))
            = FlowOutcome.resolves authData ∧ authData.refreshToken.truthy = false ∧
          tail = [Event.updateFileConfig (flowValues p.configKeyPrefix authData env.nowISO)])) := by
  obtain ⟨hs, ht, -, hf, -, -⟩ := reauthNeededRun_facts env p store
  rw [authenticateAccount_full_reauth env p store h hc hr, finalize_final_trace,
    fullReauth_run env p _ _ hf, hs, ht]
  cases ho : env.startOAuthServer (oauthOptions p (storedOf p store)) with
  | rejects => exact ⟨[], by simp, Or.inl ⟨rfl, rfl⟩⟩
  | resolves d =>
    simp only
    cases hrt : d.refreshToken.truthy with
    | true =>
      simp only [if_true, builtRun_eq]
      exact ⟨_, by simp only [List.append_assoc, List.singleton_append]; rfl,
        Or.inr (Or.inl ⟨d, _, rfl, hrt, rfl⟩)⟩
    | false =>
      simp only [Bool.false_eq_true, if_false]
      exact ⟨_, rfl, Or.inr (Or.inr ⟨d, rfl, hrt, rfl⟩)⟩
/-! ### From an event in the trace to the path taken -/

theorem mem_checkTrace (env : Env) (stored : Stored) (e : Event) :
    e ∈ checkTrace env stored ↔
      stored.accessToken.truthy = true ∧ stored.userId.truthy = true ∧
        e = validateCheckEvent env stored := by
  unfold checkTrace
  by_cases h : (stored.accessToken.truthy && stored.userId.truthy) = true
  · rw [if_pos h]
    simp only [Bool.and_eq_true] at h
    simp [h.1, h.2]
  · rw [if_neg h]
    simp only [Bool.and_eq_true] at h
    simp only [List.not_mem_nil, false_iff]
    tauto

theorem mem_refreshTrace (env : Env) (stored : Stored) (e : Event) :
    e ∈ refreshTrace env stored ↔
      e = Event.refreshStepEntered ∨
      (stored.refreshToken.truthy = true ∧ stored.userId.truthy = true ∧
        (e = refreshEvent env stored ∨
          ∃ t, env.getAccessTokenForUser stored.userId (refreshSeed env stored)
              = RefreshOutcome.returned (some t) ∧ e = validateRefreshEvent env t)) := by
  unfold refreshTrace
  by_cases h : (stored.refreshToken.truthy && stored.userId.truthy) = true
  · rw [if_pos h]
    simp only [Bool.and_eq_true] at h
    cases ho : env.getAccessTokenForUser stored.userId (refreshSeed env stored) with
    | throws => simp [h.1, h.2]
    | returned o =>
      cases o with
      | none => simp [h.1, h.2]
      | some t => simp [h.1, h.2]
  · rw [if_neg h]
    simp only [Bool.and_eq_true] at h
    simp only [List.mem_singleton]
    tauto

/-- Every event of a run, classified by the step that emitted it. -/
theorem mem_trace (env : Env) (p : Params) (store : ConfigStore) (e : Event)
    (h : e ∈ (authenticateAccount env p store).final.trace) :
    appCredentialsPresent p = true ∧
    ( ((storedOf p store).accessToken.truthy = true ∧ (storedOf p store).userId.truthy = true ∧
        e = validateCheckEvent env (storedOf p store)) ∨
      (checkAccepts env p (storedOf p store) = true ∧
        (storedOf p store).scopes ≠ checkScopes env (storedOf p store) ∧
        e = Event.updateFileConfig
          [(keyScopes p.configKeyPrefix, JVal.arr (checkScopes env (storedOf p store)))]) ∨
      (checkAccepts env p (storedOf p store) = false ∧
        e ∈ refreshTrace env (storedOf p store)) ∨
      (checkAccepts env p (storedOf p store) = false ∧
        refreshAccepts env p (storedOf p store) = false ∧
        e ∈ flowTrace env p (storedOf p store) (getFileConfig store).2) ∨
      (checkAccepts env p (storedOf p store) = false ∧
        refreshAccepts env p (storedOf p store) = false ∧
        ∃ authData, env.startOAuthServer (oauthOptions p (storedOf p store))
            = FlowOutcome.resolves authData ∧
          e = Event.updateFileConfig (flowValues p.configKeyPrefix authData env.nowISO)) ∨
      (∃ prov, e = Event.createAndConfigureAuthProvider prov) ) := by
  cases hcred : appCredentialsPresent p with
  | false =>
    rw [trace_no_credentials env p store hcred] at h
    simp at h
  | true =>
    refine ⟨rfl, ?_⟩
    cases hc : checkAccepts env p (storedOf p store) with
    | true =>
      obtain ⟨prov, ht⟩ := trace_check_success env p store hcred hc
      rw [ht] at h
      obtain ⟨h1, h2, -⟩ := (checkAccepts_spec env p _).1 hc
      simp only [List.mem_append, List.mem_cons, List.not_mem_nil, or_false] at h
      rcases h with (h | h) | h
      · exact Or.inl ⟨h1, h2, h⟩
      · exact Or.inr (Or.inr (Or.inr (Or.inr (Or.inr ⟨prov, h⟩))))
      · split at h
        · rename_i hne
          simp only [List.mem_singleton] at h
          exact Or.inr (Or.inl ⟨rfl, hne, h⟩)
        · simp at h
    | false =>
      cases hr : refreshAccepts env p (storedOf p store) with
      | true =>
        obtain ⟨prov, ht⟩ := trace_refresh_success env p store hcred hc hr
        rw [ht] at h
        simp only [List.mem_append, List.mem_singleton] at h
        rcases h with (h | h) | h
        · exact Or.inl ((mem_checkTrace _ _ _).1 h)
        · exact Or.inr (Or.inr (Or.inl ⟨rfl, h⟩))
        · exact Or.inr (Or.inr (Or.inr (Or.inr (Or.inr ⟨prov, h⟩))))
      | false =>
        obtain ⟨tail, ht, htail⟩ := trace_full_reauth env p store hcred hc hr
        rw [ht] at h
        simp only [List.mem_append] at h
        rcases h with ((h | h) | h) | h
        · exact Or.inl ((mem_checkTrace _ _ _).1 h)
        · exact Or.inr (Or.inr (Or.inl ⟨rfl, h⟩))
        · exact Or.inr (Or.inr (Or.inr (Or.inl ⟨rfl, rfl, h⟩)))
        · rcases htail with ⟨-, ht0⟩ | ⟨d, prov, hd, -, ht1⟩ | ⟨d, hd, -, ht1⟩
          · rw [ht0] at h; simp at h
          · rw [ht1] at h
            simp only [List.mem_cons, List.not_mem_nil, or_false] at h
            rcases h with h | h
            · exact Or.inr (Or.inr (Or.inr (Or.inr (Or.inl ⟨rfl, rfl, d, hd, h⟩))))
            · exact Or.inr (Or.inr (Or.inr (Or.inr (Or.inr ⟨prov, h⟩))))
          · rw [ht1] at h
            simp only [List.mem_singleton] at h
            exact Or.inr (Or.inr (Or.inr (Or.inr (Or.inl ⟨rfl, rfl, d, hd, h⟩))))

theorem mem_flowTrace (env : Env) (p : Params) (stored : Stored) (s : ConfigStore) (e : Event) :
    e ∈ flowTrace env p stored s ↔
      e = Event.fullReauthEntered ∨ e = Event.clearAuthData p.configKeyPrefix ∨
      e = Event.updateFileConfig (clearValues p.configKeyPrefix) ∨
      e = Event.startOAuthServer (oauthOptions p stored) (clearAuthData s p.configKeyPrefix)
            (env.startOAuthServer (oauthOptions p stored)) := by
  simp [flowTrace]

theorem validateCheck_of_mem_trace (env : Env) (p : Params) (store : ConfigStore)
    (tok : JVal) (oc : ValidateOutcome)
    (h : Event.validateToken ValidateSite.checkExisting tok oc
          ∈ (authenticateAccount env p store).final.trace) :
    appCredentialsPresent p = true ∧
    (storedOf p store).accessToken.truthy = true ∧ (storedOf p store).userId.truthy = true ∧
    tok = (storedOf p store).accessToken ∧
    oc = env.validateToken ValidateSite.checkExisting (storedOf p store).accessToken := by
  obtain ⟨hcred, hcases⟩ := mem_trace env p store _ h
  refine ⟨hcred, ?_⟩
  rcases hcases with ⟨h1, h2, he⟩ | ⟨-, -, he⟩ | ⟨-, he⟩ | ⟨-, -, he⟩ | ⟨-, -, d, -, he⟩ | ⟨prov, he⟩
  · simp only [validateCheckEvent, Event.validateToken.injEq, true_and] at he
    exact ⟨h1, h2, he.1, he.2⟩
  · simp at he
  · rw [mem_refreshTrace] at he
    rcases he with he | ⟨-, -, he | ⟨t, -, he⟩⟩
    · simp at he
    · simp [refreshEvent] at he
    · simp [validateRefreshEvent] at he
  · rw [mem_flowTrace] at he
    simp at he
  · simp at he
  · simp at he

theorem refresh_of_mem_trace (env : Env) (p : Params) (store : ConfigStore)
    (uid : JVal) (seed : AccessToken) (oc : RefreshOutcome)
    (h : Event.getAccessTokenForUser uid seed oc ∈ (authenticateAccount env p store).final.trace) :
    appCredentialsPresent p = true ∧ checkAccepts env p (storedOf p store) = false ∧
    (storedOf p store).refreshToken.truthy = true ∧ (storedOf p store).userId.truthy = true ∧
    uid = (storedOf p store).userId ∧ seed = refreshSeed env (storedOf p store) ∧
    oc = env.getAccessTokenForUser (storedOf p store).userId (refreshSeed env (storedOf p store)) := by
  obtain ⟨hcred, hcases⟩ := mem_trace env p store _ h
  refine ⟨hcred, ?_⟩
  rcases hcases with ⟨-, -, he⟩ | ⟨-, -, he⟩ | ⟨hc, he⟩ | ⟨-, -, he⟩ | ⟨-, -, d, -, he⟩ | ⟨prov, he⟩
  · simp [validateCheckEvent] at he
  · simp at he
  · rw [mem_refreshTrace] at he
    rcases he with he | ⟨h1, h2, he | ⟨t, -, he⟩⟩
    · simp at he
    · simp only [refreshEvent, Event.getAccessTokenForUser.injEq] at he
      exact ⟨hc, h1, h2, he.1, he.2.1, he.2.2⟩
    · simp [validateRefreshEvent] at he
  · rw [mem_flowTrace] at he
    simp at he
  · simp at he
  · simp at he

theorem validateRefresh_of_mem_trace (env : Env) (p : Params) (store : ConfigStore)
    (tok : JVal) (oc : ValidateOutcome)
    (h : Event.validateToken ValidateSite.afterRefresh tok oc
          ∈ (authenticateAccount env p store).final.trace) :
    appCredentialsPresent p = true ∧ checkAccepts env p (storedOf p store) = false ∧
    (storedOf p store).refreshToken.truthy = true ∧ (storedOf p store).userId.truthy = true ∧
    ∃ t, env.getAccessTokenForUser (storedOf p store).userId (refreshSeed env (storedOf p store))
          = RefreshOutcome.returned (some t) ∧
      tok = t.accessToken ∧ oc = env.validateToken ValidateSite.afterRefresh t.accessToken := by
  obtain ⟨hcred, hcases⟩ := mem_trace env p store _ h
  refine ⟨hcred, ?_⟩
  rcases hcases with ⟨-, -, he⟩ | ⟨-, -, he⟩ | ⟨hc, he⟩ | ⟨-, -, he⟩ | ⟨-, -, d, -, he⟩ | ⟨prov, he⟩
  · simp [validateCheckEvent] at he
  · simp at he
  · rw [mem_refreshTrace] at he
    rcases he with he | ⟨h1, h2, he | ⟨t, ht, he⟩⟩
    · simp at he
    · simp [refreshEvent] at he
    · simp only [validateRefreshEvent, Event.validateToken.injEq, true_and] at he
      exact ⟨hc, h1, h2, t, ht, he.1, he.2⟩
  · rw [mem_flowTrace] at he
    simp at he
  · simp at he
  · simp at he

theorem flow_of_mem_trace (env : Env) (p : Params) (store : ConfigStore)
    (o : OAuthServerOptions) (s : ConfigStore) (oc : FlowOutcome)
    (h : Event.startOAuthServer o s oc ∈ (authenticateAccount env p store).final.trace) :
    appCredentialsPresent p = true ∧ checkAccepts env p (storedOf p store) = false ∧
    refreshAccepts env p (storedOf p store) = false ∧
    o = oauthOptions p (storedOf p store) ∧
    s = clearAuthData (getFileConfig store).2 p.configKeyPrefix ∧
    oc = env.startOAuthServer (oauthOptions p (storedOf p store)) := by
  obtain ⟨hcred, hcases⟩ := mem_trace env p store _ h
  refine ⟨hcred, ?_⟩
  rcases hcases with ⟨-, -, he⟩ | ⟨-, -, he⟩ | ⟨-, he⟩ | ⟨hc, hr, he⟩ | ⟨-, -, d, -, he⟩ | ⟨prov, he⟩
  · simp [validateCheckEvent] at he
  · simp at he
  · rw [mem_refreshTrace] at he
    rcases he with he | ⟨-, -, he | ⟨t, -, he⟩⟩
    · simp at he
    · simp [refreshEvent] at he
    · simp [validateRefreshEvent] at he
  · rw [mem_flowTrace] at he
    simp only [Event.startOAuthServer.injEq, reduceCtorEq, false_or] at he
    exact ⟨hc, hr, he.1, he.2.1, he.2.2⟩
  · simp at he
  · simp at he
/-! ### The outcome of a run, path by path -/

theorem finalize_ok (p : Params) (r : Run) (a : AuthProvider) (c : ApiClient)
    (hp : r.authProvider = some a) (hc : r.apiClient = some c) (ht : r.thrown = none)
    (h1 : r.userId.truthy = true) (h2 : r.username.truthy = true)
    (h3 : r.userData.truthy = true) :
    finalize p r =
      { result := Except.ok (Session.mk a c r.userId r.username r.userData), final := r } := by
  unfold finalize
  simp [hp, hc, ht, h1, h2, h3]

theorem finalize_not_initialized (p : Params) (r : Run) (ht : r.thrown = none)
    (h : (r.userId.truthy && r.username.truthy && r.userData.truthy) = false) :
    (finalize p r).result = Except.error (notInitializedMessage p.configKeyPrefix) := by
  unfold finalize
  rw [ht]
  simp only
  split
  · have h' : (!r.userId.truthy || !r.username.truthy || !r.userData.truthy) = true := by
      cases h1 : r.userId.truthy <;> cases h2 : r.username.truthy <;>
        cases h3 : r.userData.truthy <;> simp_all
    rw [if_pos h']
  · rfl

theorem finalize_thrown (p : Params) (r : Run) (msg : String) (ht : r.thrown = some msg) :
    finalize p r = { result := Except.error msg, final := r } := by
  unfold finalize
  rw [ht]

theorem finalize_flags (p : Params) (r : Run) :
    (finalize p r).final.tokenNeedsRefresh = r.tokenNeedsRefresh ∧
    (finalize p r).final.tokenNeedsFullReauth = r.tokenNeedsFullReauth := by
  unfold finalize
  split
  · exact ⟨rfl, rfl⟩
  · split
    · split <;> exact ⟨rfl, rfl⟩
    · exact ⟨rfl, rfl⟩

/-- The outcome when CheckExisting succeeds. -/
theorem result_check_success (env : Env) (p : Params) (store : ConfigStore)
    (h : appCredentialsPresent p = true)
    (hc : checkAccepts env p (storedOf p store) = true) :
    ((storedOf p store).username.truthy = true →
      ∃ session, (authenticateAccount env p store).result = Except.ok session ∧
        session.userId = (storedOf p store).userId ∧
        session.username = (storedOf p store).username ∧
        session.accessToken = UserData.val (storedOf p store).accessToken) ∧
    ((storedOf p store).username.truthy = false →
      (authenticateAccount env p store).result
        = Except.error (notInitializedMessage p.configKeyPrefix)) ∧
    (authenticateAccount env p store).final.tokenNeedsRefresh = false ∧
    (authenticateAccount env p store).final.tokenNeedsFullReauth = false := by
  obtain ⟨h1, h2, -⟩ := (checkAccepts_spec env p _).1 hc
  rw [authenticateAccount_check_success env p store h hc]
  have hrun : ∀ r, (checkSuccessRun env p (storedOf p store) r).thrown = r.thrown ∧
      (checkSuccessRun env p (storedOf p store) r).userId = (storedOf p store).userId ∧
      (checkSuccessRun env p (storedOf p store) r).username = (storedOf p store).username ∧
      (checkSuccessRun env p (storedOf p store) r).userData
        = UserData.val (storedOf p store).accessToken ∧
      (checkSuccessRun env p (storedOf p store) r).tokenNeedsRefresh = r.tokenNeedsRefresh ∧
      (checkSuccessRun env p (storedOf p store) r).tokenNeedsFullReauth = r.tokenNeedsFullReauth ∧
      ∃ a, (checkSuccessRun env p (storedOf p store) r).authProvider = some a ∧
        (checkSuccessRun env p (storedOf p store) r).apiClient = some { authProvider := a } := by
    intro r
    unfold checkSuccessRun
    simp only [builtRun_eq]
    split <;> exact ⟨rfl, rfl, rfl, rfl, rfl, rfl, _, rfl, rfl⟩
  obtain ⟨e1, e2, e3, e4, e5, e6, a, e7, e8⟩ := hrun (initialRun (getFileConfig store).2)
  refine ⟨?_, ?_, ?_, ?_⟩
  · intro hn
    rw [finalize_ok p _ a _ e7 e8 (by rw [e1]; rfl) (by rw [e2]; exact h2)
      (by rw [e3]; exact hn) (by rw [e4]; exact h1)]
    refine ⟨_, rfl, ?_, ?_, ?_⟩
    · exact e2
    · exact e3
    · exact e4
  · intro hn
    apply finalize_not_initialized
    · rw [e1]; rfl
    · rw [e3, hn]; simp
  · rw [(finalize_flags p _).1, e5]; rfl
  · rw [(finalize_flags p _).2, e6]; rfl

/-- The outcome when CheckExisting fails and the Refresh step succeeds. -/
theorem result_refresh_success (env : Env) (p : Params) (store : ConfigStore)
    (h : appCredentialsPresent p = true)
    (hc : checkAccepts env p (storedOf p store) = false)
    (hr : refreshAccepts env p (storedOf p store) = true) :
    ((storedOf p store).username.truthy = true →
      ∃ session, (authenticateAccount env p store).result = Except.ok session ∧
        session.userId = (storedOf p store).userId ∧
        session.username = (storedOf p store).username ∧
        session.accessToken = refreshUserData env (storedOf p store)) ∧
    ((storedOf p store).username.truthy = false →
      (authenticateAccount env p store).result
        = Except.error (notInitializedMessage p.configKeyPrefix)) ∧
    (authenticateAccount env p store).final.tokenNeedsRefresh = true ∧
    (authenticateAccount env p store).final.tokenNeedsFullReauth = false ∧
    (authenticateAccount env p store).final.store = (getFileConfig (getFileConfig store).2).2 := by
  obtain ⟨h1, h2, t, v, ho, hv, h3, h4⟩ := (refreshAccepts_spec env p _).1 hr
  rw [authenticateAccount_refresh_success env p store h hc hr]
  have hu : (refreshUserData env (storedOf p store)).truthy = true := by
    simp [refreshUserData, h1, h2, ho, UserData.truthy]
  unfold refreshSuccessRun
  simp only [builtRun_eq]
  refine ⟨?_, ?_, ?_, ?_, ?_⟩
  · intro hn
    rw [finalize_ok p _ _ _ rfl rfl rfl h2 hn hu]
    refine ⟨_, rfl, ?_, ?_, ?_⟩ <;> rfl
  · intro hn
    apply finalize_not_initialized
    · rfl
    · show ((storedOf p store).userId.truthy && (storedOf p store).username.truthy &&
        (refreshUserData env (storedOf p store)).truthy) = false
      rw [hn]; simp
  · rw [(finalize_flags p _).1]
  · rw [(finalize_flags p _).2]; rfl
  · rw [finalize_final_store]; rfl

/-- The outcome when the flow is run and rejects. -/
theorem result_flow_rejects (env : Env) (p : Params) (store : ConfigStore)
    (h : appCredentialsPresent p = true)
    (hc : checkAccepts env p (storedOf p store) = false)
    (hr : refreshAccepts env p (storedOf p store) = false)
    (hf : env.startOAuthServer (oauthOptions p (storedOf p store)) = FlowOutcome.rejects) :
    (authenticateAccount env p store).result
      = Except.error (oauthFailedMessage p.configKeyPrefix) ∧
    (authenticateAccount env p store).final.store
      = clearAuthData (getFileConfig store).2 p.configKeyPrefix ∧
    (authenticateAccount env p store).final.tokenNeedsRefresh = true ∧
    (authenticateAccount env p store).final.tokenNeedsFullReauth = true := by
  obtain ⟨hs, -, hn, hfl, -, -⟩ := reauthNeededRun_facts env p store
  rw [authenticateAccount_full_reauth env p store h hc hr, fullReauth_run env p _ _ hfl, hf]
  simp only
  rw [finalize_thrown p _ _ rfl]
  exact ⟨rfl, congrArg (fun s => clearAuthData s p.configKeyPrefix) hs, hn, hfl⟩

theorem readStored_flowValues (c : Config) (pre : String) (d : AuthData) (now : String) :
    readStored pre (objectAssign c (flowValues pre d now)) =
      { accessToken := d.accessToken, refreshToken := d.refreshToken, userId := d.userId,
        username := d.username, scopes := d.scope.asArray, expiresIn := d.expiresIn,
        lastRefresh := JVal.str now, browserUserAgent := d.userAgent } := by
  simp [readStored, objectAssign_cons, objectAssign_nil, flowValues, Config.get_set]

theorem persistedRecord_flowValues (s : ConfigStore) (pre : String) (d : AuthData)
    (now : String) :
    persistedRecord pre (updateFileConfig s (flowValues pre d now)) =
      { accessToken := d.accessToken, refreshToken := d.refreshToken, userId := d.userId,
        username := d.username, scopes := d.scope.asArray, expiresIn := d.expiresIn,
        lastRefresh := JVal.str now, browserUserAgent := d.userAgent } := by
  unfold persistedRecord
  have h := getFileConfig_updateFileConfig s (keyToken pre) d.accessToken
    (flowValues pre d now).tail
  have e : (keyToken pre, d.accessToken) :: (flowValues pre d now).tail = flowValues pre d now := rfl
  rw [e] at h
  rw [h]
  exact readStored_flowValues _ _ _ _

/-- The outcome when the flow is run and resolves: with a refresh token the
final check decides, without one the provider build throws the error of
`addUser`; the record of the flow is stored either way. -/
theorem result_flow_resolves (env : Env) (p : Params) (store : ConfigStore) (d : AuthData)
    (h : appCredentialsPresent p = true)
    (hc : checkAccepts env p (storedOf p store) = false)
    (hr : refreshAccepts env p (storedOf p store) = false)
    (hf : env.startOAuthServer (oauthOptions p (storedOf p store)) = FlowOutcome.resolves d) :
    (d.refreshToken.truthy = true →
      (d.userId.truthy && d.username.truthy && d.accessToken.truthy) = true →
      ∃ session, (authenticateAccount env p store).result = Except.ok session ∧
        session.userId = d.userId ∧ session.username = d.username ∧
        session.accessToken = UserData.val d.accessToken ∧
        session.authProvider.userId = d.userId ∧
        session.authProvider.accessToken = UserData.val d.accessToken ∧
        session.apiClient.authProvider = session.authProvider) ∧
    (d.refreshToken.truthy = true →
      (d.userId.truthy && d.username.truthy && d.accessToken.truthy) = false →
      (authenticateAccount env p store).result
        = Except.error (notInitializedMessage p.configKeyPrefix)) ∧
    (authenticateAccount env p store).final.store
      = updateFileConfig (clearAuthData (getFileConfig store).2 p.configKeyPrefix)
          (flowValues p.configKeyPrefix d env.nowISO) ∧
    (authenticateAccount env p store).final.tokenNeedsRefresh = true ∧
    (authenticateAccount env p store).final.tokenNeedsFullReauth = true ∧
    (d.refreshToken.truthy = false →
      (authenticateAccount env p store).result = Except.error (env.addUserError d.userId)) := by
  obtain ⟨hs, -, hn, hfl, hth, -⟩ := reauthNeededRun_facts env p store
  have hstore : (getFileConfig (updateFileConfig
      (clearAuthData (getFileConfig store).2 p.configKeyPrefix)
      (flowValues p.configKeyPrefix d env.nowISO))).2
        = updateFileConfig (clearAuthData (getFileConfig store).2 p.configKeyPrefix)
          (flowValues p.configKeyPrefix d env.nowISO) := by
    have h := getFileConfig_updateFileConfig
      (clearAuthData (getFileConfig store).2 p.configKeyPrefix) (keyToken p.configKeyPrefix)
      d.accessToken (flowValues p.configKeyPrefix d env.nowISO).tail
    have e : (keyToken p.configKeyPrefix, d.accessToken) ::
      (flowValues p.configKeyPrefix d env.nowISO).tail
        = flowValues p.configKeyPrefix d env.nowISO := rfl
    rw [e] at h
    rw [h]
  rw [authenticateAccount_full_reauth env p store h hc hr, fullReauth_run env p _ _ hfl, hf, hs]
  simp only [hth, hn, hfl]
  cases hrt : d.refreshToken.truthy with
  | true =>
    simp only [if_true, builtRun_eq]
    refine ⟨?_, ?_, ?_, ?_, ?_, ?_⟩
    · intro _ ht
      simp only [Bool.and_eq_true] at ht
      rw [finalize_ok p _ _ _ rfl rfl rfl ht.1.1 ht.1.2 (by simpa [UserData.truthy] using ht.2)]
      refine ⟨_, rfl, ?_, ?_, ?_, ?_, ?_, ?_⟩ <;> rfl
    · intro _ ht
      exact finalize_not_initialized p _ rfl ht
    · rw [finalize_final_store]
      exact hstore
    · rw [(finalize_flags p _).1]
    · rw [(finalize_flags p _).2]
    · intro hx
      cases hx
  | false =>
    simp only [Bool.false_eq_true, if_false]
    rw [finalize_thrown p _ _ rfl]
    refine ⟨?_, ?_, hstore, rfl, rfl, fun _ => rfl⟩
    · intro hx
      cases hx
    · intro hx
      cases hx
/-! ### The flow call within a run -/

theorem countP_eq_zero_of_forall (l : List Event) (f : Event → Bool)
    (h : ∀ e ∈ l, f e = false) : l.countP f = 0 := by
  rw [List.countP_eq_zero]
  intro e he
  rw [h e he]
  decide

theorem checkTrace_no_flow (env : Env) (stored : Stored) :
    (checkTrace env stored).countP Event.isFlow = 0 := by
  apply countP_eq_zero_of_forall
  intro e he
  rw [mem_checkTrace] at he
  rw [he.2.2]
  rfl

theorem refreshTrace_no_flow (env : Env) (stored : Stored) :
    (refreshTrace env stored).countP Event.isFlow = 0 := by
  apply countP_eq_zero_of_forall
  intro e he
  rw [mem_refreshTrace] at he
  rcases he with he | ⟨-, -, he | ⟨t, -, he⟩⟩ <;> rw [he] <;> rfl

theorem flowTrace_one_flow (env : Env) (p : Params) (stored : Stored) (s : ConfigStore) :
    (flowTrace env p stored s).countP Event.isFlow = 1 := by
  simp [flowTrace, List.countP_cons, Event.isFlow]

/-- On the FullReauth path `startOAuthServer` is called exactly once. -/
theorem flow_count_full_reauth (env : Env) (p : Params) (store : ConfigStore)
    (h : appCredentialsPresent p = true)
    (hc : checkAccepts env p (storedOf p store) = false)
    (hr : refreshAccepts env p (storedOf p store) = false) :
    (authenticateAccount env p store).final.trace.countP Event.isFlow = 1 := by
  obtain ⟨tail, ht, htail⟩ := trace_full_reauth env p store h hc hr
  rw [ht]
  simp only [List.countP_append, checkTrace_no_flow, refreshTrace_no_flow, flowTrace_one_flow]
  rcases htail with ⟨-, ht0⟩ | ⟨d, prov, -, -, ht1⟩ | ⟨d, -, -, ht1⟩
  · rw [ht0]; rfl
  · rw [ht1]; rfl
  · rw [ht1]; rfl

theorem flowTrace_subset_trace (env : Env) (p : Params) (store : ConfigStore)
    (h : appCredentialsPresent p = true)
    (hc : checkAccepts env p (storedOf p store) = false)
    (hr : refreshAccepts env p (storedOf p store) = false) (e : Event)
    (he : e ∈ flowTrace env p (storedOf p store) (getFileConfig store).2) :
    e ∈ (authenticateAccount env p store).final.trace := by
  obtain ⟨tail, ht, -⟩ := trace_full_reauth env p store h hc hr
  rw [ht]
  simp only [List.mem_append]
  exact Or.inl (Or.inr he)

theorem flow_event_mem_trace (env : Env) (p : Params) (store : ConfigStore)
    (h : appCredentialsPresent p = true)
    (hc : checkAccepts env p (storedOf p store) = false)
    (hr : refreshAccepts env p (storedOf p store) = false) :
    Event.startOAuthServer (oauthOptions p (storedOf p store))
        (clearAuthData (getFileConfig store).2 p.configKeyPrefix)
        (env.startOAuthServer (oauthOptions p (storedOf p store)))
      ∈ (authenticateAccount env p store).final.trace := by
  apply flowTrace_subset_trace env p store h hc hr
  rw [mem_flowTrace]
  exact Or.inr (Or.inr (Or.inr rfl))

/-- The record the flow sees: cleared, with the browser hint as read at the
start of the run. -/
theorem record_at_flow_call (p : Params) (store : ConfigStore) :
    persistedRecord p.configKeyPrefix (clearAuthData (getFileConfig store).2 p.configKeyPrefix) =
      { accessToken := JVal.null, refreshToken := JVal.null, userId := JVal.null,
        username := JVal.null, scopes := [], expiresIn := JVal.null, lastRefresh := JVal.null,
        browserUserAgent := (storedOf p store).browserUserAgent } := by
  rw [clearAuthData_record, ← getFileConfig_fst]
  rfl

theorem refreshAccepts_false_of_throws (env : Env) (p : Params) (stored : Stored)
    (h : env.getAccessTokenForUser stored.userId (refreshSeed env stored) = RefreshOutcome.throws) :
    refreshAccepts env p stored = false := by
  rw [Bool.eq_false_iff]
  intro hacc
  obtain ⟨-, -, t, v, ho, -⟩ := (refreshAccepts_spec env p _).1 hacc
  rw [h] at ho
  cases ho

theorem refreshAccepts_false_of_other_user (env : Env) (p : Params) (stored : Stored)
    (t : AccessToken) (v : ValidationResult)
    (ho : env.getAccessTokenForUser stored.userId (refreshSeed env stored)
            = RefreshOutcome.returned (some t))
    (hv : env.validateToken ValidateSite.afterRefresh t.accessToken
            = ValidateOutcome.returned (some v))
    (hne : v.userId.strictEq stored.userId = false) :
    refreshAccepts env p stored = false := by
  rw [Bool.eq_false_iff]
  intro hacc
  obtain ⟨-, -, t', v', ho', hv', hs, -⟩ := (refreshAccepts_spec env p _).1 hacc
  rw [ho] at ho'
  injection ho' with ho'
  injection ho' with ho'
  subst ho'
  rw [hv] at hv'
  injection hv' with hv'
  injection hv' with hv'
  subst hv'
  rw [hne] at hs
  cases hs

/-- From an empty store a call with application credentials always reaches
the flow. -/
theorem empty_store_runs_flow (env : Env) (p : Params) (store : ConfigStore)
    (hempty : (getFileConfig store).1 = []) (h : appCredentialsPresent p = true) :
    Event.startOAuthServer (oauthOptions p (storedOf p store))
        (clearAuthData (getFileConfig store).2 p.configKeyPrefix)
        (env.startOAuthServer (oauthOptions p (storedOf p store)))
      ∈ (authenticateAccount env p store).final.trace := by
  have hstored : storedOf p store = readStored p.configKeyPrefix [] := by
    unfold storedOf
    rw [hempty]
  have hc : checkAccepts env p (storedOf p store) = false := by
    rw [Bool.eq_false_iff]
    intro hacc
    have h1 := ((checkAccepts_spec env p _).1 hacc).1
    rw [hstored] at h1
    simp [readStored, Config.get, JVal.truthy] at h1
  have hr : refreshAccepts env p (storedOf p store) = false := by
    rw [Bool.eq_false_iff]
    intro hacc
    have h1 := ((refreshAccepts_spec env p _).1 hacc).1
    rw [hstored] at h1
    simp [readStored, Config.get, JVal.truthy] at h1
  exact flow_event_mem_trace env p store h hc hr

/-! ### The redirect callback and the listener -/

theorem oauthCallback_no_code (req : CallbackRequest) (tokenFetch : FetchOutcome TokenBody)
    (userFetch : FetchOutcome UsersBody) (h : req.code.truthy = false) :
    oauthCallback req tokenFetch userFetch =
      { attempt := FlowOutcome.rejects, status := 400, requests := [] } := by
  simp [oauthCallback, h]

theorem oauthCallback_token_failure (req : CallbackRequest) (tokenFetch : FetchOutcome TokenBody)
    (userFetch : FetchOutcome UsersBody) (hcode : req.code.truthy = true)
    (hfail : tokenFetch = FetchOutcome.networkError ∨
      (∃ ok, tokenFetch = FetchOutcome.response ok none) ∨
      (∃ body, tokenFetch = FetchOutcome.response false (some body)) ∨
      (∃ ok body, tokenFetch = FetchOutcome.response ok (some body) ∧
        body.access_token.truthy = false)) :
    oauthCallback req tokenFetch userFetch =
      { attempt := FlowOutcome.rejects, status := 500, requests := [Endpoint.token] } := by
  rcases hfail with h | ⟨ok, h⟩ | ⟨body, h⟩ | ⟨ok, body, h, hb⟩ <;> subst h
  · simp [oauthCallback, hcode]
  · simp [oauthCallback, hcode]
  · simp [oauthCallback, hcode]
  · simp [oauthCallback, hcode, hb]

theorem oauthCallback_token_success (req : CallbackRequest) (body : TokenBody)
    (userFetch : FetchOutcome UsersBody) (hcode : req.code.truthy = true)
    (htok : body.access_token.truthy = true) :
    oauthCallback req (FetchOutcome.response true (some body)) userFetch =
      { attempt := FlowOutcome.resolves
          { accessToken := body.access_token, refreshToken := body.refresh_token,
            expiresIn := body.expires_in, scope := body.scope.orEmptyArray,
            userId := (lookupIdentity userFetch).2, username := (lookupIdentity userFetch).1,
            userAgent := req.userAgent },
        status := 200, requests := [Endpoint.token, Endpoint.users] } := by
  simp [oauthCallback, hcode, htok]

theorem runFlow_single (current : Option Nat) (server : Nat) (e : FlowEvent) :
    runFlow current server [e] = flowStep (startListening current server) e := rfl

theorem flowStep_first_callback (current : Option Nat) (server : Nat) (req : CallbackRequest)
    (tokenFetch : FetchOutcome TokenBody) (userFetch : FetchOutcome UsersBody) :
    (runFlow current server [FlowEvent.callback req tokenFetch userFetch]).promise
      = some (oauthCallback req tokenFetch userFetch).attempt := by
  rw [runFlow_single]
  unfold flowStep
  cases h : (oauthCallback req tokenFetch userFetch).attempt with
  | rejects => simp [h, globalAuthPromiseReject, startListening]
  | resolves d => simp [h, globalAuthPromiseResolve, startListening]

theorem lookupIdentity_of_failure (userFetch : FetchOutcome UsersBody)
    (hfail : userFetch = FetchOutcome.networkError ∨
      (∃ ok, userFetch = FetchOutcome.response ok none) ∨
      (∃ body, userFetch = FetchOutcome.response false (some body)) ∨
      (∃ ok, userFetch = FetchOutcome.response ok (some { data := none })) ∨
      (∃ ok, userFetch = FetchOutcome.response ok (some { data := some [] }))) :
    lookupIdentity userFetch = (JVal.str "", JVal.str "") := by
  rcases hfail with h | ⟨ok, h⟩ | ⟨body, h⟩ | ⟨ok, h⟩ | ⟨ok, h⟩ <;> subst h
  · rfl
  · rfl
  · simp [lookupIdentity]
  · cases ok <;> simp [lookupIdentity]
  · cases ok <;> simp [lookupIdentity]

theorem flowStep_settled (st : FlowState) (e : FlowEvent) (o : FlowOutcome)
    (hi : st.currentAuthServerInstance = none) (hp : st.promise = some o) :
    flowStep st e = st := by
  obtain ⟨inst, log, pr⟩ := st
  simp only at hi hp
  subst hi hp
  unfold flowStep
  cases e with
  | listenerError b => simp [globalAuthPromiseReject, Option.orElse]
  | callback req t u =>
    cases h : (oauthCallback req t u).attempt with
    | rejects => simp [h, globalAuthPromiseReject, Option.orElse]
    | resolves d => simp [h, globalAuthPromiseResolve, Option.orElse]

theorem foldl_flowStep_settled (events : List FlowEvent) (st : FlowState) (o : FlowOutcome)
    (hi : st.currentAuthServerInstance = none) (hp : st.promise = some o) :
    events.foldl flowStep st = st := by
  induction events with
  | nil => rfl
  | cons e rest ih => rw [List.foldl_cons, flowStep_settled st e o hi hp, ih]

theorem flowStep_listening (current : Option Nat) (server : Nat) (e : FlowEvent) :
    ∃ o, flowStep (startListening current server) e =
      { currentAuthServerInstance := none,
        closeLog := (startListening current server).closeLog ++ [server],
        promise := some o } := by
  unfold flowStep
  cases e with
  | listenerError b =>
    exact ⟨FlowOutcome.rejects, by simp [globalAuthPromiseReject, startListening, Option.orElse]⟩
  | callback req t u =>
    cases h : (oauthCallback req t u).attempt with
    | rejects =>
      exact ⟨FlowOutcome.rejects,
        by simp [h, globalAuthPromiseReject, startListening, Option.orElse]⟩
    | resolves d =>
      exact ⟨FlowOutcome.resolves d,
        by simp [h, globalAuthPromiseResolve, startListening, Option.orElse]⟩

/-- The state of a run after its first event, whatever follows. -/
theorem runFlow_cons (current : Option Nat) (server : Nat) (e : FlowEvent)
    (rest : List FlowEvent) :
    runFlow current server (e :: rest) = runFlow current server [e] ∧
    ∃ o, runFlow current server [e] =
      { currentAuthServerInstance := none,
        closeLog := (startListening current server).closeLog ++ [server],
        promise := some o } := by
  obtain ⟨o, ho⟩ := flowStep_listening current server e
  refine ⟨?_, o, ho⟩
  unfold runFlow
  rw [List.foldl_cons, List.foldl_cons, List.foldl_nil, ho]
  exact foldl_flowStep_settled rest _ o rfl rfl

theorem Config.get_of_not_mem_keys (c : Config) (k : String) (h : k ∉ c.keys) :
    c.get k = JVal.undefined := by
  induction c with
  | nil => rfl
  | cons hd tl ih =>
    obtain ⟨k0, v0⟩ := hd
    simp only [Config.keys, List.map_cons, List.mem_cons, not_or] at h
    have hne : ¬ k0 = k := fun e => h.1 e.symm
    simp only [Config.get, hne, if_false]
    exact ih h.2

theorem Config.mem_keys_set (c : Config) (k k' : String) (v : JVal) :
    k' ∈ (c.set k v).keys ↔ k' = k ∨ k' ∈ c.keys := by
  induction c with
  | nil => simp [Config.set, Config.keys]
  | cons hd tl ih =>
    obtain ⟨k0, v0⟩ := hd
    by_cases h : k0 = k
    · subst h
      simp [Config.set, Config.keys]
    · simp only [Config.set, h, if_false]
      simp only [Config.keys, List.map_cons, List.mem_cons] at ih ⊢
      rw [ih]
      tauto

theorem mem_keys_objectAssign (c p : Config) (k : String) :
    k ∈ (objectAssign c p).keys ↔ k ∈ c.keys ∨ k ∈ p.keys := by
  induction p generalizing c with
  | nil => simp [objectAssign_nil, Config.keys]
  | cons hd tl ih =>
    obtain ⟨k0, v0⟩ := hd
    rw [objectAssign_cons, ih, Config.mem_keys_set]
    simp only [Config.keys, List.map_cons, List.mem_cons]
    tauto

theorem get_objectAssign_of_not_mem (c p : Config) (k : String) (h : k ∉ p.keys) :
    (objectAssign c p).get k = c.get k := by
  induction p generalizing c with
  | nil => rfl
  | cons hd tl ih =>
    obtain ⟨k0, v0⟩ := hd
    simp only [Config.keys, List.map_cons, List.mem_cons, not_or] at h
    rw [objectAssign_cons, ih _ h.2, Config.get_set]
    have hne : ¬ k0 = k := fun e => h.1 e.symm
    simp [hne]

theorem get_objectAssign_of_mem (c p : Config) (k : String) (v : JVal)
    (hnd : p.keys.Nodup) (h : (k, v) ∈ p) : (objectAssign c p).get k = v := by
  induction p generalizing c with
  | nil => simp at h
  | cons hd tl ih =>
    obtain ⟨k0, v0⟩ := hd
    simp only [Config.keys, List.map_cons, List.nodup_cons] at hnd
    rw [objectAssign_cons]
    simp only [List.mem_cons, Prod.mk.injEq] at h
    rcases h with ⟨hk, hv⟩ | h
    · subst hk hv
      rw [get_objectAssign_of_not_mem _ _ _ hnd.1, Config.get_set]
      simp
    · exact ih _ hnd.2 h

theorem Config.mem_set (c : Config) (k : String) (v : JVal) (kv : String × JVal)
    (h : kv ∈ c.set k v) : kv = (k, v) ∨ kv ∈ c := by
  induction c with
  | nil => simpa [Config.set] using h
  | cons hd tl ih =>
    obtain ⟨k0, v0⟩ := hd
    by_cases hk : k0 = k
    · simp only [Config.set, hk, if_true, List.mem_cons] at h
      rcases h with h | h
      · exact Or.inl h
      · exact Or.inr (List.mem_cons_of_mem _ h)
    · simp only [Config.set, hk, if_false, List.mem_cons] at h
      rcases h with h | h
      · exact Or.inr (by rw [h]; exact List.mem_cons_self _ _)
      · rcases ih h with h' | h'
        · exact Or.inl h'
        · exact Or.inr (List.mem_cons_of_mem _ h')

theorem mem_objectAssign (c p : Config) (kv : String × JVal) (h : kv ∈ objectAssign c p) :
    kv ∈ c ∨ kv ∈ p := by
  induction p generalizing c with
  | nil => exact Or.inl h
  | cons hd tl ih =>
    obtain ⟨k0, v0⟩ := hd
    rw [objectAssign_cons] at h
    rcases ih _ h with h' | h'
    · rcases Config.mem_set c k0 v0 kv h' with h'' | h''
      · exact Or.inr (by rw [h'']; exact List.mem_cons_self _ _)
      · exact Or.inl h''
    · exact Or.inr (List.mem_cons_of_mem _ h')

theorem jsonRoundTrip_eq_self (c : Config) (h : ∀ kv ∈ c, kv.2 ≠ JVal.undefined) :
    jsonRoundTrip c = c := by
  unfold jsonRoundTrip
  rw [List.filter_eq_self]
  intro kv hkv
  simpa using h kv hkv

theorem jsonRoundTrip_keys_subset (c : Config) (k : String) (h : k ∈ (jsonRoundTrip c).keys) :
    k ∈ c.keys := by
  simp only [jsonRoundTrip, Config.keys, List.mem_map, List.mem_filter] at h ⊢
  obtain ⟨kv, ⟨hkv, -⟩, hk⟩ := h
  exact ⟨kv, hkv, hk⟩

/-- Reading the written file back gives, for every key, the value the
in-memory object has for it. -/
theorem get_jsonRoundTrip (c : Config) (k : String) (hnd : c.keys.Nodup) :
    (jsonRoundTrip c).get k = c.get k := by
  induction c with
  | nil => rfl
  | cons hd tl ih =>
    obtain ⟨k0, v0⟩ := hd
    simp only [Config.keys, List.map_cons, List.nodup_cons] at hnd
    by_cases hv : v0 = JVal.undefined
    · subst hv
      have e : jsonRoundTrip ((k0, JVal.undefined) :: tl) = jsonRoundTrip tl := by
        simp [jsonRoundTrip]
      rw [e, ih hnd.2]
      by_cases hk : k0 = k
      · subst hk
        simp only [Config.get, if_true]
        exact Config.get_of_not_mem_keys _ _ hnd.1
      · simp [Config.get, hk]
    · have e : jsonRoundTrip ((k0, v0) :: tl) = (k0, v0) :: jsonRoundTrip tl := by
        simp [jsonRoundTrip, hv]
      rw [e]
      simp only [Config.get, ih hnd.2]

theorem getFileConfig_updateFileConfig_writable (s : ConfigStore) (p : Config)
    (hw : s.writable = true) :
    getFileConfig (updateFileConfig s p) =
      (objectAssign s.fileConfig p, updateFileConfig s p) := by
  by_cases h : (objectAssign s.fileConfig p).length = 0
  · have hnil : objectAssign s.fileConfig p = [] := List.length_eq_zero.1 h
    simp [getFileConfig, updateFileConfig, hw, hnil, loadConfigs, jsonRoundTrip]
  · rw [getFileConfig_of_ne_nil]
    · rw [updateFileConfig_fileConfig]
    · rw [updateFileConfig_fileConfig]
      omega
theorem Config.keys_set (c : Config) (k : String) (v : JVal) :
    (c.set k v).keys = if k ∈ c.keys then c.keys else c.keys ++ [k] := by
  induction c with
  | nil => simp [Config.set, Config.keys]
  | cons hd tl ih =>
    obtain ⟨k0, v0⟩ := hd
    by_cases h : k0 = k
    · subst h
      simp [Config.set, Config.keys]
    · have hne : ¬ k = k0 := fun e => h e.symm
      simp only [Config.set, h, if_false]
      simp only [Config.keys, List.map_cons, List.mem_cons, hne, false_or] at ih ⊢
      rw [ih]
      split <;> simp

theorem Config.nodup_keys_set (c : Config) (k : String) (v : JVal) (h : c.keys.Nodup) :
    (c.set k v).keys.Nodup := by
  rw [Config.keys_set]
  split
  · exact h
  · rename_i hk
    rw [List.nodup_append]
    refine ⟨h, List.nodup_singleton k, ?_⟩
    intro a ha hb
    simp only [List.mem_singleton] at hb
    subst hb
    exact hk ha

theorem nodup_keys_objectAssign (c p : Config) (h : c.keys.Nodup) :
    (objectAssign c p).keys.Nodup := by
  induction p generalizing c with
  | nil => exact h
  | cons hd tl ih =>
    obtain ⟨k0, v0⟩ := hd
    rw [objectAssign_cons]
    exact ih _ (Config.nodup_keys_set c k0 v0 h)
theorem loaded_getFileConfig (s : ConfigStore) : (getFileConfig s).2.loaded := by
  unfold ConfigStore.loaded
  rw [getFileConfig_idem]
  have h := getFileConfig_fst s
  exact Prod.ext h rfl

theorem loaded_updateFileConfig (s : ConfigStore) (nv : Config) (h : s.loaded) :
    (updateFileConfig s nv).loaded := by
  unfold ConfigStore.loaded at h ⊢
  by_cases hl : 0 < (objectAssign s.fileConfig nv).length
  · rw [getFileConfig_of_ne_nil]
    rw [updateFileConfig_fileConfig]
    exact hl
  · have hnil : objectAssign s.fileConfig nv = [] := by
      apply List.length_eq_zero.1
      omega
    cases hw : s.writable with
    | true =>
      rw [getFileConfig_updateFileConfig_writable s nv hw, updateFileConfig_fileConfig]
    | false =>
      cases nv with
      | nil =>
        have e : updateFileConfig s [] = s := by
          obtain ⟨fc, disk, w⟩ := s
          simp only at hw
          subst hw
          simp [updateFileConfig, objectAssign_nil]
        rw [e]
        exact h
      | cons hd tl =>
        obtain ⟨k0, v0⟩ := hd
        have := objectAssign_length_pos s.fileConfig k0 v0 tl
        omega

theorem loaded_foldl_updateFileConfig (nvs : List Config) (s : ConfigStore) (h : s.loaded) :
    (nvs.foldl updateFileConfig s).loaded := by
  induction nvs generalizing s with
  | nil => exact h
  | cons nv rest ih => exact ih _ (loaded_updateFileConfig s nv h)

/-- A chain of writes leaves every key that none of them names as it was. -/
theorem get_foldl_updateFileConfig (nvs : List Config) (s : ConfigStore) (k : String)
    (h : ∀ nv ∈ nvs, k ∉ nv.keys) :
    (nvs.foldl updateFileConfig s).fileConfig.get k = s.fileConfig.get k := by
  induction nvs generalizing s with
  | nil => rfl
  | cons nv rest ih =>
    rw [List.foldl_cons, ih _ (fun nv' hnv => h nv' (List.mem_cons_of_mem _ hnv)),
      updateFileConfig_fileConfig,
      get_objectAssign_of_not_mem _ _ _ (h nv (List.mem_cons_self _ _))]

theorem finalize_ok_inv (p : Params) (r : Run) (session : Session)
    (h : (finalize p r).result = Except.ok session) :
    r.authProvider = some session.authProvider ∧ r.apiClient = some session.apiClient ∧
    session.userId = r.userId ∧ session.username = r.username ∧
    session.accessToken = r.userData := by
  unfold finalize at h
  cases ht : r.thrown with
  | some msg => simp [ht] at h
  | none =>
    cases ha : r.authProvider with
    | none => simp [ht, ha] at h
    | some a =>
      cases hc : r.apiClient with
      | none => simp [ht, ha, hc] at h
      | some c =>
        simp only [ht, ha, hc] at h
        split at h
        · simp at h
        · simp only [Except.ok.injEq] at h
          subst h
          exact ⟨rfl, rfl, rfl, rfl, rfl⟩

theorem checkSuccessRun_store (env : Env) (p : Params) (stored : Stored) (r : Run) :
    (checkSuccessRun env p stored r).store =
      if stored.scopes ≠ checkScopes env stored then
        updateFileConfig (getFileConfig r.store).2
          [(keyScopes p.configKeyPrefix, JVal.arr (checkScopes env stored))]
      else (getFileConfig r.store).2 := by
  unfold checkSuccessRun
  simp only [builtRun_eq]
  split <;> rfl

/-- The writes of a run, as a chain from the config read in Schritt 1 to the
final config; each write of the chain is an `updateFileConfig` event of the
run. -/
theorem final_store_chain (env : Env) (p : Params) (store : ConfigStore)
    (h : appCredentialsPresent p = true) :
    ∃ nvs : List Config,
      (∀ nv ∈ nvs, Event.updateFileConfig nv ∈ (authenticateAccount env p store).final.trace) ∧
      (authenticateAccount env p store).final.store
        = nvs.foldl updateFileConfig (getFileConfig store).2 := by
  cases hc : checkAccepts env p (storedOf p store) with
  | true =>
    obtain ⟨prov, ht⟩ := trace_check_success env p store h hc
    have e : (getFileConfig (initialRun (getFileConfig store).2).store).2
        = (getFileConfig store).2 := congrArg Prod.snd (getFileConfig_idem store)
    rw [ht, authenticateAccount_check_success env p store h hc, finalize_final_store,
      checkSuccessRun_store, e]
    split
    · refine ⟨[[(keyScopes p.configKeyPrefix,
        JVal.arr (checkScopes env (storedOf p store)))]], ?_, rfl⟩
      intro nv hnv
      simp only [List.mem_singleton] at hnv
      subst hnv
      simp
    · exact ⟨[], by simp, rfl⟩
  | false =>
    cases hr : refreshAccepts env p (storedOf p store) with
    | true =>
      rw [authenticateAccount_refresh_success env p store h hc hr, finalize_final_store]
      refine ⟨[], by simp, ?_⟩
      unfold refreshSuccessRun
      simp only [builtRun_eq]
      exact congrArg Prod.snd (getFileConfig_idem store)
    | false =>
      have hev := flowTrace_subset_trace env p store h hc hr
      cases hf : env.startOAuthServer (oauthOptions p (storedOf p store)) with
      | rejects =>
        obtain ⟨-, hs, -⟩ := result_flow_rejects env p store h hc hr hf
        refine ⟨[clearValues p.configKeyPrefix], ?_, ?_⟩
        · intro nv hnv
          simp only [List.mem_singleton] at hnv
          subst hnv
          exact hev _ ((mem_flowTrace env p _ _ _).2 (Or.inr (Or.inr (Or.inl rfl))))
        · rw [hs]
          rfl
      | resolves d =>
        obtain ⟨-, -, hs, -⟩ := result_flow_resolves env p store d h hc hr hf
        obtain ⟨tail, ht, htail⟩ := trace_full_reauth env p store h hc hr
        refine ⟨[clearValues p.configKeyPrefix, flowValues p.configKeyPrefix d env.nowISO],
          ?_, ?_⟩
        · intro nv hnv
          simp only [List.mem_cons, List.mem_singleton, List.not_mem_nil, or_false] at hnv
          rcases hnv with hnv | hnv
          · subst hnv
            exact hev _ ((mem_flowTrace env p _ _ _).2 (Or.inr (Or.inr (Or.inl rfl))))
          · subst hnv
            rcases htail with ⟨hrej, -⟩ | ⟨d', prov, hd, -, htl⟩ | ⟨d', hd, -, htl⟩
            · rw [hf] at hrej
              cases hrej
            · rw [hf] at hd
              injection hd with hd
              subst hd
              rw [ht, htl]
              simp
            · rw [hf] at hd
              injection hd with hd
              subst hd
              rw [ht, htl]
              simp
        · rw [hs]
          rfl

/-- The provider of a returned session is bound to the role prefix of the
call. -/
theorem session_provider_prefix (env : Env) (p : Params) (store : ConfigStore)
    (session : Session) (h : (authenticateAccount env p store).result = Except.ok session) :
    session.authProvider.configKeyPrefix = p.configKeyPrefix := by
  cases hcred : appCredentialsPresent p with
  | false =>
    rw [authenticateAccount_no_credentials env p store hcred] at h
    cases h
  | true =>
    cases hc : checkAccepts env p (storedOf p store) with
    | true =>
      rw [authenticateAccount_check_success env p store hcred hc] at h
      obtain ⟨ha, -⟩ := finalize_ok_inv p _ session h
      unfold checkSuccessRun at ha
      simp only [builtRun_eq] at ha
      split at ha
      · simp only [Option.some.injEq] at ha
        rw [← ha]
        rfl
      · simp only [Option.some.injEq] at ha
        rw [← ha]
        rfl
    | false =>
      cases hr : refreshAccepts env p (storedOf p store) with
      | true =>
        rw [authenticateAccount_refresh_success env p store hcred hc hr] at h
        obtain ⟨ha, -⟩ := finalize_ok_inv p _ session h
        unfold refreshSuccessRun at ha
        simp only [builtRun_eq, Option.some.injEq] at ha
        rw [← ha]
        rfl
      | false =>
        obtain ⟨-, -, -, hfl, -, -⟩ := reauthNeededRun_facts env p store
        rw [authenticateAccount_full_reauth env p store hcred hc hr,
          fullReauth_run env p _ _ hfl] at h
        cases hf : env.startOAuthServer (oauthOptions p (storedOf p store)) with
        | rejects =>
          rw [hf] at h
          simp only at h
          rw [finalize_thrown p _ _ rfl] at h
          cases h
        | resolves d =>
          rw [hf] at h
          simp only at h
          cases hrt : d.refreshToken.truthy with
          | true =>
            simp only [hrt, if_true] at h
            obtain ⟨ha, -⟩ := finalize_ok_inv p _ session h
            simp only [builtRun_eq, Option.some.injEq] at ha
            rw [← ha]
            rfl
          | false =>
            simp only [hrt, Bool.false_eq_true, if_false] at h
            rw [finalize_thrown p _ _ rfl] at h
            cases h

theorem clearValues_keys (pre : String) (k : String) (h : k ∈ (clearValues pre).keys) :
    k ∈ roleKeys pre := by
  simp only [clearValues, Config.keys, roleKeys, List.map_cons, List.map_nil, List.mem_cons,
    List.not_mem_nil, or_false] at h ⊢
  tauto

theorem flowValues_keys (pre : String) (d : AuthData) (now : String) (k : String)
    (h : k ∈ (flowValues pre d now).keys) : k ∈ roleKeys pre := by
  simp only [flowValues, Config.keys, roleKeys, List.map_cons, List.map_nil, List.mem_cons,
    List.not_mem_nil, or_false] at h ⊢
  tauto

theorem refreshValues_keys (pre : String) (t : AccessToken) (now : String) :
    (refreshValues pre t now).keys = refreshKeys pre := rfl

theorem refreshKeys_subset (pre : String) (k : String) (h : k ∈ refreshKeys pre) :
    k ∈ roleKeys pre := by
  simp only [refreshKeys, roleKeys, List.mem_cons, List.not_mem_nil, or_false] at h ⊢
  tauto

theorem roleKeys_bot_streamer : ∀ k ∈ roleKeys "BOT", k ∉ roleKeys "STREAMER" := by decide

theorem roleKeys_streamer_bot : ∀ k ∈ roleKeys "STREAMER", k ∉ roleKeys "BOT" := by decide

/-- The role keys of BOT and of STREAMER have nothing in common. -/
theorem roleKeys_disjoint (pre other : String)
    (h : (pre = "BOT" ∧ other = "STREAMER") ∨ (pre = "STREAMER" ∧ other = "BOT"))
    (k : String) (hk : k ∈ roleKeys other) : k ∉ roleKeys pre := by
  rcases h with ⟨h1, h2⟩ | ⟨h1, h2⟩
  · subst h1 h2
    exact roleKeys_streamer_bot k hk
  · subst h1 h2
    exact roleKeys_bot_streamer k hk

theorem refreshValues_nodup (pre : String) (t : AccessToken) (now : String) :
    (refreshValues pre t now).keys.Nodup := by
  simp [refreshValues, Config.keys]

theorem userId_not_refreshKey (pre : String) : keyUserId pre ∉ refreshKeys pre := by
  simp [refreshKeys]

theorem username_not_refreshKey (pre : String) : keyUsername pre ∉ refreshKeys pre := by
  simp [refreshKeys]
theorem readStored_congr (pre : String) (c c' : Config)
    (h : ∀ k ∈ roleKeys pre, c.get k = c'.get k) : readStored pre c = readStored pre c' := by
  unfold readStored
  rw [h (keyToken pre) (by simp [roleKeys]), h (keyRefreshToken pre) (by simp [roleKeys]),
    h (keyUserId pre) (by simp [roleKeys]), h (keyUsername pre) (by simp [roleKeys]),
    h (keyScopes pre) (by simp [roleKeys]), h (keyExpiresIn pre) (by simp [roleKeys]),
    h (keyLastRefresh pre) (by simp [roleKeys]), h (keyBrowser pre) (by simp [roleKeys])]

/-- Every `updateFileConfig` call of a run names only keys of the role's
record. -/
theorem write_keys_of_mem_trace (env : Env) (p : Params) (store : ConfigStore) (nv : Config)
    (h : Event.updateFileConfig nv ∈ (authenticateAccount env p store).final.trace)
    (k : String) (hk : k ∈ nv.keys) : k ∈ roleKeys p.configKeyPrefix := by
  obtain ⟨-, hcases⟩ := mem_trace env p store _ h
  rcases hcases with ⟨-, -, he⟩ | ⟨-, -, he⟩ | ⟨-, he⟩ | ⟨-, -, he⟩ | ⟨-, -, d, -, he⟩ | ⟨prov, he⟩
  · simp [validateCheckEvent] at he
  · injection he with he
    subst he
    simp only [Config.keys, List.map_cons, List.map_nil, List.mem_singleton] at hk
    subst hk
    simp [roleKeys]
  · rw [mem_refreshTrace] at he
    rcases he with he | ⟨-, -, he | ⟨t, -, he⟩⟩
    · cases he
    · simp [refreshEvent] at he
    · simp [validateRefreshEvent] at he
  · rw [mem_flowTrace] at he
    rcases he with he | he | he | he
    · cases he
    · cases he
    · injection he with he
      subst he
      exact clearValues_keys _ k hk
    · cases he
  · injection he with he
    subst he
    exact flowValues_keys _ _ _ k hk
  · cases he

/-- A run leaves every key outside the role's record as `getFileConfig`
returned it before the call. -/
theorem get_final_store_of_not_roleKey (env : Env) (p : Params) (store : ConfigStore)
    (k : String) (hk : k ∉ roleKeys p.configKeyPrefix) :
    (getFileConfig (authenticateAccount env p store).final.store).1.get k
      = (getFileConfig store).1.get k := by
  cases hcred : appCredentialsPresent p with
  | false =>
    rw [authenticateAccount_no_credentials env p store hcred]
    rfl
  | true =>
    obtain ⟨nvs, hev, hs⟩ := final_store_chain env p store hcred
    have hl := loaded_foldl_updateFileConfig nvs _ (loaded_getFileConfig store)
    unfold ConfigStore.loaded at hl
    rw [hs, hl]
    simp only
    rw [get_foldl_updateFileConfig nvs _ k, ← getFileConfig_fst]
    intro nv hnv hmem
    exact hk (write_keys_of_mem_trace env p store nv (hev nv hnv) k hmem)
theorem persistedRecord_getFileConfig (pre : String) (s : ConfigStore) :
    persistedRecord pre (getFileConfig s).2 = persistedRecord pre s := by
  unfold persistedRecord
  rw [getFileConfig_idem]

theorem persistedRecord_onRefresh (prov : AuthProvider) (s : ConfigStore) (t : AccessToken)
    (now : String) :
    (persistedRecord prov.configKeyPrefix (onRefresh prov s t now)).accessToken = t.accessToken ∧
    (persistedRecord prov.configKeyPrefix (onRefresh prov s t now)).refreshToken
      = t.refreshToken := by
  unfold persistedRecord onRefresh
  have h := getFileConfig_updateFileConfig s (keyToken prov.configKeyPrefix) t.accessToken
    (refreshValues prov.configKeyPrefix t now).tail
  have e : (keyToken prov.configKeyPrefix, t.accessToken) ::
      (refreshValues prov.configKeyPrefix t now).tail
        = refreshValues prov.configKeyPrefix t now := rfl
  rw [e] at h
  rw [h]
  simp only [readStored]
  exact ⟨get_objectAssign_of_mem _ _ _ _ (refreshValues_nodup _ _ _) (by simp [refreshValues]),
    get_objectAssign_of_mem _ _ _ _ (refreshValues_nodup _ _ _) (by simp [refreshValues])⟩

/-- Write-backs of complete or empty pairs keep the pair invariant. -/
theorem pairInvariant_foldl_onRefresh (prov : AuthProvider)
    (refreshes : List (AccessToken × String)) (s : ConfigStore)
    (hs : pairInvariant (persistedRecord prov.configKeyPrefix s))
    (h : ∀ r ∈ refreshes, r.1.accessToken.truthy = r.1.refreshToken.truthy) :
    pairInvariant (persistedRecord prov.configKeyPrefix
      (refreshes.foldl (fun s r => onRefresh prov s r.1 r.2) s)) := by
  induction refreshes generalizing s with
  | nil => exact hs
  | cons r rest ih =>
    rw [List.foldl_cons]
    apply ih
    · unfold pairInvariant
      obtain ⟨h1, h2⟩ := persistedRecord_onRefresh prov s r.1 r.2
      rw [h1, h2]
      exact h r (List.mem_cons_self _ _)
    · intro r' hr'
      exact h r' (List.mem_cons_of_mem _ hr')

theorem persistedRecord_scopes_write (pre : String) (s : ConfigStore) (v : JVal) :
    (persistedRecord pre (updateFileConfig s [(keyScopes pre, v)])).accessToken
      = s.fileConfig.get (keyToken pre) ∧
    (persistedRecord pre (updateFileConfig s [(keyScopes pre, v)])).refreshToken
      = s.fileConfig.get (keyRefreshToken pre) := by
  unfold persistedRecord
  rw [getFileConfig_updateFileConfig]
  simp only [readStored]
  exact ⟨get_objectAssign_of_not_mem _ _ _ (by simp [Config.keys]),
    get_objectAssign_of_not_mem _ _ _ (by simp [Config.keys])⟩

/-- The pair invariant after a run, given it before the run and for the pair
the flow delivered. -/
theorem pairInvariant_final_store (env : Env) (p : Params) (store : ConfigStore)
    (hpre : pairInvariant (persistedRecord p.configKeyPrefix store))
    (hflow : ∀ d, appCredentialsPresent p = true →
      checkAccepts env p (storedOf p store) = false →
      refreshAccepts env p (storedOf p store) = false →
      env.startOAuthServer (oauthOptions p (storedOf p store)) = FlowOutcome.resolves d →
      d.accessToken.truthy = d.refreshToken.truthy) :
    pairInvariant (persistedRecord p.configKeyPrefix
      (authenticateAccount env p store).final.store) := by
  cases hcred : appCredentialsPresent p with
  | false =>
    rw [authenticateAccount_no_credentials env p store hcred]
    exact hpre
  | true =>
    cases hc : checkAccepts env p (storedOf p store) with
    | true =>
      have e : (getFileConfig (initialRun (getFileConfig store).2).store).2
          = (getFileConfig store).2 := congrArg Prod.snd (getFileConfig_idem store)
      rw [authenticateAccount_check_success env p store hcred hc, finalize_final_store,
        checkSuccessRun_store, e]
      split
      · unfold pairInvariant
        obtain ⟨h1, h2⟩ := persistedRecord_scopes_write p.configKeyPrefix (getFileConfig store).2
          (JVal.arr (checkScopes env (storedOf p store)))
        rw [h1, h2, ← getFileConfig_fst]
        exact hpre
      · rw [persistedRecord_getFileConfig]
        exact hpre
    | false =>
      cases hr : refreshAccepts env p (storedOf p store) with
      | true =>
        obtain ⟨-, -, -, -, hs⟩ := result_refresh_success env p store hcred hc hr
        rw [hs, persistedRecord_getFileConfig, persistedRecord_getFileConfig]
        exact hpre
      | false =>
        cases hf : env.startOAuthServer (oauthOptions p (storedOf p store)) with
        | rejects =>
          obtain ⟨-, hs, -⟩ := result_flow_rejects env p store hcred hc hr hf
          rw [hs, clearAuthData_record]
          rfl
        | resolves d =>
          obtain ⟨-, -, hs, -⟩ := result_flow_resolves env p store d hcred hc hr hf
          rw [hs, persistedRecord_flowValues]
          exact hflow d hcred hc hr hf
/-- The Refresh step is entered only with application credentials and after a
CheckExisting that did not succeed. -/
theorem refreshEntered_of_mem_trace (env : Env) (p : Params) (store : ConfigStore)
    (h : Event.refreshStepEntered ∈ (authenticateAccount env p store).final.trace) :
    appCredentialsPresent p = true ∧ checkAccepts env p (storedOf p store) = false := by
  obtain ⟨hcred, hcases⟩ := mem_trace env p store _ h
  refine ⟨hcred, ?_⟩
  rcases hcases with ⟨-, -, he⟩ | ⟨-, -, he⟩ | ⟨hc, -⟩ | ⟨hc, -, -⟩ | ⟨hc, -, -⟩ | ⟨prov, he⟩
  · simp [validateCheckEvent] at he
  · cases he
  · exact hc
  · exact hc
  · exact hc
  · cases he

theorem refreshAccepts_false_of_missing (env : Env) (p : Params) (stored : Stored)
    (h : stored.refreshToken.truthy = false ∨ stored.userId.truthy = false) :
    refreshAccepts env p stored = false := by
  rw [Bool.eq_false_iff]
  intro hacc
  obtain ⟨h1, h2, -⟩ := (refreshAccepts_spec env p _).1 hacc
  rcases h with h | h
  · rw [h1] at h
    cases h
  · rw [h2] at h
    cases h

theorem refreshTrace_of_missing (env : Env) (stored : Stored)
    (h : stored.refreshToken.truthy = false ∨ stored.userId.truthy = false) :
    refreshTrace env stored = [Event.refreshStepEntered] := by
  unfold refreshTrace
  have hb : (stored.refreshToken.truthy && stored.userId.truthy) = false := by
    rcases h with h | h <;> simp [h]
  rw [hb]
  rfl

/-- After the flow call a run only writes the new record and builds the
provider. -/
theorem tail_after_flow (env : Env) (p : Params) (store : ConfigStore)
    (h : appCredentialsPresent p = true)
    (hc : checkAccepts env p (storedOf p store) = false)
    (hr : refreshAccepts env p (storedOf p store) = false) :
    ∃ tail, (authenticateAccount env p store).final.trace =
      checkTrace env (storedOf p store) ++ refreshTrace env (storedOf p store) ++
        flowTrace env p (storedOf p store) (getFileConfig store).2 ++ tail ∧
      ∀ e ∈ tail, e.isFlow = false ∧ e.isClear = false ∧ e.isRefreshAttempt = false ∧
        (∀ site tok oc, e ≠ Event.validateToken site tok oc) := by
  obtain ⟨tail, ht, htail⟩ := trace_full_reauth env p store h hc hr
  refine ⟨tail, ht, ?_⟩
  rcases htail with ⟨-, h0⟩ | ⟨d, prov, -, -, h1⟩ | ⟨d, -, -, h1⟩
  · rw [h0]
    intro e he
    cases he
  · rw [h1]
    intro e he
    simp only [List.mem_cons, List.mem_singleton, List.not_mem_nil, or_false] at he
    rcases he with he | he <;> subst he <;>
      exact ⟨rfl, rfl, rfl, fun _ _ _ hn => by cases hn⟩
  · rw [h1]
    intro e he
    simp only [List.mem_singleton] at he
    subst he
    exact ⟨rfl, rfl, rfl, fun _ _ _ hn => by cases hn⟩

/-- The errors a run can end with once the application credentials are
present: the two of `authenticateAccount`, and the one of `addUser` after a
flow that resolved without a refresh token. -/
theorem error_messages (env : Env) (p : Params) (store : ConfigStore)
    (hcred : appCredentialsPresent p = true) (msg : String)
    (h : (authenticateAccount env p store).result = Except.error msg) :
    msg = oauthFailedMessage p.configKeyPrefix ∨
    msg = notInitializedMessage p.configKeyPrefix ∨
    (checkAccepts env p (storedOf p store) = false ∧
      refreshAccepts env p (storedOf p store) = false ∧
      ∃ d, env.startOAuthServer (oauthOptions p (storedOf p store)) = FlowOutcome.resolves d ∧
        d.refreshToken.truthy = false ∧ msg = env.addUserError d.userId) := by
  cases hc : checkAccepts env p (storedOf p store) with
  | true =>
    obtain ⟨h1, h2, -⟩ := result_check_success env p store hcred hc
    cases hn : (storedOf p store).username.truthy with
    | true =>
      obtain ⟨session, hs, -⟩ := h1 hn
      rw [hs] at h
      cases h
    | false =>
      rw [h2 hn] at h
      injection h with h
      exact Or.inr (Or.inl h.symm)
  | false =>
    cases hr : refreshAccepts env p (storedOf p store) with
    | true =>
      obtain ⟨h1, h2, -⟩ := result_refresh_success env p store hcred hc hr
      cases hn : (storedOf p store).username.truthy with
      | true =>
        obtain ⟨session, hs, -⟩ := h1 hn
        rw [hs] at h
        cases h
      | false =>
        rw [h2 hn] at h
        injection h with h
        exact Or.inr (Or.inl h.symm)
    | false =>
      cases hf : env.startOAuthServer (oauthOptions p (storedOf p store)) with
      | rejects =>
        rw [(result_flow_rejects env p store hcred hc hr hf).1] at h
        injection h with h
        exact Or.inl h.symm
      | resolves d =>
        obtain ⟨h1, h2, -, -, -, h3⟩ := result_flow_resolves env p store d hcred hc hr hf
        cases hrt : d.refreshToken.truthy with
        | false =>
          rw [h3 hrt] at h
          injection h with h
          exact Or.inr (Or.inr ⟨rfl, rfl, d, rfl, hrt, h.symm⟩)
        | true =>
          cases hn : (d.userId.truthy && d.username.truthy && d.accessToken.truthy) with
          | true =>
            obtain ⟨session, hs, -⟩ := h1 hrt hn
            rw [hs] at h
            cases h
          | false =>
            rw [h2 hrt hn] at h
            injection h with h
            exact Or.inr (Or.inl h.symm)

/-- A session returned after FullReauth is built from the flow's data. -/
theorem session_of_full_reauth (env : Env) (p : Params) (store : ConfigStore)
    (hcred : appCredentialsPresent p = true)
    (hc : checkAccepts env p (storedOf p store) = false)
    (hr : refreshAccepts env p (storedOf p store) = false) (session : Session)
    (hres : (authenticateAccount env p store).result = Except.ok session) :
    ∃ d, env.startOAuthServer (oauthOptions p (storedOf p store)) = FlowOutcome.resolves d ∧
      session.accessToken = UserData.val d.accessToken ∧
      session.userId = d.userId ∧ session.username = d.username ∧
      d.refreshToken.truthy = true := by
  obtain ⟨-, -, -, hfl, -, -⟩ := reauthNeededRun_facts env p store
  rw [authenticateAccount_full_reauth env p store hcred hc hr,
    fullReauth_run env p _ _ hfl] at hres
  cases hf : env.startOAuthServer (oauthOptions p (storedOf p store)) with
  | rejects =>
    rw [hf] at hres
    simp only at hres
    rw [finalize_thrown p _ _ rfl] at hres
    cases hres
  | resolves d =>
    refine ⟨d, rfl, ?_⟩
    rw [hf] at hres
    simp only at hres
    cases hrt : d.refreshToken.truthy with
    | true =>
      simp only [hrt, if_true] at hres
      obtain ⟨-, -, hu, hn, ha⟩ := finalize_ok_inv p _ session hres
      rw [ha, hu, hn]
      exact ⟨rfl, rfl, rfl, rfl⟩
    | false =>
      simp only [hrt, Bool.false_eq_true, if_false] at hres
      rw [finalize_thrown p _ _ rfl] at hres
      cases hres

/-- Whatever follows a CheckExisting that did not succeed starts with the
entry into the Refresh step. -/
theorem trace_after_failed_check (env : Env) (p : Params) (store : ConfigStore)
    (hcred : appCredentialsPresent p = true)
    (hc : checkAccepts env p (storedOf p store) = false) :
    ∃ rest, (authenticateAccount env p store).final.trace =
      checkTrace env (storedOf p store) ++ Event.refreshStepEntered :: rest := by
  have hrt : ∃ r0, refreshTrace env (storedOf p store) = Event.refreshStepEntered :: r0 :=
    ⟨_, rfl⟩
  obtain ⟨r0, hr0⟩ := hrt
  cases hr : refreshAccepts env p (storedOf p store) with
  | true =>
    obtain ⟨prov, ht⟩ := trace_refresh_success env p store hcred hc hr
    rw [ht, hr0]
    exact ⟨r0 ++ [Event.createAndConfigureAuthProvider prov], by simp⟩
  | false =>
    obtain ⟨tail, ht, -⟩ := trace_full_reauth env p store hcred hc hr
    rw [ht, hr0]
    exact ⟨r0 ++ (flowTrace env p (storedOf p store) (getFileConfig store).2 ++ tail),
      by simp⟩

theorem tokenNeedsRefresh_after_failed_check (env : Env) (p : Params) (store : ConfigStore)
    (hcred : appCredentialsPresent p = true)
    (hc : checkAccepts env p (storedOf p store) = false) :
    (authenticateAccount env p store).final.tokenNeedsRefresh = true := by
  cases hr : refreshAccepts env p (storedOf p store) with
  | true => exact (result_refresh_success env p store hcred hc hr).2.2.1
  | false =>
    cases hf : env.startOAuthServer (oauthOptions p (storedOf p store)) with
    | rejects => exact (result_flow_rejects env p store hcred hc hr hf).2.2.1
    | resolves d => exact (result_flow_resolves env p store d hcred hc hr hf).2.2.2.1

/-- A session returned after a Refresh step that succeeded carries the token
object of the refresh call. -/
theorem session_of_refresh (env : Env) (p : Params) (store : ConfigStore)
    (hcred : appCredentialsPresent p = true)
    (hc : checkAccepts env p (storedOf p store) = false)
    (hr : refreshAccepts env p (storedOf p store) = true) (session : Session)
    (hres : (authenticateAccount env p store).result = Except.ok session) :
    ∃ t, env.getAccessTokenForUser (storedOf p store).userId
          (refreshSeed env (storedOf p store)) = RefreshOutcome.returned (some t) ∧
      session.accessToken = UserData.token t := by
  obtain ⟨h1, h2, t, v, ho, -⟩ := (refreshAccepts_spec env p _).1 hr
  refine ⟨t, ho, ?_⟩
  rw [authenticateAccount_refresh_success env p store hcred hc hr] at hres
  obtain ⟨-, -, -, -, ha⟩ := finalize_ok_inv p _ session hres
  rw [ha]
  unfold refreshSuccessRun
  simp only [builtRun_eq, refreshUserData, h1, h2, ho, Bool.and_self, if_true]

/-- The config after a successful CheckExisting. -/
theorem final_store_check_success (env : Env) (p : Params) (store : ConfigStore)
    (hcred : appCredentialsPresent p = true)
    (hc : checkAccepts env p (storedOf p store) = true) :
    (authenticateAccount env p store).final.store =
      if (storedOf p store).scopes ≠ checkScopes env (storedOf p store) then
        updateFileConfig (getFileConfig store).2
          [(keyScopes p.configKeyPrefix, JVal.arr (checkScopes env (storedOf p store)))]
      else (getFileConfig store).2 := by
  have e : (getFileConfig (initialRun (getFileConfig store).2).store).2
      = (getFileConfig store).2 := congrArg Prod.snd (getFileConfig_idem store)
  rw [authenticateAccount_check_success env p store hcred hc, finalize_final_store,
    checkSuccessRun_store, e]

theorem persistedRecord_scopes_written (pre : String) (s : ConfigStore) (xs : List String) :
    (persistedRecord pre (updateFileConfig s [(keyScopes pre, JVal.arr xs)])).scopes = xs := by
  unfold persistedRecord
  rw [getFileConfig_updateFileConfig]
  simp only [readStored]
  rw [get_objectAssign_of_mem _ _ (keyScopes pre) (JVal.arr xs) (by simp [Config.keys])
    (by simp)]
  rfl
theorem includesChars_iff (hay needle : List Char) :
    includesChars hay needle = true ↔ needle <:+: hay := by
  induction hay with
  | nil =>
    cases needle with
    | nil => simp [includesChars]
    | cons c cs => simp [includesChars]
  | cons c rest ih =>
    rw [includesChars, Bool.or_eq_true, ih, List.isPrefixOf_iff_prefix, List.infix_cons_iff]

/-- The model of `includes` says that the text occurs in the string. -/
theorem includes_iff (s searchString : String) :
    includes s searchString = true ↔ containsText s searchString := by
  unfold includes containsText
  rw [includesChars_iff]
  constructor
  · rintro ⟨front, back, h⟩
    refine ⟨String.mk front, String.mk back, ?_⟩
    apply String.ext
    simp [← h]
  · rintro ⟨front, back, h⟩
    refine ⟨front.data, back.data, ?_⟩
    rw [h]
    simp

theorem getBrowserAppFromUserAgent_str (lowerCase : String → String) (s : String)
    (h : s ≠ "") :
    getBrowserAppFromUserAgent lowerCase (JVal.str s) =
      if includes (lowerCase s) "chrome" && !includes (lowerCase s) "chromium" &&
          !includes (lowerCase s) "edge" then
        Except.ok (some "chrome")
      else if includes (lowerCase s) "firefox" then Except.ok (some "firefox")
      else if includes (lowerCase s) "edge" then Except.ok (some "edge")
      else if includes (lowerCase s) "safari" && !includes (lowerCase s) "chrome" then
        Except.ok (some "safari")
      else Except.ok none := by
  unfold getBrowserAppFromUserAgent
  simp [JVal.truthy, h]

/-- The condition of line 24 in whole numbers: enough messages, and a difference
of at least a thousand times the interval in milliseconds. -/
theorem timerDue_iff (m : TimerModule) (currentTime : Int) :
    timerDue m currentTime = true ↔
      m.min_messages ≤ m.messageCountSinceLastTimer ∧
      1000 * m.message_min_interval_seconds ≤ currentTime - m.lastTimerSentTime := by
  unfold timerDue
  simp only [Bool.and_eq_true, decide_eq_true_eq, ge_iff_le]
  rw [le_div_iff₀ (by norm_num : (0 : ℚ) < 1000)]
  constructor
  · rintro ⟨h1, h2⟩
    refine ⟨h1, ?_⟩
    have h3 : ((m.message_min_interval_seconds * 1000 : Int) : ℚ)
        ≤ ((currentTime - m.lastTimerSentTime : Int) : ℚ) := by
      push_cast
      push_cast at h2
      exact h2
    have h4 := Int.cast_le.1 h3
    omega
  · rintro ⟨h1, h2⟩
    refine ⟨h1, ?_⟩
    have h3 : m.message_min_interval_seconds * 1000 ≤ currentTime - m.lastTimerSentTime := by
      omega
    have h4 : ((m.message_min_interval_seconds * 1000 : Int) : ℚ)
        ≤ ((currentTime - m.lastTimerSentTime : Int) : ℚ) := Int.cast_le.2 h3
    push_cast at h4
    push_cast
    exact h4

theorem checkAndSendTimerMessage_not_due (m : TimerModule) (currentTime : Int)
    (sayRejects : Bool) (h : timerDue m currentTime = false) :
    checkAndSendTimerMessage m currentTime sayRejects
      = { state := m, said := none, threw := false } := by
  unfold checkAndSendTimerMessage
  simp [h]

theorem checkAndSendTimerMessage_sent (m : TimerModule) (currentTime : Int)
    (hne : m.timerMessages ≠ []) (h : timerDue m currentTime = true) :
    checkAndSendTimerMessage m currentTime false =
      { state :=
          { m with
            currentTimerMessageIndex := (m.currentTimerMessageIndex + 1) % m.timerMessages.length,
            messageCountSinceLastTimer := 0,
            lastTimerSentTime := currentTime },
        said := some (timerMessageAt m m.currentTimerMessageIndex), threw := false } := by
  unfold checkAndSendTimerMessage
  have hl : ¬ m.timerMessages.length = 0 := fun e => hne (List.length_eq_zero.1 e)
  simp [h, hl]

theorem checkAndSendTimerMessage_rejected (m : TimerModule) (currentTime : Int)
    (hne : m.timerMessages ≠ []) (h : timerDue m currentTime = true) :
    checkAndSendTimerMessage m currentTime true =
      { state := m, said := some (timerMessageAt m m.currentTimerMessageIndex),
        threw := true } := by
  unfold checkAndSendTimerMessage
  have hl : ¬ m.timerMessages.length = 0 := fun e => hne (List.length_eq_zero.1 e)
  simp [h, hl]

/-- One event either leaves index and list alone and lets nothing out, or lets
the current message out and moves the index on by one, cyclically. -/
theorem timerStep_cases (m : TimerModule) (e : TimerEvent) (hne : m.timerMessages ≠ []) :
    ((timerStep m e).2 = none ∧
      (timerStep m e).1.currentTimerMessageIndex = m.currentTimerMessageIndex ∧
      (timerStep m e).1.timerMessages = m.timerMessages) ∨
    ((timerStep m e).2 = some (timerMessageAt m m.currentTimerMessageIndex) ∧
      (timerStep m e).1.currentTimerMessageIndex
        = (m.currentTimerMessageIndex + 1) % m.timerMessages.length ∧
      (timerStep m e).1.timerMessages = m.timerMessages) := by
  cases e with
  | increase n => exact Or.inl ⟨rfl, rfl, rfl⟩
  | check t rejects =>
    unfold timerStep
    simp only
    cases hd : timerDue m t with
    | false =>
      rw [checkAndSendTimerMessage_not_due m t rejects hd]
      exact Or.inl ⟨rfl, rfl, rfl⟩
    | true =>
      cases rejects with
      | true =>
        rw [checkAndSendTimerMessage_rejected m t hne hd]
        exact Or.inl ⟨rfl, rfl, rfl⟩
      | false =>
        rw [checkAndSendTimerMessage_sent m t hne hd]
        exact Or.inr ⟨rfl, rfl, rfl⟩

theorem timerMessageAt_congr (m m' : TimerModule) (h : m'.timerMessages = m.timerMessages)
    (i : Nat) : timerMessageAt m' i = timerMessageAt m i := by
  unfold timerMessageAt
  rw [h]

/-- The messages that went out during a run are the list's messages in cyclic
order, starting at the index the run started with. -/
theorem runTimer_cyclic (events : List TimerEvent) (m : TimerModule)
    (hne : m.timerMessages ≠ []) (hidx : m.currentTimerMessageIndex < m.timerMessages.length) :
    (runTimer m events).2 =
      (List.range (runTimer m events).2.length).map
        (fun j => timerMessageAt m ((m.currentTimerMessageIndex + j) % m.timerMessages.length)) ∧
    (runTimer m events).1.currentTimerMessageIndex =
      (m.currentTimerMessageIndex + (runTimer m events).2.length) % m.timerMessages.length ∧
    (runTimer m events).1.timerMessages = m.timerMessages := by
  induction events generalizing m with
  | nil =>
    refine ⟨rfl, ?_, rfl⟩
    simp [runTimer, Nat.mod_eq_of_lt hidx]
  | cons e rest ih =>
    have hpos : 0 < m.timerMessages.length := List.length_pos.2 hne
    rcases timerStep_cases m e hne with ⟨hout, hi, hl⟩ | ⟨hout, hi, hl⟩
    · have hne' : (timerStep m e).1.timerMessages ≠ [] := by rw [hl]; exact hne
      have hidx' : (timerStep m e).1.currentTimerMessageIndex
          < (timerStep m e).1.timerMessages.length := by rw [hi, hl]; exact hidx
      obtain ⟨h1, h2, h3⟩ := ih (timerStep m e).1 hne' hidx'
      have hrun : runTimer m (e :: rest) =
          ((runTimer (timerStep m e).1 rest).1, (runTimer (timerStep m e).1 rest).2) := by
        simp [runTimer, hout]
      rw [hrun]
      simp only
      rw [hi, hl] at h1 h2
      refine ⟨?_, h2, h3.trans hl⟩
      rw [h1]
      simp only [List.length_map, List.length_range]
      apply List.map_congr_left
      intro j _
      exact timerMessageAt_congr m _ hl _
    · have hne' : (timerStep m e).1.timerMessages ≠ [] := by rw [hl]; exact hne
      have hidx' : (timerStep m e).1.currentTimerMessageIndex
          < (timerStep m e).1.timerMessages.length := by
        rw [hi, hl]
        exact Nat.mod_lt _ hpos
      obtain ⟨h1, h2, h3⟩ := ih (timerStep m e).1 hne' hidx'
      have hrun : runTimer m (e :: rest) =
          ((runTimer (timerStep m e).1 rest).1,
            timerMessageAt m m.currentTimerMessageIndex ::
              (runTimer (timerStep m e).1 rest).2) := by
        simp [runTimer, hout]
      rw [hrun]
      simp only [List.length_cons]
      rw [hi, hl] at h1 h2
      refine ⟨?_, ?_, h3.trans hl⟩
      · rw [List.range_succ_eq_map, List.map_cons, List.map_map]
        congr 1
        · simp [Nat.mod_eq_of_lt hidx]
        · rw [h1]
          simp only [List.length_map, List.length_range]
          apply List.map_congr_left
          intro j _
          simp only [Function.comp]
          rw [timerMessageAt_congr m _ hl]
          congr 1
          rw [Nat.mod_add_mod]
          congr 1
          omega
      · rw [h2, Nat.mod_add_mod]
        congr 1
        omega
/-! ## Properties -/

/-- C1 (as stated, refuted): the stored access token and user id are present
and the validator accepts the token for the stored user id with exactly the
required scopes. With no username stored, `authenticateAccount` throws instead
of returning a session; with no refresh token stored, the provider build
throws inside CheckExisting, and the run calls `clearAuthData` and
`startOAuthServer`. -/
theorem checkExisting_success_throws_without_username :
    (storedOf botParams noUsernameStore).accessToken = JVal.str "A0" ∧
    (storedOf botParams noUsernameStore).userId = JVal.str "123" ∧
    checkOkEnv.validateToken ValidateSite.checkExisting (JVal.str "A0")
      = ValidateOutcome.returned (some exactValidation) ∧
    exactValidation.userId = JVal.str "123" ∧
    (∀ s, s ∈ botParams.requiredScopes ↔ s ∈ exactValidation.scopes.asArray) ∧
    (authenticateAccount checkOkEnv botParams noUsernameStore).result
      = Except.error (notInitializedMessage "BOT") ∧
    (storedOf botParams noRefreshStore).accessToken = JVal.str "A0" ∧
    (storedOf botParams noRefreshStore).userId = JVal.str "123" ∧
    (storedOf botParams noRefreshStore).username = JVal.str "mybot" ∧
    (storedOf botParams noRefreshStore).refreshToken = JVal.undefined ∧
    Event.clearAuthData "BOT"
      ∈ (authenticateAccount checkOkEnv botParams noRefreshStore).final.trace ∧
    (authenticateAccount checkOkEnv botParams noRefreshStore).final.trace.any Event.isFlow
      = true ∧
    (authenticateAccount checkOkEnv botParams noRefreshStore).result
      = Except.error (oauthFailedMessage "BOT") := by
  refine ⟨by decide, by decide, rfl, rfl, ?_, rfl, by decide, by decide, by decide, by decide,
    by decide, by decide, rfl⟩
  intro s
  simp [botParams, exactValidation, JVal.asArray]
  tauto

/-- C1 (amended): whenever the validator, called on the stored access token,
accepts it for the stored user id with a scope set equal to `requiredScopes`,
and the stored username and the stored refresh token are non-empty,
`authenticateAccount` returns a session
whose `userId` and `username` are the stored ones and whose access token is
the stored token, and the run contains no call of `clearAuthData` or
`startOAuthServer` and no refresh attempt (the Refresh step is not entered). -/
theorem checkExisting_success_returns_stored_identity (env : Env) (p : Params)
    (store : ConfigStore) (v : ValidationResult)
    (hev : Event.validateToken ValidateSite.checkExisting (storedOf p store).accessToken
            (ValidateOutcome.returned (some v)) ∈ (authenticateAccount env p store).final.trace)
    (huid : v.userId.strictEq (storedOf p store).userId = true)
    (hsc : ∀ s, s ∈ p.requiredScopes ↔ s ∈ v.scopes.asArray)
    (hname : (storedOf p store).username.truthy = true)
    (hrt : (storedOf p store).refreshToken.truthy = true) :
    (∃ session, (authenticateAccount env p store).result = Except.ok session ∧
      session.userId = (storedOf p store).userId ∧
      session.username = (storedOf p store).username ∧
      session.accessToken = UserData.val (storedOf p store).accessToken) ∧
    (∀ e ∈ (authenticateAccount env p store).final.trace,
      e.isClear = false ∧ e.isFlow = false ∧ e.isRefreshAttempt = false ∧
      e ≠ Event.refreshStepEntered) := by
  obtain ⟨hcred, h1, h2, -, ho⟩ := validateCheck_of_mem_trace env p store _ _ hev
  have hc : checkAccepts env p (storedOf p store) = true :=
    (checkAccepts_spec env p _).2 ⟨h1, h2, v, ho.symm, huid, (scopesMatch_iff _ _).2 hsc, hrt⟩
  refine ⟨(result_check_success env p store hcred hc).1 hname, ?_⟩
  obtain ⟨prov, ht⟩ := trace_check_success env p store hcred hc
  rw [ht]
  intro e he
  simp only [List.mem_append, List.mem_cons, List.not_mem_nil, or_false] at he
  rcases he with (he | he) | he
  · subst he
    simp [validateCheckEvent, Event.isClear, Event.isFlow, Event.isRefreshAttempt]
  · subst he
    simp [Event.isClear, Event.isFlow, Event.isRefreshAttempt]
  · split at he
    · simp only [List.mem_singleton] at he
      subst he
      simp [Event.isClear, Event.isFlow, Event.isRefreshAttempt]
    · simp at he

/-- C1 (amended), on a complete bot record whose stored scope list is in
another order than the validator's. -/
theorem checkExisting_success_returns_stored_identity_witness :
    Event.validateToken ValidateSite.checkExisting (storedOf botParams fullBotStore).accessToken
        (ValidateOutcome.returned (some exactValidation))
      ∈ (authenticateAccount checkOkEnv botParams fullBotStore).final.trace ∧
    (storedOf botParams fullBotStore).username = JVal.str "mybot" ∧
    (storedOf botParams fullBotStore).refreshToken = JVal.str "R0" ∧
    ((∃ session, (authenticateAccount checkOkEnv botParams fullBotStore).result
          = Except.ok session ∧
        session.userId = (storedOf botParams fullBotStore).userId ∧
        session.username = (storedOf botParams fullBotStore).username ∧
        session.accessToken = UserData.val (storedOf botParams fullBotStore).accessToken) ∧
      (∀ e ∈ (authenticateAccount checkOkEnv botParams fullBotStore).final.trace,
        e.isClear = false ∧ e.isFlow = false ∧ e.isRefreshAttempt = false ∧
        e ≠ Event.refreshStepEntered)) :=
  ⟨by decide, by decide, by decide,
   checkExisting_success_returns_stored_identity checkOkEnv botParams fullBotStore
     exactValidation (by decide) (by decide)
     (by intro s; simp [botParams, exactValidation, JVal.asArray]; tauto) (by decide)
     (by decide)⟩

/-- C2 (as stated, refuted): on a complete bot record whose access token the
validator rejects, the refresh yields the pair A1 / R1 and the validator
accepts A1 for the stored user with exactly the required scopes;
`authenticateAccount` returns a session without clearing or running the flow,
but the persisted record still holds the old pair A0 / R0. On the same record
without a username the same run throws instead of returning. -/
theorem refresh_success_is_not_persisted :
    Event.getAccessTokenForUser (JVal.str "123")
        (refreshSeed refreshOkEnv (storedOf botParams fullBotStore))
        (RefreshOutcome.returned (some refreshedToken))
      ∈ (authenticateAccount refreshOkEnv botParams fullBotStore).final.trace ∧
    Event.validateToken ValidateSite.afterRefresh (JVal.str "A1")
        (ValidateOutcome.returned (some exactValidation))
      ∈ (authenticateAccount refreshOkEnv botParams fullBotStore).final.trace ∧
    (∃ session, (authenticateAccount refreshOkEnv botParams fullBotStore).result
      = Except.ok session) ∧
    (persistedRecord "BOT"
      (authenticateAccount refreshOkEnv botParams fullBotStore).final.store).accessToken
      = JVal.str "A0" ∧
    (persistedRecord "BOT"
      (authenticateAccount refreshOkEnv botParams fullBotStore).final.store).refreshToken
      = JVal.str "R0" ∧
    (authenticateAccount refreshOkEnv botParams noUsernameStore).result
      = Except.error (notInitializedMessage "BOT") := by
  refine ⟨by decide, by decide, ⟨_, rfl⟩, by decide, by decide, rfl⟩

/-- C2 (amended): whenever the refresh call resolves with a new token, the
validator, called on that token, accepts it for the stored user id with a
scope set equal to `requiredScopes`, and the stored username is non-empty,
`authenticateAccount` returns a session for the stored user id and username,
and the run contains no call of `clearAuthData` or `startOAuthServer`. -/
theorem refresh_success_returns_without_reauth (env : Env) (p : Params) (store : ConfigStore)
    (uid : JVal) (seed : AccessToken) (t : AccessToken) (v : ValidationResult)
    (hre : Event.getAccessTokenForUser uid seed (RefreshOutcome.returned (some t))
            ∈ (authenticateAccount env p store).final.trace)
    (hva : Event.validateToken ValidateSite.afterRefresh t.accessToken
            (ValidateOutcome.returned (some v)) ∈ (authenticateAccount env p store).final.trace)
    (huid : v.userId.strictEq (storedOf p store).userId = true)
    (hsc : ∀ s, s ∈ p.requiredScopes ↔ s ∈ v.scopes.asArray)
    (hname : (storedOf p store).username.truthy = true) :
    (∃ session, (authenticateAccount env p store).result = Except.ok session ∧
      session.userId = (storedOf p store).userId ∧
      session.username = (storedOf p store).username) ∧
    (∀ e ∈ (authenticateAccount env p store).final.trace,
      e.isClear = false ∧ e.isFlow = false) := by
  obtain ⟨hcred, hc, h1, h2, -, -, ho⟩ := refresh_of_mem_trace env p store _ _ _ hre
  obtain ⟨-, -, -, -, t', ho', -, hv⟩ := validateRefresh_of_mem_trace env p store _ _ hva
  rw [← ho] at ho'
  injection ho' with ho'
  injection ho' with ho'
  subst ho'
  have hr : refreshAccepts env p (storedOf p store) = true :=
    (refreshAccepts_spec env p _).2
      ⟨h1, h2, t, v, ho.symm, hv.symm, huid, (scopesMatch_iff _ _).2 hsc⟩
  obtain ⟨session, hs, e1, e2, -⟩ := (result_refresh_success env p store hcred hc hr).1 hname
  refine ⟨⟨session, hs, e1, e2⟩, ?_⟩
  obtain ⟨prov, ht⟩ := trace_refresh_success env p store hcred hc hr
  rw [ht]
  intro e he
  simp only [List.mem_append, List.mem_singleton] at he
  rcases he with (he | he) | he
  · rw [mem_checkTrace] at he
    rw [he.2.2]
    exact ⟨rfl, rfl⟩
  · rw [mem_refreshTrace] at he
    rcases he with he | ⟨-, -, he | ⟨t', -, he⟩⟩ <;> rw [he] <;> exact ⟨rfl, rfl⟩
  · rw [he]
    exact ⟨rfl, rfl⟩

/-- C2 (amended), on a complete bot record with an expired token and a working
refresh. -/
theorem refresh_success_returns_without_reauth_witness :
    Event.getAccessTokenForUser (JVal.str "123")
        (refreshSeed refreshOkEnv (storedOf botParams fullBotStore))
        (RefreshOutcome.returned (some refreshedToken))
      ∈ (authenticateAccount refreshOkEnv botParams fullBotStore).final.trace ∧
    Event.validateToken ValidateSite.afterRefresh refreshedToken.accessToken
        (ValidateOutcome.returned (some exactValidation))
      ∈ (authenticateAccount refreshOkEnv botParams fullBotStore).final.trace ∧
    (storedOf botParams fullBotStore).username = JVal.str "mybot" ∧
    ((∃ session, (authenticateAccount refreshOkEnv botParams fullBotStore).result
          = Except.ok session ∧
        session.userId = (storedOf botParams fullBotStore).userId ∧
        session.username = (storedOf botParams fullBotStore).username) ∧
      (∀ e ∈ (authenticateAccount refreshOkEnv botParams fullBotStore).final.trace,
        e.isClear = false ∧ e.isFlow = false)) :=
  ⟨by decide, by decide, by decide,
   refresh_success_returns_without_reauth refreshOkEnv botParams fullBotStore (JVal.str "123")
     (refreshSeed refreshOkEnv (storedOf botParams fullBotStore)) refreshedToken exactValidation
     (by decide) (by decide) (by decide)
     (by intro s; simp [botParams, exactValidation, JVal.asArray]; tauto) (by decide)⟩

/-- C3 (as stated, refuted): after `clearAuthData "BOT"` on a complete bot
record the last-auth browser hint is still stored, so not every field of the
record is absent. -/
theorem clearAuthData_keeps_browser_hint :
    (persistedRecord "BOT" (clearAuthData fullBotStore "BOT")).browserUserAgent
        = JVal.str "Mozilla/5.0 Firefox/120.0" ∧
    ¬ recordAbsent (persistedRecord "BOT" (clearAuthData fullBotStore "BOT")) := by
  decide

/-- C3 (amended): for every prior config state, after `clearAuthData(prefix)`
the role's access token, refresh token, user id, username, obtained-at
timestamp and expires-in are `null` and its scope list is empty, while the
last-auth browser hint keeps the value it had before; if the file can be
written, `config.json` holds exactly this state. -/
theorem clearAuthData_clears_all_but_browser_hint (s : ConfigStore) (pre : String) :
    persistedRecord pre (clearAuthData s pre) =
      { accessToken := JVal.null, refreshToken := JVal.null, userId := JVal.null,
        username := JVal.null, scopes := [], expiresIn := JVal.null, lastRefresh := JVal.null,
        browserUserAgent := s.fileConfig.get (keyBrowser pre) } ∧
    recordAbsentExceptBrowserHint (persistedRecord pre (clearAuthData s pre)) ∧
    (clearAuthData s pre).disk =
      (if s.writable then Disk.json (jsonRoundTrip (clearAuthData s pre).fileConfig)
       else s.disk) := by
  have h : persistedRecord pre (clearAuthData s pre) =
      { accessToken := JVal.null, refreshToken := JVal.null, userId := JVal.null,
        username := JVal.null, scopes := [], expiresIn := JVal.null, lastRefresh := JVal.null,
        browserUserAgent := s.fileConfig.get (keyBrowser pre) } := by
    unfold persistedRecord
    rw [getFileConfig_clearAuthData]
    exact readStored_clearValues _ _
  refine ⟨h, ?_, updateFileConfig_disk _ _⟩
  rw [h]
  simp [recordAbsentExceptBrowserHint, JVal.absent]

/-- C4 (as stated, refuted): without a client id `authenticateAccount` throws
although the flow is never started, and when the flow is run and resolves
without an identity (empty `userId` and `username`) it throws although the
flow did not reject. -/
theorem throws_without_flow_rejection :
    (authenticateAccount flowOkEnv noClientIdParams fullBotStore).result
      = Except.error (missingCredentialsMessage "BOT") ∧
    (authenticateAccount flowOkEnv noClientIdParams fullBotStore).final.trace = [] ∧
    Event.startOAuthServer (oauthOptions botParams (storedOf botParams emptyStore))
        (clearAuthData emptyStore "BOT") (FlowOutcome.resolves partialAuthData)
      ∈ (authenticateAccount partialIdentityEnv botParams emptyStore).final.trace ∧
    (authenticateAccount partialIdentityEnv botParams emptyStore).result
      = Except.error (notInitializedMessage "BOT") := by
  refine ⟨rfl, by decide, by decide, rfl⟩

/-- C4 (amended): `authenticateAccount` throws exactly in four cases: the
client id, client secret or redirect URI is missing; `startOAuthServer` was
called and rejected; the flow was not run (CheckExisting or Refresh succeeded)
and the stored username is empty; or `startOAuthServer` was called and resolved
with an empty user id, username, access token or refresh token (without a
refresh token it is `addUser` of the provider library that throws). In every
other case it returns a session. -/
theorem authenticateAccount_throws_iff (env : Env) (p : Params) (store : ConfigStore) :
    ((∃ msg, (authenticateAccount env p store).result = Except.error msg) ↔
      (appCredentialsPresent p = false ∨
       (∃ o s, Event.startOAuthServer o s FlowOutcome.rejects
          ∈ (authenticateAccount env p store).final.trace) ∨
       (appCredentialsPresent p = true ∧
        (authenticateAccount env p store).final.trace.countP Event.isFlow = 0 ∧
        (storedOf p store).username.truthy = false) ∨
       (∃ o s d, Event.startOAuthServer o s (FlowOutcome.resolves d)
          ∈ (authenticateAccount env p store).final.trace ∧
         (d.userId.truthy && d.username.truthy && d.accessToken.truthy &&
           d.refreshToken.truthy) = false))) ∧
    ((∃ session, (authenticateAccount env p store).result = Except.ok session) ∨
      (∃ msg, (authenticateAccount env p store).result = Except.error msg)) := by
  have hdich : (∃ session, (authenticateAccount env p store).result = Except.ok session) ∨
      (∃ msg, (authenticateAccount env p store).result = Except.error msg) := by
    cases (authenticateAccount env p store).result with
    | ok s => exact Or.inl ⟨s, rfl⟩
    | error m => exact Or.inr ⟨m, rfl⟩
  refine ⟨?_, hdich⟩
  cases hcred : appCredentialsPresent p with
  | false =>
    constructor
    · intro _
      exact Or.inl rfl
    · intro _
      rw [authenticateAccount_no_credentials env p store hcred]
      exact ⟨_, rfl⟩
  | true =>
    have hnoflow : ∀ o s oc, (checkAccepts env p (storedOf p store) = true ∨
        refreshAccepts env p (storedOf p store) = true) →
        Event.startOAuthServer o s oc ∉ (authenticateAccount env p store).final.trace := by
      intro o s oc hor hmem
      obtain ⟨-, hc, hr, -⟩ := flow_of_mem_trace env p store _ _ _ hmem
      rcases hor with h | h
      · rw [hc] at h; cases h
      · rw [hr] at h; cases h
    have hcount0 : (checkAccepts env p (storedOf p store) = true ∨
        refreshAccepts env p (storedOf p store) = true) →
        (authenticateAccount env p store).final.trace.countP Event.isFlow = 0 := by
      intro hor
      apply countP_eq_zero_of_forall
      intro e he
      cases e with
      | startOAuthServer o s oc => exact absurd he (hnoflow o s oc hor)
      | _ => rfl
    have hsuccess : ∀ (hor : checkAccepts env p (storedOf p store) = true ∨
        refreshAccepts env p (storedOf p store) = true)
        (hres : ((storedOf p store).username.truthy = true →
            ∃ session, (authenticateAccount env p store).result = Except.ok session) ∧
          ((storedOf p store).username.truthy = false →
            (authenticateAccount env p store).result
              = Except.error (notInitializedMessage p.configKeyPrefix))),
        ((∃ msg, (authenticateAccount env p store).result = Except.error msg) ↔
          (true = false ∨
           (∃ o s, Event.startOAuthServer o s FlowOutcome.rejects
              ∈ (authenticateAccount env p store).final.trace) ∨
           (true = true ∧
            (authenticateAccount env p store).final.trace.countP Event.isFlow = 0 ∧
            (storedOf p store).username.truthy = false) ∨
           (∃ o s d, Event.startOAuthServer o s (FlowOutcome.resolves d)
              ∈ (authenticateAccount env p store).final.trace ∧
             (d.userId.truthy && d.username.truthy && d.accessToken.truthy &&
           d.refreshToken.truthy) = false))) := by
      intro hor hres
      constructor
      · rintro ⟨msg, hmsg⟩
        cases hn : (storedOf p store).username.truthy with
        | true =>
          obtain ⟨session, hs⟩ := hres.1 hn
          rw [hs] at hmsg
          cases hmsg
        | false => exact Or.inr (Or.inr (Or.inl ⟨rfl, hcount0 hor, rfl⟩))
      · rintro (h | ⟨o, s, h⟩ | ⟨-, -, hn⟩ | ⟨o, s, d, h, -⟩)
        · cases h
        · exact absurd h (hnoflow o s _ hor)
        · exact ⟨_, hres.2 hn⟩
        · exact absurd h (hnoflow o s _ hor)
    cases hc : checkAccepts env p (storedOf p store) with
    | true =>
      obtain ⟨hok, herr, -⟩ := result_check_success env p store hcred hc
      exact hsuccess (Or.inl hc)
        ⟨fun hn => (hok hn).imp fun _ h => h.1, herr⟩
    | false =>
      cases hr : refreshAccepts env p (storedOf p store) with
      | true =>
        obtain ⟨hok, herr, -⟩ := result_refresh_success env p store hcred hc hr
        exact hsuccess (Or.inr hr)
          ⟨fun hn => (hok hn).imp fun _ h => h.1, herr⟩
      | false =>
        have hflow := flow_event_mem_trace env p store hcred hc hr
        have hcount := flow_count_full_reauth env p store hcred hc hr
        cases hf : env.startOAuthServer (oauthOptions p (storedOf p store)) with
        | rejects =>
          rw [hf] at hflow
          constructor
          · intro _
            exact Or.inr (Or.inl ⟨_, _, hflow⟩)
          · intro _
            exact ⟨_, (result_flow_rejects env p store hcred hc hr hf).1⟩
        | resolves d =>
          rw [hf] at hflow
          obtain ⟨hok, herr, -, -, -, hlib⟩ := result_flow_resolves env p store d hcred hc hr hf
          constructor
          · rintro ⟨msg, hmsg⟩
            cases hrt : d.refreshToken.truthy with
            | false => exact Or.inr (Or.inr (Or.inr ⟨_, _, d, hflow, by simp [hrt]⟩))
            | true =>
              cases htr : (d.userId.truthy && d.username.truthy && d.accessToken.truthy) with
              | true =>
                obtain ⟨session, hs, -⟩ := hok hrt htr
                rw [hs] at hmsg
                cases hmsg
              | false => exact Or.inr (Or.inr (Or.inr ⟨_, _, d, hflow, by simp [htr]⟩))
          · rintro (h | ⟨o, s, h⟩ | ⟨-, h0, -⟩ | ⟨o, s, d', h, htr⟩)
            · cases h
            · obtain ⟨-, -, -, -, -, ho⟩ := flow_of_mem_trace env p store _ _ _ h
              rw [hf] at ho
              cases ho
            · rw [hcount] at h0
              cases h0
            · obtain ⟨-, -, -, -, -, ho⟩ := flow_of_mem_trace env p store _ _ _ h
              rw [hf] at ho
              injection ho with ho
              subst ho
              cases hrt : d'.refreshToken.truthy with
              | false => exact ⟨_, hlib hrt⟩
              | true =>
                rw [hrt, Bool.and_true] at htr
                exact ⟨_, herr hrt htr⟩
/-- C5 (as stated, refuted): on a complete bot record with an expired token and
a refresh that throws, the flow is started while the role's record still holds
the last-auth browser hint, so not all of its fields are absent at that
moment. -/
theorem full_reauth_starts_with_browser_hint :
    Event.getAccessTokenForUser (JVal.str "123")
        (refreshSeed refreshThrowsEnv (storedOf botParams fullBotStore)) RefreshOutcome.throws
      ∈ (authenticateAccount refreshThrowsEnv botParams fullBotStore).final.trace ∧
    Event.startOAuthServer (oauthOptions botParams (storedOf botParams fullBotStore))
        (clearAuthData fullBotStore "BOT") FlowOutcome.rejects
      ∈ (authenticateAccount refreshThrowsEnv botParams fullBotStore).final.trace ∧
    (persistedRecord "BOT" (clearAuthData fullBotStore "BOT")).browserUserAgent
      = JVal.str "Mozilla/5.0 Firefox/120.0" ∧
    ¬ recordAbsent (persistedRecord "BOT" (clearAuthData fullBotStore "BOT")) := by
  decide

/-- C5 (amended): whenever the refresh call is made and throws,
`authenticateAccount` calls `startOAuthServer` exactly once, and at the moment
of that call the role's persisted access token, refresh token, user id,
username, obtained-at timestamp and expires-in are `null` and its scope list is
empty; the last-auth browser hint still has its stored value, which is also
what the flow receives as `preferredBrowserUserAgent`. -/
theorem refresh_failure_runs_flow_once_on_cleared_record (env : Env) (p : Params)
    (store : ConfigStore) (uid : JVal) (seed : AccessToken)
    (hev : Event.getAccessTokenForUser uid seed RefreshOutcome.throws
            ∈ (authenticateAccount env p store).final.trace) :
    (authenticateAccount env p store).final.trace.countP Event.isFlow = 1 ∧
    ∀ o s oc, Event.startOAuthServer o s oc ∈ (authenticateAccount env p store).final.trace →
      persistedRecord p.configKeyPrefix s =
        { accessToken := JVal.null, refreshToken := JVal.null, userId := JVal.null,
          username := JVal.null, scopes := [], expiresIn := JVal.null,
          lastRefresh := JVal.null,
          browserUserAgent := (storedOf p store).browserUserAgent } ∧
      recordAbsentExceptBrowserHint (persistedRecord p.configKeyPrefix s) ∧
      o.preferredBrowserUserAgent = (storedOf p store).browserUserAgent := by
  obtain ⟨hcred, hc, -, -, -, -, ho⟩ := refresh_of_mem_trace env p store _ _ _ hev
  have hr := refreshAccepts_false_of_throws env p _ ho.symm
  refine ⟨flow_count_full_reauth env p store hcred hc hr, ?_⟩
  intro o s oc hflow
  obtain ⟨-, -, -, ho', hs, -⟩ := flow_of_mem_trace env p store _ _ _ hflow
  rw [hs, ho', record_at_flow_call]
  refine ⟨rfl, ?_, rfl⟩
  simp [recordAbsentExceptBrowserHint, JVal.absent]

/-- C5 (amended), on a complete bot record with an expired token and a refresh
that throws. -/
theorem refresh_failure_runs_flow_once_on_cleared_record_witness :
    Event.getAccessTokenForUser (JVal.str "123")
        (refreshSeed refreshThrowsEnv (storedOf botParams fullBotStore)) RefreshOutcome.throws
      ∈ (authenticateAccount refreshThrowsEnv botParams fullBotStore).final.trace ∧
    (authenticateAccount refreshThrowsEnv botParams fullBotStore).final.trace.countP
      Event.isFlow = 1 := by
  have h := refresh_failure_runs_flow_once_on_cleared_record refreshThrowsEnv botParams
    fullBotStore (JVal.str "123")
    (refreshSeed refreshThrowsEnv (storedOf botParams fullBotStore)) (by decide)
  exact ⟨by decide, h.1⟩

/-- C6: whenever the refresh call resolves with a new token and the validator,
called on that token, resolves to a user id different from the stored one,
the full-reauth flag is set, `clearAuthData` is called, `startOAuthServer` is
called exactly once and on the cleared record, and a session, if one is
returned, is not built from the refreshed token: its access token, user id and
username, and the token and user of its provider, are those the flow resolved
with. -/
theorem identity_change_forces_full_reauth (env : Env) (p : Params) (store : ConfigStore)
    (uid : JVal) (seed : AccessToken) (t : AccessToken) (v : ValidationResult)
    (hre : Event.getAccessTokenForUser uid seed (RefreshOutcome.returned (some t))
            ∈ (authenticateAccount env p store).final.trace)
    (hva : Event.validateToken ValidateSite.afterRefresh t.accessToken
            (ValidateOutcome.returned (some v)) ∈ (authenticateAccount env p store).final.trace)
    (hne : v.userId.strictEq (storedOf p store).userId = false) :
    (authenticateAccount env p store).final.tokenNeedsFullReauth = true ∧
    Event.clearAuthData p.configKeyPrefix ∈ (authenticateAccount env p store).final.trace ∧
    (authenticateAccount env p store).final.trace.countP Event.isFlow = 1 ∧
    (∀ o s oc, Event.startOAuthServer o s oc ∈ (authenticateAccount env p store).final.trace →
      recordAbsentExceptBrowserHint (persistedRecord p.configKeyPrefix s)) ∧
    (∀ session, (authenticateAccount env p store).result = Except.ok session →
      session.accessToken ≠ UserData.token t ∧
      ∃ o s d, Event.startOAuthServer o s (FlowOutcome.resolves d)
          ∈ (authenticateAccount env p store).final.trace ∧
        session.userId = d.userId ∧ session.username = d.username ∧
        session.accessToken = UserData.val d.accessToken ∧
        session.authProvider.userId = d.userId ∧
        session.authProvider.accessToken = UserData.val d.accessToken ∧
        session.apiClient.authProvider = session.authProvider) := by
  obtain ⟨hcred, hc, -, -, -, -, ho⟩ := refresh_of_mem_trace env p store _ _ _ hre
  obtain ⟨-, -, -, -, t', ho', htok, hv⟩ := validateRefresh_of_mem_trace env p store _ _ hva
  rw [← ho] at ho'
  injection ho' with ho'
  injection ho' with ho'
  subst ho'
  have hr := refreshAccepts_false_of_other_user env p _ t v ho.symm hv.symm hne
  have hflow := flow_event_mem_trace env p store hcred hc hr
  have hclear : Event.clearAuthData p.configKeyPrefix
      ∈ (authenticateAccount env p store).final.trace := by
    apply flowTrace_subset_trace env p store hcred hc hr
    rw [mem_flowTrace]
    exact Or.inr (Or.inl rfl)
  have hrecord : ∀ o s oc,
      Event.startOAuthServer o s oc ∈ (authenticateAccount env p store).final.trace →
      recordAbsentExceptBrowserHint (persistedRecord p.configKeyPrefix s) := by
    intro o s oc hmem
    obtain ⟨-, -, -, -, hs, -⟩ := flow_of_mem_trace env p store _ _ _ hmem
    rw [hs, record_at_flow_call]
    simp [recordAbsentExceptBrowserHint, JVal.absent]
  cases hf : env.startOAuthServer (oauthOptions p (storedOf p store)) with
  | rejects =>
    obtain ⟨hres, -, -, hflag⟩ := result_flow_rejects env p store hcred hc hr hf
    refine ⟨hflag, hclear, flow_count_full_reauth env p store hcred hc hr, hrecord, ?_⟩
    intro session hs
    rw [hres] at hs
    cases hs
  | resolves d =>
    obtain ⟨hok, herr, -, -, hflag, hlib⟩ := result_flow_resolves env p store d hcred hc hr hf
    refine ⟨hflag, hclear, flow_count_full_reauth env p store hcred hc hr, hrecord, ?_⟩
    intro session hs
    have hrt : d.refreshToken.truthy = true := by
      cases hrt : d.refreshToken.truthy with
      | true => rfl
      | false =>
        rw [hlib hrt] at hs
        cases hs
    cases htr : (d.userId.truthy && d.username.truthy && d.accessToken.truthy) with
    | false =>
      rw [herr hrt htr] at hs
      cases hs
    | true =>
      obtain ⟨session', hs', h1, h2, h3, h4, h5, h6⟩ := hok hrt htr
      rw [hs'] at hs
      injection hs with hs
      subst hs
      rw [hf] at hflow
      refine ⟨?_, _, _, d, hflow, h1, h2, h3, h4, h5, h6⟩
      rw [h3]
      intro hcontra
      cases hcontra

/-- C6, on a complete bot record whose refreshed token belongs to user 999. -/
theorem identity_change_forces_full_reauth_witness :
    Event.getAccessTokenForUser (JVal.str "123")
        (refreshSeed identityChangeEnv (storedOf botParams fullBotStore))
        (RefreshOutcome.returned (some refreshedToken))
      ∈ (authenticateAccount identityChangeEnv botParams fullBotStore).final.trace ∧
    Event.validateToken ValidateSite.afterRefresh refreshedToken.accessToken
        (ValidateOutcome.returned (some otherUserValidation))
      ∈ (authenticateAccount identityChangeEnv botParams fullBotStore).final.trace ∧
    otherUserValidation.userId.strictEq (storedOf botParams fullBotStore).userId = false ∧
    (authenticateAccount identityChangeEnv botParams fullBotStore).final.tokenNeedsFullReauth
      = true ∧
    Event.clearAuthData "BOT"
      ∈ (authenticateAccount identityChangeEnv botParams fullBotStore).final.trace ∧
    (authenticateAccount identityChangeEnv botParams fullBotStore).final.trace.countP
      Event.isFlow = 1 := by
  have h := identity_change_forces_full_reauth identityChangeEnv botParams fullBotStore
    (JVal.str "123") (refreshSeed identityChangeEnv (storedOf botParams fullBotStore))
    refreshedToken otherUserValidation (by decide) (by decide) (by decide)
  exact ⟨by decide, by decide, by decide, h.1, h.2.1, h.2.2.1⟩

/-- C7: whenever the validator, called on the stored access token, accepts it
for the stored user id with a scope list that is a strict superset of
`requiredScopes`, the scope check fails through the extra scope alone and
CheckExisting does not succeed: `tokenNeedsRefresh` is set and the step right
after the validator call is the entry into the Refresh step (no session is
built from the stored token at CheckExisting). -/
theorem superset_scopes_proceed_to_refresh (env : Env) (p : Params)
    (store : ConfigStore) (v : ValidationResult)
    (hev : Event.validateToken ValidateSite.checkExisting (storedOf p store).accessToken
            (ValidateOutcome.returned (some v)) ∈ (authenticateAccount env p store).final.trace)
    (_huid : v.userId.strictEq (storedOf p store).userId = true)
    (hsub : ∀ s, s ∈ p.requiredScopes → s ∈ v.scopes.asArray)
    (hext : ∃ s, s ∈ v.scopes.asArray ∧ s ∉ p.requiredScopes) :
    allRequiredPresent p.requiredScopes v.scopes.asArray = true ∧
    noExtraScopes p.requiredScopes v.scopes.asArray = false ∧
    validatorAccepts env p (storedOf p store) = false ∧
    (authenticateAccount env p store).final.tokenNeedsRefresh = true ∧
    ∃ rest, (authenticateAccount env p store).final.trace =
      Event.validateToken ValidateSite.checkExisting (storedOf p store).accessToken
          (ValidateOutcome.returned (some v)) ::
        Event.refreshStepEntered :: rest := by
  obtain ⟨hcred, h1, h2, -, ho⟩ := validateCheck_of_mem_trace env p store _ _ hev
  have hva : validatorAccepts env p (storedOf p store) = false := by
    rw [Bool.eq_false_iff]
    intro hacc
    obtain ⟨-, -, v', ho', -, hm⟩ := (validatorAccepts_spec env p _).1 hacc
    rw [← ho] at ho'
    injection ho' with ho'
    injection ho' with ho'
    subst ho'
    obtain ⟨s, hs, hns⟩ := hext
    exact hns (((scopesMatch_iff _ _).1 hm s).2 hs)
  have hc := checkAccepts_false_of_validator env p _ hva
  have hct : checkTrace env (storedOf p store) =
      [Event.validateToken ValidateSite.checkExisting (storedOf p store).accessToken
        (ValidateOutcome.returned (some v))] := by
    unfold checkTrace validateCheckEvent
    rw [h1, h2, ← ho]
    rfl
  have hextra : noExtraScopes p.requiredScopes v.scopes.asArray = false := by
    rw [Bool.eq_false_iff]
    intro hno
    obtain ⟨s, hs, hns⟩ := hext
    exact hns ((noExtraScopes_iff _ _).1 hno s hs)
  refine ⟨(allRequiredPresent_iff _ _).2 hsub, hextra, hva, ?_⟩
  cases hr : refreshAccepts env p (storedOf p store) with
  | true =>
    refine ⟨(result_refresh_success env p store hcred hc hr).2.2.1, ?_⟩
    obtain ⟨prov, ht⟩ := trace_refresh_success env p store hcred hc hr
    rw [ht, hct]
    exact ⟨_, rfl⟩
  | false =>
    obtain ⟨tail, ht, htail⟩ := trace_full_reauth env p store hcred hc hr
    have hflag : (authenticateAccount env p store).final.tokenNeedsRefresh = true := by
      rcases htail with ⟨hrej, -⟩ | ⟨d, -, hres, -⟩ | ⟨d, hres, -⟩
      · exact (result_flow_rejects env p store hcred hc hr hrej).2.2.1
      · exact (result_flow_resolves env p store d hcred hc hr hres).2.2.2.1
      · exact (result_flow_resolves env p store d hcred hc hr hres).2.2.2.1
    refine ⟨hflag, ?_⟩
    rw [ht, hct]
    exact ⟨_, rfl⟩

/-- C7, on a complete bot record whose token carries one extra scope. -/
theorem superset_scopes_proceed_to_refresh_witness :
    Event.validateToken ValidateSite.checkExisting (storedOf botParams fullBotStore).accessToken
        (ValidateOutcome.returned (some supersetValidation))
      ∈ (authenticateAccount supersetEnv botParams fullBotStore).final.trace ∧
    (allRequiredPresent botParams.requiredScopes supersetValidation.scopes.asArray = true ∧
      noExtraScopes botParams.requiredScopes supersetValidation.scopes.asArray = false ∧
      validatorAccepts supersetEnv botParams (storedOf botParams fullBotStore) = false ∧
      (authenticateAccount supersetEnv botParams fullBotStore).final.tokenNeedsRefresh = true ∧
      ∃ rest, (authenticateAccount supersetEnv botParams fullBotStore).final.trace =
        Event.validateToken ValidateSite.checkExisting
            (storedOf botParams fullBotStore).accessToken
            (ValidateOutcome.returned (some supersetValidation)) ::
          Event.refreshStepEntered :: rest) :=
  ⟨by decide,
   superset_scopes_proceed_to_refresh supersetEnv botParams fullBotStore supersetValidation
     (by decide) (by decide) (by decide) ⟨"bits:read", by decide, by decide⟩⟩

/-- C8: the scope check `allRequiredPresent && noExtraScopes` is equality of the
two lists as sets: it holds exactly when both lists have the same members, it
is symmetric, it does not change when either list is replaced by one with the
same members (reordered, with duplicates added or removed), and it fails for
every strict subset and every strict superset. -/
theorem scopesMatch_is_set_equality :
    (∀ req act : List String, scopesMatch req act = true ↔ ∀ s, s ∈ req ↔ s ∈ act) ∧
    (∀ req act : List String, scopesMatch req act = scopesMatch act req) ∧
    (∀ req req' act act' : List String, (∀ s, s ∈ req ↔ s ∈ req') → (∀ s, s ∈ act ↔ s ∈ act') →
      scopesMatch req act = scopesMatch req' act') ∧
    (∀ req req' act act' : List String, req.Perm req' → act.Perm act' →
      scopesMatch req act = scopesMatch req' act') ∧
    (∀ req act : List String, scopesMatch req.dedup act = scopesMatch req act ∧
      scopesMatch req act.dedup = scopesMatch req act ∧
      scopesMatch (req ++ req) act = scopesMatch req act ∧
      scopesMatch req (act ++ act) = scopesMatch req act) ∧
    (∀ req act : List String, (∀ s, s ∈ act → s ∈ req) → (∃ s, s ∈ req ∧ s ∉ act) →
      scopesMatch req act = false) ∧
    (∀ req act : List String, (∀ s, s ∈ req → s ∈ act) → (∃ s, s ∈ act ∧ s ∉ req) →
      scopesMatch req act = false) := by
  refine ⟨scopesMatch_iff, ?_, scopesMatch_congr, ?_, ?_, ?_, ?_⟩
  · intro req act
    rw [Bool.eq_iff_iff, scopesMatch_iff, scopesMatch_iff]
    exact ⟨fun h s => (h s).symm, fun h s => (h s).symm⟩
  · intro req req' act act' hr ha
    exact scopesMatch_congr _ _ _ _ (fun s => hr.mem_iff) (fun s => ha.mem_iff)
  · intro req act
    refine ⟨?_, ?_, ?_, ?_⟩
    · exact scopesMatch_congr _ _ _ _ (fun s => List.mem_dedup) (fun s => Iff.rfl)
    · exact scopesMatch_congr _ _ _ _ (fun s => Iff.rfl) (fun s => List.mem_dedup)
    · exact scopesMatch_congr _ _ _ _ (fun s => by simp) (fun s => Iff.rfl)
    · exact scopesMatch_congr _ _ _ _ (fun s => Iff.rfl) (fun s => by simp)
  · rintro req act _ ⟨s, hs, hns⟩
    rw [Bool.eq_false_iff]
    intro h
    exact hns (((scopesMatch_iff req act).1 h s).1 hs)
  · rintro req act _ ⟨s, hs, hns⟩
    rw [Bool.eq_false_iff]
    intro h
    exact hns (((scopesMatch_iff req act).1 h s).2 hs)

/-- C8, at concrete lists: a reordered list with a duplicate matches, a strict
superset and a strict subset do not. -/
theorem scopesMatch_is_set_equality_witness :
    scopesMatch ["chat:read", "chat:edit"] ["chat:edit", "chat:read", "chat:edit"] = true ∧
    scopesMatch ["chat:read"] ["chat:read", "chat:edit"] = false ∧
    scopesMatch ["chat:read", "chat:edit"] ["chat:read"] = false :=
  ⟨(scopesMatch_is_set_equality.1 _ _).2 (by intro s; simp; tauto),
   scopesMatch_is_set_equality.2.2.2.2.2.2 _ _ (by decide) ⟨"chat:edit", by decide, by decide⟩,
   scopesMatch_is_set_equality.2.2.2.2.2.1 _ _ (by decide) ⟨"chat:edit", by decide, by decide⟩⟩

/-- C9: starting from an empty store, whenever `startOAuthServer` is called and
resolves with an access token, a refresh token and a non-empty `userId` and
`username`, `authenticateAccount` returns a session whose `userId`, `username` and access
token are the flow's, and the persisted record of the role holds the flow's
access token, refresh token, user id, username, scope list and expires-in, the
timestamp taken at the write and the browser user agent (in `config.json` too,
if the file can be written); the flow was called once, for `requiredScopes`,
and neither the validator nor the refresh was called. -/
theorem empty_store_flow_success (env : Env) (p : Params) (store : ConfigStore)
    (o : OAuthServerOptions) (s : ConfigStore) (d : AuthData)
    (hempty : (getFileConfig store).1 = [])
    (hev : Event.startOAuthServer o s (FlowOutcome.resolves d)
            ∈ (authenticateAccount env p store).final.trace)
    (huid : d.userId.truthy = true) (hname : d.username.truthy = true)
    (htok : d.accessToken.truthy = true) (href : d.refreshToken.truthy = true) :
    (∃ session, (authenticateAccount env p store).result = Except.ok session ∧
      session.userId = d.userId ∧ session.username = d.username ∧
      session.accessToken = UserData.val d.accessToken) ∧
    persistedRecord p.configKeyPrefix (authenticateAccount env p store).final.store =
      { accessToken := d.accessToken, refreshToken := d.refreshToken, userId := d.userId,
        username := d.username, scopes := d.scope.asArray, expiresIn := d.expiresIn,
        lastRefresh := JVal.str env.nowISO, browserUserAgent := d.userAgent } ∧
    (authenticateAccount env p store).final.store.disk =
      (if store.writable then
        Disk.json (jsonRoundTrip (authenticateAccount env p store).final.store.fileConfig)
       else (getFileConfig store).2.disk) ∧
    o.scopes = p.requiredScopes ∧
    (authenticateAccount env p store).final.trace.countP Event.isFlow = 1 ∧
    (∀ e ∈ (authenticateAccount env p store).final.trace,
      e.isRefreshAttempt = false ∧ ∀ site tok oc, e ≠ Event.validateToken site tok oc) := by
  obtain ⟨hcred, hc, hr, ho, -, hf⟩ := flow_of_mem_trace env p store _ _ _ hev
  obtain ⟨hok, -, hstore, -, -⟩ := result_flow_resolves env p store d hcred hc hr hf.symm
  have hall : (d.userId.truthy && d.username.truthy && d.accessToken.truthy) = true := by
    rw [huid, hname, htok]; rfl
  have hstored : storedOf p store = readStored p.configKeyPrefix [] := by
    unfold storedOf
    rw [hempty]
  have hdisk : (updateFileConfig (clearAuthData (getFileConfig store).2 p.configKeyPrefix)
      (flowValues p.configKeyPrefix d env.nowISO)).disk =
      (if store.writable then
        Disk.json (jsonRoundTrip (updateFileConfig
          (clearAuthData (getFileConfig store).2 p.configKeyPrefix)
          (flowValues p.configKeyPrefix d env.nowISO)).fileConfig)
       else (getFileConfig store).2.disk) := by
    rw [updateFileConfig_disk]
    unfold clearAuthData
    rw [updateFileConfig_writable, getFileConfig_writable]
    by_cases hw : store.writable = true
    · rw [if_pos hw, if_pos hw]
    · rw [if_neg hw, if_neg hw, updateFileConfig_disk, getFileConfig_writable, if_neg hw]
  refine ⟨(hok href hall).imp fun _ h => ⟨h.1, h.2.1, h.2.2.1, h.2.2.2.1⟩, ?_, ?_, ?_,
    flow_count_full_reauth env p store hcred hc hr, ?_⟩
  · rw [hstore]
    exact persistedRecord_flowValues _ _ _ _
  · rw [hstore]
    exact hdisk
  · rw [ho]; rfl
  · intro e he
    obtain ⟨-, hcases⟩ := mem_trace env p store e he
    rw [hstored] at hcases
    rcases hcases with ⟨h1, -, -⟩ | ⟨-, -, h⟩ | ⟨-, h⟩ | ⟨-, -, h⟩ | ⟨-, -, d', -, h⟩ | ⟨prov, h⟩
    · simp [readStored, Config.get, JVal.truthy] at h1
    · subst h
      simp [Event.isRefreshAttempt]
    · rw [mem_refreshTrace] at h
      rcases h with h | ⟨h1, -, -⟩
      · subst h
        simp [Event.isRefreshAttempt]
      · simp [readStored, Config.get, JVal.truthy] at h1
    · rw [mem_flowTrace] at h
      rcases h with h | h | h | h <;> subst h <;> simp [Event.isRefreshAttempt]
    · subst h
      simp [Event.isRefreshAttempt]
    · subst h
      simp [Event.isRefreshAttempt]

/-- C9, the end-to-end scenario: role BOT, empty store, the flow returns
A1 / R1 / 3600 / [chat:read, chat:edit] / 123 / mybot. -/
theorem empty_store_flow_success_witness :
    (getFileConfig emptyStore).1 = [] ∧
    Event.startOAuthServer (oauthOptions botParams (storedOf botParams emptyStore))
        (clearAuthData emptyStore "BOT") (FlowOutcome.resolves botAuthData)
      ∈ (authenticateAccount flowOkEnv botParams emptyStore).final.trace ∧
    (∃ session, (authenticateAccount flowOkEnv botParams emptyStore).result = Except.ok session ∧
      session.userId = JVal.str "123" ∧ session.username = JVal.str "mybot" ∧
      session.accessToken = UserData.val (JVal.str "A1")) ∧
    persistedRecord "BOT" (authenticateAccount flowOkEnv botParams emptyStore).final.store =
      { accessToken := JVal.str "A1", refreshToken := JVal.str "R1", userId := JVal.str "123",
        username := JVal.str "mybot", scopes := ["chat:read", "chat:edit"],
        expiresIn := JVal.num 3600, lastRefresh := JVal.str "2024-06-01T12:00:00.000Z",
        browserUserAgent := JVal.str "Mozilla/5.0 Chrome/120.0" } := by
  have h := empty_store_flow_success flowOkEnv botParams emptyStore
    (oauthOptions botParams (storedOf botParams emptyStore))
    (clearAuthData emptyStore "BOT") botAuthData (by decide) (by decide) (by decide)
    (by decide) (by decide) (by decide)
  exact ⟨by decide, by decide, h.1, h.2.1⟩


/-- C10: whenever `startOAuthServer` is called and rejects, `authenticateAccount`
throws the error `[AuthManager][<prefix>] OAuth-Authentifizierung fehlgeschlagen.`,
whose message contains the role prefix, so no session is returned, and the
role's persisted access token, refresh token, user id and username are all
`null`: nothing stored before the call survives in them; if the file can be
written, `config.json` holds exactly this state. -/
theorem flow_rejection_is_fatal (env : Env) (p : Params) (store : ConfigStore)
    (o : OAuthServerOptions) (s : ConfigStore)
    (hev : Event.startOAuthServer o s FlowOutcome.rejects
            ∈ (authenticateAccount env p store).final.trace) :
    (authenticateAccount env p store).result
      = Except.error (oauthFailedMessage p.configKeyPrefix) ∧
    containsText (oauthFailedMessage p.configKeyPrefix) p.configKeyPrefix ∧
    (∀ session, (authenticateAccount env p store).result ≠ Except.ok session) ∧
    (persistedRecord p.configKeyPrefix (authenticateAccount env p store).final.store).accessToken
      = JVal.null ∧
    (persistedRecord p.configKeyPrefix (authenticateAccount env p store).final.store).refreshToken
      = JVal.null ∧
    (persistedRecord p.configKeyPrefix (authenticateAccount env p store).final.store).userId
      = JVal.null ∧
    (persistedRecord p.configKeyPrefix (authenticateAccount env p store).final.store).username
      = JVal.null ∧
    (authenticateAccount env p store).final.store.disk =
      (if store.writable then
        Disk.json (jsonRoundTrip (authenticateAccount env p store).final.store.fileConfig)
       else (getFileConfig store).2.disk) := by
  obtain ⟨hcred, hc, hr, -, -, ho⟩ := flow_of_mem_trace env p store _ _ _ hev
  obtain ⟨hres, hstore, -, -⟩ := result_flow_rejects env p store hcred hc hr ho.symm
  have hrec := (clearAuthData_record (getFileConfig store).2 p.configKeyPrefix)
  have hdisk := updateFileConfig_disk (getFileConfig store).2 (clearValues p.configKeyPrefix)
  rw [getFileConfig_writable] at hdisk
  rw [hstore, hres, hrec]
  refine ⟨rfl, ⟨"[AuthManager][", "] OAuth-Authentifizierung fehlgeschlagen.", rfl⟩, ?_,
    rfl, rfl, rfl, rfl, hdisk⟩
  intro session h
  cases h

/-- C10, on a complete bot record whose token is expired, whose refresh throws
and whose flow rejects. -/
theorem flow_rejection_is_fatal_witness :
    Event.startOAuthServer (oauthOptions botParams (storedOf botParams fullBotStore))
        (clearAuthData fullBotStore "BOT") FlowOutcome.rejects
      ∈ (authenticateAccount refreshThrowsEnv botParams fullBotStore).final.trace ∧
    (authenticateAccount refreshThrowsEnv botParams fullBotStore).result
      = Except.error "[AuthManager][BOT] OAuth-Authentifizierung fehlgeschlagen." ∧
    (persistedRecord "BOT"
      (authenticateAccount refreshThrowsEnv botParams fullBotStore).final.store).accessToken
      = JVal.null := by
  have h := flow_rejection_is_fatal refreshThrowsEnv botParams fullBotStore
    (oauthOptions botParams (storedOf botParams fullBotStore))
    (clearAuthData fullBotStore "BOT") (by decide)
  exact ⟨by decide, h.1, h.2.2.2.1⟩

/-- C11 (as stated, refuted): on an empty store, where access token and refresh
token are both absent, the flow is the callback handler run on a token answer
that has an access token and no refresh token. The handler resolves, the new
record is written, and `addUser` then refuses the user without refresh token:
`authenticateAccount` throws, and the persisted record holds the access token
A1 without a refresh token. -/
theorem flow_without_refresh_token_breaks_pair :
    pairInvariant (persistedRecord "BOT" emptyStore) ∧
    (∃ d, (oauthCallback codeRequest (FetchOutcome.response true (some tokenBodyNoRefresh))
        usersOk).attempt = FlowOutcome.resolves d ∧
      d.accessToken = JVal.str "A1" ∧ d.refreshToken = JVal.undefined) ∧
    (authenticateAccount noRefreshTokenEnv botParams emptyStore).result
      = Except.error "Trying to add user 123 without refresh token" ∧
    (persistedRecord "BOT"
      (authenticateAccount noRefreshTokenEnv botParams emptyStore).final.store).accessToken
      = JVal.str "A1" ∧
    (persistedRecord "BOT"
      (authenticateAccount noRefreshTokenEnv botParams emptyStore).final.store).refreshToken
      = JVal.undefined ∧
    ¬ pairInvariant (persistedRecord "BOT"
      (authenticateAccount noRefreshTokenEnv botParams emptyStore).final.store) := by
  refine ⟨by decide, ⟨_, rfl, rfl, rfl⟩, rfl, by decide, by decide, by decide⟩

/-- C11 (amended): when the role's stored access token and refresh token are
both present or both absent, and every pair the flow resolves with during the
run is so too, the persisted record after `authenticateAccount` finishes, by
return or by throw, has them both present or both absent; and after any
sequence of later `onRefresh` write-backs of the returned session whose new
pairs are both present or both absent, it still has. -/
theorem pair_invariant_preserved (env : Env) (p : Params) (store : ConfigStore)
    (hpre : pairInvariant (persistedRecord p.configKeyPrefix store))
    (hflow : ∀ o s d, Event.startOAuthServer o s (FlowOutcome.resolves d)
        ∈ (authenticateAccount env p store).final.trace →
      d.accessToken.truthy = d.refreshToken.truthy) :
    pairInvariant (persistedRecord p.configKeyPrefix
      (authenticateAccount env p store).final.store) ∧
    ∀ session, (authenticateAccount env p store).result = Except.ok session →
      ∀ refreshes : List (AccessToken × String),
        (∀ r ∈ refreshes, r.1.accessToken.truthy = r.1.refreshToken.truthy) →
        pairInvariant (persistedRecord p.configKeyPrefix
          (refreshes.foldl (fun s r => onRefresh session.authProvider s r.1 r.2)
            (authenticateAccount env p store).final.store)) := by
  have hfinal : pairInvariant (persistedRecord p.configKeyPrefix
      (authenticateAccount env p store).final.store) := by
    apply pairInvariant_final_store env p store hpre
    intro d hcred hc hr hf
    have hev := flow_event_mem_trace env p store hcred hc hr
    rw [hf] at hev
    exact hflow _ _ d hev
  refine ⟨hfinal, ?_⟩
  intro session hres refreshes hrs
  have hprov := session_provider_prefix env p store session hres
  rw [← hprov] at hfinal ⊢
  exact pairInvariant_foldl_onRefresh session.authProvider refreshes _ hfinal hrs

/-- C11 (amended) at a concrete input: the end-to-end scenario, followed by a
refresh to A2 / R2. -/
theorem pair_invariant_preserved_witness :
    pairInvariant (persistedRecord botParams.configKeyPrefix emptyStore) ∧
    (authenticateAccount flowOkEnv botParams emptyStore).result = Except.ok flowOkSession ∧
    pairInvariant (persistedRecord botParams.configKeyPrefix
      (authenticateAccount flowOkEnv botParams emptyStore).final.store) ∧
    pairInvariant (persistedRecord botParams.configKeyPrefix
      ([(laterToken, "2024-06-01T14:00:00.000Z")].foldl
        (fun s r => onRefresh flowOkSession.authProvider s r.1 r.2)
        (authenticateAccount flowOkEnv botParams emptyStore).final.store)) :=
  have h := pair_invariant_preserved flowOkEnv botParams emptyStore (by decide)
    (fun o s d hev => by
      obtain ⟨-, -, -, -, -, hd⟩ := flow_of_mem_trace flowOkEnv botParams emptyStore o s _ hev
      injection hd with hd
      subst hd
      decide)
  ⟨by decide, rfl, h.1, h.2 flowOkSession rfl [(laterToken, "2024-06-01T14:00:00.000Z")]
    (by decide)⟩
/-- C12: the `onRefresh` handler of the provider of a returned session, invoked
on any config with new token data, writes the new access token, refresh token,
expires-in and scope under the role prefix of the call, together with the
timestamp of the write. Every other key keeps its value: in particular the
role's user id and username and, for the roles BOT and STREAMER, every key of
the other role's record. The result is what `getFileConfig` returns, and it is
what the file holds when the file can be written. -/
theorem onRefresh_writes_back (env : Env) (p : Params) (store : ConfigStore) (session : Session)
    (hres : (authenticateAccount env p store).result = Except.ok session)
    (s : ConfigStore) (t : AccessToken) (now : String) :
    (onRefresh session.authProvider s t now).fileConfig.get (keyToken p.configKeyPrefix)
      = t.accessToken ∧
    (onRefresh session.authProvider s t now).fileConfig.get (keyRefreshToken p.configKeyPrefix)
      = t.refreshToken ∧
    (onRefresh session.authProvider s t now).fileConfig.get (keyExpiresIn p.configKeyPrefix)
      = t.expiresIn ∧
    (onRefresh session.authProvider s t now).fileConfig.get (keyScopes p.configKeyPrefix)
      = t.scope ∧
    (onRefresh session.authProvider s t now).fileConfig.get (keyLastRefresh p.configKeyPrefix)
      = JVal.str now ∧
    (∀ k, k ∉ refreshKeys p.configKeyPrefix →
      (onRefresh session.authProvider s t now).fileConfig.get k = s.fileConfig.get k) ∧
    (onRefresh session.authProvider s t now).fileConfig.get (keyUserId p.configKeyPrefix)
      = s.fileConfig.get (keyUserId p.configKeyPrefix) ∧
    (onRefresh session.authProvider s t now).fileConfig.get (keyUsername p.configKeyPrefix)
      = s.fileConfig.get (keyUsername p.configKeyPrefix) ∧
    (∀ other, (p.configKeyPrefix = "BOT" ∧ other = "STREAMER") ∨
        (p.configKeyPrefix = "STREAMER" ∧ other = "BOT") →
      ∀ k ∈ roleKeys other,
        (onRefresh session.authProvider s t now).fileConfig.get k = s.fileConfig.get k) ∧
    (getFileConfig (onRefresh session.authProvider s t now)).1
      = (onRefresh session.authProvider s t now).fileConfig ∧
    (s.writable = true →
      (onRefresh session.authProvider s t now).disk
        = Disk.json (jsonRoundTrip (onRefresh session.authProvider s t now).fileConfig)) := by
  have hpre := session_provider_prefix env p store session hres
  have hfc : (onRefresh session.authProvider s t now).fileConfig
      = objectAssign s.fileConfig (refreshValues p.configKeyPrefix t now) := by
    unfold onRefresh
    rw [hpre, updateFileConfig_fileConfig]
  have hwr : ∀ k v, (k, v) ∈ refreshValues p.configKeyPrefix t now →
      (onRefresh session.authProvider s t now).fileConfig.get k = v := by
    intro k v hkv
    rw [hfc]
    exact get_objectAssign_of_mem _ _ k v (refreshValues_nodup _ _ _) hkv
  have hframe : ∀ k, k ∉ refreshKeys p.configKeyPrefix →
      (onRefresh session.authProvider s t now).fileConfig.get k = s.fileConfig.get k := by
    intro k hk
    rw [hfc]
    exact get_objectAssign_of_not_mem _ _ k hk
  refine ⟨hwr _ _ (by simp [refreshValues]), hwr _ _ (by simp [refreshValues]),
    hwr _ _ (by simp [refreshValues]), hwr _ _ (by simp [refreshValues]),
    hwr _ _ (by simp [refreshValues]), hframe, hframe _ (userId_not_refreshKey _),
    hframe _ (username_not_refreshKey _), ?_, ?_, ?_⟩
  · intro other hroles k hk
    apply hframe
    intro hmem
    exact roleKeys_disjoint p.configKeyPrefix other hroles k hk (refreshKeys_subset _ _ hmem)
  · unfold onRefresh
    rw [hpre]
    have h := getFileConfig_updateFileConfig s (keyToken p.configKeyPrefix) t.accessToken
      (refreshValues p.configKeyPrefix t now).tail
    have e : (keyToken p.configKeyPrefix, t.accessToken) ::
        (refreshValues p.configKeyPrefix t now).tail = refreshValues p.configKeyPrefix t now := rfl
    rw [e] at h
    rw [h, updateFileConfig_fileConfig]
  · intro hw
    unfold onRefresh
    simp [updateFileConfig, hw]

/-- C12 at a concrete input: the session of the end-to-end scenario, a later
refresh to A2 / R2 on a config that holds both roles' records. -/
theorem onRefresh_writes_back_witness :
    (authenticateAccount flowOkEnv botParams emptyStore).result = Except.ok flowOkSession ∧
    readStored "BOT"
      (onRefresh flowOkSession.authProvider bothRolesStore laterToken
        "2024-06-01T14:00:00.000Z").fileConfig =
      { accessToken := JVal.str "A2", refreshToken := JVal.str "R2", userId := JVal.str "123",
        username := JVal.str "mybot", scopes := ["chat:read", "chat:edit"],
        expiresIn := JVal.num 14400, lastRefresh := JVal.str "2024-06-01T14:00:00.000Z",
        browserUserAgent := JVal.str "Mozilla/5.0 Firefox/120.0" } ∧
    (onRefresh flowOkSession.authProvider bothRolesStore laterToken
        "2024-06-01T14:00:00.000Z").fileConfig.get (keyToken "BOT") = JVal.str "A2" ∧
    ∀ k ∈ roleKeys "STREAMER",
      (onRefresh flowOkSession.authProvider bothRolesStore laterToken
        "2024-06-01T14:00:00.000Z").fileConfig.get k = bothRolesStore.fileConfig.get k :=
  ⟨rfl, by decide,
    (onRefresh_writes_back flowOkEnv botParams emptyStore flowOkSession rfl bothRolesStore
      laterToken "2024-06-01T14:00:00.000Z").1,
    (onRefresh_writes_back flowOkEnv botParams emptyStore flowOkSession rfl bothRolesStore
      laterToken "2024-06-01T14:00:00.000Z").2.2.2.2.2.2.2.2.1 "STREAMER"
        (Or.inl ⟨rfl, rfl⟩)⟩
/-- C13: for the role prefixes BOT and STREAMER, `clearAuthData(prefix)` and a
run of `authenticateAccount` with that prefix write only keys of that role's
record: every `updateFileConfig` call of the run, on whatever path, names only
such keys. Every key outside the role's record, and so every key of the other
role's record, has the same value afterwards as before; the other role's
persisted record is unchanged. -/
theorem role_isolation (env : Env) (p : Params) (store : ConfigStore) (other : String)
    (hroles : (p.configKeyPrefix = "BOT" ∧ other = "STREAMER") ∨
      (p.configKeyPrefix = "STREAMER" ∧ other = "BOT")) :
    (∀ k ∈ (clearValues p.configKeyPrefix).keys, k ∈ roleKeys p.configKeyPrefix) ∧
    (∀ (s : ConfigStore) (k : String), k ∈ roleKeys other →
      (clearAuthData s p.configKeyPrefix).fileConfig.get k = s.fileConfig.get k) ∧
    (∀ s : ConfigStore, s.loaded →
      persistedRecord other (clearAuthData s p.configKeyPrefix) = persistedRecord other s) ∧
    (∀ nv, Event.updateFileConfig nv ∈ (authenticateAccount env p store).final.trace →
      ∀ k ∈ nv.keys, k ∈ roleKeys p.configKeyPrefix) ∧
    (∀ k, k ∉ roleKeys p.configKeyPrefix →
      (getFileConfig (authenticateAccount env p store).final.store).1.get k
        = (getFileConfig store).1.get k) ∧
    (∀ k ∈ roleKeys other,
      (getFileConfig (authenticateAccount env p store).final.store).1.get k
        = (getFileConfig store).1.get k) ∧
    persistedRecord other (authenticateAccount env p store).final.store
      = persistedRecord other store := by
  have hdis := roleKeys_disjoint p.configKeyPrefix other hroles
  have hclear : ∀ (s : ConfigStore) (k : String), k ∈ roleKeys other →
      (clearAuthData s p.configKeyPrefix).fileConfig.get k = s.fileConfig.get k := by
    intro s k hk
    unfold clearAuthData
    rw [updateFileConfig_fileConfig]
    apply get_objectAssign_of_not_mem
    intro hmem
    exact hdis k hk (clearValues_keys _ k hmem)
  refine ⟨clearValues_keys _, hclear, ?_, ?_, ?_, ?_, ?_⟩
  · intro s hs
    unfold persistedRecord
    have hl := loaded_updateFileConfig s (clearValues p.configKeyPrefix) hs
    unfold ConfigStore.loaded at hl hs
    unfold clearAuthData
    rw [hl, hs]
    exact readStored_congr other _ _ (fun k hk => hclear s k hk)
  · intro nv hnv k hk
    exact write_keys_of_mem_trace env p store nv hnv k hk
  · intro k hk
    exact get_final_store_of_not_roleKey env p store k hk
  · intro k hk
    exact get_final_store_of_not_roleKey env p store k (hdis k hk)
  · unfold persistedRecord
    exact readStored_congr other _ _
      (fun k hk => get_final_store_of_not_roleKey env p store k (hdis k hk))

/-- C13 at a concrete input: a full re-authentication of the bot on a config
that also holds the streamer's record. -/
theorem role_isolation_witness :
    ((botParams.configKeyPrefix = "BOT" ∧ "STREAMER" = "STREAMER") ∨
      (botParams.configKeyPrefix = "STREAMER" ∧ "STREAMER" = "BOT")) ∧
    persistedRecord "STREAMER"
        (authenticateAccount noRefreshTokenEnv botParams bothRolesStore).final.store
      = persistedRecord "STREAMER" bothRolesStore :=
  ⟨Or.inl ⟨rfl, rfl⟩,
    (role_isolation noRefreshTokenEnv botParams bothRolesStore "STREAMER"
      (Or.inl ⟨rfl, rfl⟩)).2.2.2.2.2.2⟩
/-- C14: `updateFileConfig(p)` merges `p` into the in-memory config `c`. The
config that `getFileConfig` then returns is the merged object: it maps each
key of `p` to the value in `p`, each key not in `p` to its value in `c`, and
has every key that `c` had. When the file can be written, its content is the
JSON form of the merged object: it reads back, key by key, to the merged
values, and it is the merged object itself when no value is `undefined`. -/
theorem updateFileConfig_merges (s : ConfigStore) (p : Config) (hp : p.keys.Nodup) :
    (updateFileConfig s p).fileConfig = objectAssign s.fileConfig p ∧
    (s.writable = true ∨ objectAssign s.fileConfig p ≠ [] →
      (getFileConfig (updateFileConfig s p)).1 = objectAssign s.fileConfig p ∧
      (∀ k v, (k, v) ∈ p → (getFileConfig (updateFileConfig s p)).1.get k = v) ∧
      (∀ k, k ∉ p.keys →
        (getFileConfig (updateFileConfig s p)).1.get k = s.fileConfig.get k) ∧
      (∀ k, k ∈ s.fileConfig.keys → k ∈ (getFileConfig (updateFileConfig s p)).1.keys)) ∧
    (s.writable = true →
      (updateFileConfig s p).disk = Disk.json (jsonRoundTrip (objectAssign s.fileConfig p)) ∧
      (s.fileConfig.keys.Nodup → ∀ k,
        (jsonRoundTrip (objectAssign s.fileConfig p)).get k
          = (getFileConfig (updateFileConfig s p)).1.get k) ∧
      ((∀ kv ∈ s.fileConfig, kv.2 ≠ JVal.undefined) → (∀ kv ∈ p, kv.2 ≠ JVal.undefined) →
        (updateFileConfig s p).disk = Disk.json (getFileConfig (updateFileConfig s p)).1)) := by
  have hget : s.writable = true ∨ objectAssign s.fileConfig p ≠ [] →
      (getFileConfig (updateFileConfig s p)).1 = objectAssign s.fileConfig p := by
    intro h
    by_cases hw : s.writable = true
    · rw [getFileConfig_updateFileConfig_writable s p hw]
    · have hne : objectAssign s.fileConfig p ≠ [] := by
        rcases h with h | h
        · exact absurd h hw
        · exact h
      rw [getFileConfig_of_ne_nil]
      · rw [updateFileConfig_fileConfig]
      · rw [updateFileConfig_fileConfig]
        exact List.length_pos.2 hne
  refine ⟨updateFileConfig_fileConfig s p, ?_, ?_⟩
  · intro h
    rw [hget h]
    refine ⟨rfl, ?_, ?_, ?_⟩
    · intro k v hkv
      exact get_objectAssign_of_mem _ _ k v hp hkv
    · intro k hk
      exact get_objectAssign_of_not_mem _ _ k hk
    · intro k hk
      exact (mem_keys_objectAssign _ _ k).2 (Or.inl hk)
  · intro hw
    rw [hget (Or.inl hw)]
    have hdisk : (updateFileConfig s p).disk
        = Disk.json (jsonRoundTrip (objectAssign s.fileConfig p)) := by
      simp [updateFileConfig, hw]
    refine ⟨hdisk, ?_, ?_⟩
    · intro hnd k
      exact get_jsonRoundTrip _ k (nodup_keys_objectAssign _ _ hnd)
    · intro hc hpv
      rw [hdisk, jsonRoundTrip_eq_self]
      intro kv hkv
      rcases mem_objectAssign _ _ kv hkv with h | h
      · exact hc kv h
      · exact hpv kv h

/-- C14 at a concrete input: merging a new token into the stored bot record. -/
theorem updateFileConfig_merges_witness :
    (Config.keys [(keyToken "BOT", JVal.str "A9")]).Nodup ∧
    (updateFileConfig fullBotStore [(keyToken "BOT", JVal.str "A9")]).fileConfig
      = objectAssign fullBotStore.fileConfig [(keyToken "BOT", JVal.str "A9")] :=
  ⟨by decide, (updateFileConfig_merges fullBotStore [(keyToken "BOT", JVal.str "A9")]
    (by decide)).1⟩
/-- C15: `validateToken` never throws: whatever the token and whatever the HTTP
call does, it returns a record or `null`. For a falsy token (`null`,
`undefined`, `""`) it returns `null` without any HTTP call; it returns `null`
on every non-2xx response, on every network error and when the body of a 2xx
response cannot be read; on a 2xx response with a JSON body it returns the
body's client id and user id, with `scopes` replaced by `[]` when absent. -/
theorem validateToken_never_throws :
    (∀ fetch tok, ∃ r, (validateToken fetch tok).outcome = ValidateOutcome.returned r) ∧
    (∀ fetch tok, (validateToken fetch tok).outcome ≠ ValidateOutcome.throws) ∧
    (∀ fetch tok, tok.truthy = false →
      validateToken fetch tok = { outcome := ValidateOutcome.returned none, requests := [] }) ∧
    (∀ fetch, validateToken fetch JVal.null
        = { outcome := ValidateOutcome.returned none, requests := [] } ∧
      validateToken fetch (JVal.str "")
        = { outcome := ValidateOutcome.returned none, requests := [] }) ∧
    (∀ fetch tok body, fetch tok = FetchOutcome.response false body →
      (validateToken fetch tok).outcome = ValidateOutcome.returned none) ∧
    (∀ fetch tok, fetch tok = FetchOutcome.networkError →
      (validateToken fetch tok).outcome = ValidateOutcome.returned none) ∧
    (∀ fetch tok, fetch tok = FetchOutcome.response true none →
      (validateToken fetch tok).outcome = ValidateOutcome.returned none) ∧
    (∀ fetch tok data, tok.truthy = true → fetch tok = FetchOutcome.response true (some data) →
      validateToken fetch tok =
        { outcome := ValidateOutcome.returned (some
            { clientId := data.client_id, userId := data.user_id,
              scopes := if data.scopes.truthy then data.scopes else JVal.arr [] }),
          requests := [tok] }) := by
  refine ⟨?_, ?_, ?_, ?_, ?_, ?_, ?_, ?_⟩
  · intro fetch tok
    unfold validateToken
    split
    · exact ⟨_, rfl⟩
    · split <;> exact ⟨_, rfl⟩
  · intro fetch tok
    unfold validateToken
    split
    · simp
    · split <;> simp
  · intro fetch tok h
    simp [validateToken, h]
  · intro fetch
    exact ⟨rfl, rfl⟩
  · intro fetch tok body h
    unfold validateToken
    split
    · rfl
    · simp [h, validateTokenTry]
  · intro fetch tok h
    unfold validateToken
    split
    · rfl
    · simp [h, validateTokenTry]
  · intro fetch tok h
    unfold validateToken
    split
    · rfl
    · simp [h, validateTokenTry]
  · intro fetch tok data ht h
    simp [validateToken, ht, h, validateTokenTry, JVal.orEmptyArray]

/-- C15, at concrete answers: a 2xx answer without `scopes` gives the user id
with an empty scope list after one HTTP call, and a 401 gives `null`. -/
theorem validateToken_never_throws_witness :
    validateToken validateOkNoScopes (JVal.str "A0") =
      { outcome := ValidateOutcome.returned (some
          { clientId := JVal.str "client-id", userId := JVal.str "123", scopes := JVal.arr [] }),
        requests := [JVal.str "A0"] } ∧
    (validateToken validateUnauthorized (JVal.str "A0")).outcome
      = ValidateOutcome.returned none := by
  have h := validateToken_never_throws
  exact ⟨h.2.2.2.2.2.2.2 validateOkNoScopes (JVal.str "A0")
      { client_id := JVal.str "client-id", user_id := JVal.str "123", scopes := JVal.undefined }
      (by decide) rfl,
    h.2.2.2.2.1 validateUnauthorized (JVal.str "A0") none rfl⟩

/-- C16: on a redirect callback without a code the promise of
`startOAuthServer` is rejected and the token endpoint is not called; with a
code, it is rejected when the token endpoint answers non-2xx or without an
`access_token` (or the call fails), and the user-lookup endpoint is not called;
with a code and a 2xx token answer that has an `access_token` the promise is
resolved, whatever the user lookup does. -/
theorem callback_rejects_or_resolves (current : Option Nat) (server : Nat)
    (req : CallbackRequest) (tokenFetch : FetchOutcome TokenBody)
    (userFetch : FetchOutcome UsersBody) :
    (req.code.truthy = false →
      (runFlow current server [FlowEvent.callback req tokenFetch userFetch]).promise
        = some FlowOutcome.rejects ∧
      (oauthCallback req tokenFetch userFetch).requests = []) ∧
    (req.code.truthy = true →
      (tokenFetch = FetchOutcome.networkError ∨
        (∃ ok, tokenFetch = FetchOutcome.response ok none) ∨
        (∃ body, tokenFetch = FetchOutcome.response false (some body)) ∨
        (∃ ok body, tokenFetch = FetchOutcome.response ok (some body) ∧
          body.access_token.truthy = false)) →
      (runFlow current server [FlowEvent.callback req tokenFetch userFetch]).promise
        = some FlowOutcome.rejects ∧
      (oauthCallback req tokenFetch userFetch).requests = [Endpoint.token]) ∧
    (req.code.truthy = true →
      ∀ body, tokenFetch = FetchOutcome.response true (some body) →
        body.access_token.truthy = true →
        ∃ authData,
          (runFlow current server [FlowEvent.callback req tokenFetch userFetch]).promise
            = some (FlowOutcome.resolves authData) ∧
          authData.accessToken = body.access_token) := by
  refine ⟨?_, ?_, ?_⟩
  · intro h
    rw [flowStep_first_callback, oauthCallback_no_code req tokenFetch userFetch h]
    exact ⟨rfl, rfl⟩
  · intro hcode hfail
    rw [flowStep_first_callback, oauthCallback_token_failure req tokenFetch userFetch hcode hfail]
    exact ⟨rfl, rfl⟩
  · intro hcode body hb htok
    subst hb
    rw [flowStep_first_callback, oauthCallback_token_success req body userFetch hcode htok]
    exact ⟨_, rfl, rfl⟩

/-- C16, at concrete callbacks: no code, a denied token exchange, and a
successful one. -/
theorem callback_rejects_or_resolves_witness :
    (runFlow none 1 [FlowEvent.callback noCodeRequest
        (FetchOutcome.response true (some tokenBodyA1)) usersOk]).promise
      = some FlowOutcome.rejects ∧
    (runFlow none 1 [FlowEvent.callback codeRequest
        (FetchOutcome.response false (some tokenBodyDenied)) usersOk]).promise
      = some FlowOutcome.rejects ∧
    (∃ authData, (runFlow none 1 [FlowEvent.callback codeRequest
        (FetchOutcome.response true (some tokenBodyA1)) usersOk]).promise
      = some (FlowOutcome.resolves authData) ∧ authData.accessToken = JVal.str "A1") := by
  have h1 := callback_rejects_or_resolves none 1 noCodeRequest
    (FetchOutcome.response true (some tokenBodyA1)) usersOk
  have h2 := callback_rejects_or_resolves none 1 codeRequest
    (FetchOutcome.response false (some tokenBodyDenied)) usersOk
  have h3 := callback_rejects_or_resolves none 1 codeRequest
    (FetchOutcome.response true (some tokenBodyA1)) usersOk
  exact ⟨(h1.1 (by decide)).1,
    (h2.2.1 (by decide) (Or.inr (Or.inr (Or.inl ⟨_, rfl⟩)))).1,
    h3.2.2 (by decide) tokenBodyA1 rfl (by decide)⟩

/-- C17: whenever the redirect callback has a code and the token exchange
succeeds (2xx with an `access_token`) but the user lookup fails (a thrown
error, an unreadable body, a non-2xx answer, a missing or an empty `data`
array), the promise of `startOAuthServer` is still resolved, with
`accessToken`, `refreshToken`, `expiresIn` and `scope` (or `[]` when the
answer has none) from the token answer and with `userId` and `username` both
`""`. -/
theorem identity_failure_still_resolves (current : Option Nat) (server : Nat)
    (req : CallbackRequest) (body : TokenBody) (userFetch : FetchOutcome UsersBody)
    (hcode : req.code.truthy = true) (htok : body.access_token.truthy = true)
    (hfail : userFetch = FetchOutcome.networkError ∨
      (∃ ok, userFetch = FetchOutcome.response ok none) ∨
      (∃ b, userFetch = FetchOutcome.response false (some b)) ∨
      (∃ ok, userFetch = FetchOutcome.response ok (some { data := none })) ∨
      (∃ ok, userFetch = FetchOutcome.response ok (some { data := some [] }))) :
    (runFlow current server
      [FlowEvent.callback req (FetchOutcome.response true (some body)) userFetch]).promise
      = some (FlowOutcome.resolves
          { accessToken := body.access_token, refreshToken := body.refresh_token,
            expiresIn := body.expires_in,
            scope := if body.scope.truthy then body.scope else JVal.arr [],
            userId := JVal.str "", username := JVal.str "", userAgent := req.userAgent }) := by
  rw [flowStep_first_callback, oauthCallback_token_success req body userFetch hcode htok,
    lookupIdentity_of_failure userFetch hfail]
  rfl

/-- C17, with the token answer A1 / R1 / 3600 and a user lookup that answers
with an empty `data` array. -/
theorem identity_failure_still_resolves_witness :
    (runFlow none 1
      [FlowEvent.callback codeRequest (FetchOutcome.response true (some tokenBodyA1))
        usersEmpty]).promise
      = some (FlowOutcome.resolves
          { accessToken := JVal.str "A1", refreshToken := JVal.str "R1",
            expiresIn := JVal.num 3600, scope := JVal.arr ["chat:read", "chat:edit"],
            userId := JVal.str "", username := JVal.str "",
            userAgent := JVal.str "Mozilla/5.0 Chrome/120.0" }) :=
  identity_failure_still_resolves none 1 codeRequest tokenBodyA1 usersEmpty (by decide)
    (by decide) (Or.inr (Or.inr (Or.inr (Or.inr ⟨true, rfl⟩))))

/-- C18: in every run of `startOAuthServer` that receives at least one event
(a redirect callback of any kind, or a listener error), the promise is settled
by the first event, and `close` has been invoked on the run's listener exactly
once, however many callbacks and errors follow; `currentAuthServerInstance` is
`null` from then on. -/
theorem listener_closed_exactly_once (current : Option Nat) (server : Nat)
    (events : List FlowEvent) (hfresh : current ≠ some server) (hne : events ≠ []) :
    (∃ o, (runFlow current server events).promise = some o ∧
      (runFlow current server (events.take 1)).promise = some o) ∧
    (runFlow current server events).closeLog.count server = 1 ∧
    (runFlow current server events).currentAuthServerInstance = none := by
  cases events with
  | nil => exact absurd rfl hne
  | cons e rest =>
    obtain ⟨h1, o, ho⟩ := runFlow_cons current server e rest
    rw [h1]
    simp only [List.take_succ_cons, List.take_zero]
    rw [ho]
    refine ⟨⟨o, rfl, rfl⟩, ?_, rfl⟩
    cases current with
    | none => simp [startListening]
    | some stale =>
      have hs : stale ≠ server := fun h => hfresh (by rw [h])
      simp [startListening, List.count_cons, hs]

/-- C18, on a run with a stale listener 7 that sees a successful callback, then
a second callback without a code, then a listener error. -/
theorem listener_closed_exactly_once_witness :
    (runFlow (some 7) 8
      [FlowEvent.callback codeRequest (FetchOutcome.response true (some tokenBodyA1)) usersOk,
       FlowEvent.callback noCodeRequest FetchOutcome.networkError usersOk,
       FlowEvent.listenerError true]).closeLog.count 8 = 1 :=
  (listener_closed_exactly_once (some 7) 8
    [FlowEvent.callback codeRequest (FetchOutcome.response true (some tokenBodyA1)) usersOk,
     FlowEvent.callback noCodeRequest FetchOutcome.networkError usersOk,
     FlowEvent.listenerError true] (by decide) (by decide)).2.1

/-- C19 (refuted by the code): on the Refresh path the `accessToken` field of
the result is the token object that `getAccessTokenForUser` resolved with, not
the access-token string. On the complete bot record with an expired token and
a working refresh, the result's `accessToken` is the object holding A1 / R1 /
14400, not the string A1. In general, a returned session carries the stored
token string after a successful CheckExisting, the refresh call's token object
after a successful Refresh, and the flow's token string after FullReauth. -/
theorem refresh_path_returns_token_object :
    (∃ session, (authenticateAccount refreshOkEnv botParams fullBotStore).result
        = Except.ok session ∧
      session.accessToken = UserData.token refreshedToken ∧
      session.accessToken ≠ UserData.val refreshedToken.accessToken ∧
      ∀ v, session.accessToken ≠ UserData.val v) ∧
    (∀ env p store session, (authenticateAccount env p store).result = Except.ok session →
      (checkAccepts env p (storedOf p store) = true →
        session.accessToken = UserData.val (storedOf p store).accessToken) ∧
      (checkAccepts env p (storedOf p store) = false →
        refreshAccepts env p (storedOf p store) = true →
        ∃ t, env.getAccessTokenForUser (storedOf p store).userId
              (refreshSeed env (storedOf p store)) = RefreshOutcome.returned (some t) ∧
          session.accessToken = UserData.token t) ∧
      (checkAccepts env p (storedOf p store) = false →
        refreshAccepts env p (storedOf p store) = false →
        ∃ d, env.startOAuthServer (oauthOptions p (storedOf p store)) = FlowOutcome.resolves d ∧
          session.accessToken = UserData.val d.accessToken)) := by
  refine ⟨⟨_, rfl, rfl, by decide, fun v => by intro h; cases h⟩, ?_⟩
  intro env p store session hres
  have hcred : appCredentialsPresent p = true := by
    cases hcred : appCredentialsPresent p with
    | true => rfl
    | false =>
      rw [authenticateAccount_no_credentials env p store hcred] at hres
      cases hres
  refine ⟨?_, ?_, ?_⟩
  · intro hc
    rw [authenticateAccount_check_success env p store hcred hc] at hres
    obtain ⟨-, -, -, -, ha⟩ := finalize_ok_inv p _ session hres
    rw [ha]
    unfold checkSuccessRun
    simp only [builtRun_eq]
    split <;> rfl
  · intro hc hr
    exact session_of_refresh env p store hcred hc hr session hres
  · intro hc hr
    obtain ⟨d, hd, ha, -⟩ := session_of_full_reauth env p store hcred hc hr session hres
    exact ⟨d, hd, ha⟩
theorem formatListNaturally_short (items : List String) (h : items.length ≤ 2) :
    formatListNaturally (some items) = naturalList items := by
  match items, h with
  | [], _ => rfl
  | [a], _ => rfl
  | [a, b], _ =>
    simp [formatListNaturally, naturalList, String.intercalate, String.intercalate.go]
  | _ :: _ :: _ :: _, h => simp at h

theorem formatListNaturally_long (items : List String) (h : 3 ≤ items.length) :
    formatListNaturally (some items) = naturalList items ++ " " := by
  match items, h with
  | [], h => simp at h
  | [_], h => simp at h
  | [_, _], h => simp at h
  | a :: b :: c :: rest, _ => rfl

/-- C20 (the code at the failing input): for the three items A, B, C the
function returns "A, B und C " with a trailing blank, not the list
"A, B und C" its docstring gives. For a missing list, an empty list, one item
and two items the result is the natural list; for every list of three or more
items it is the natural list followed by one blank. -/
theorem formatListNaturally_trailing_blank :
    formatListNaturally (some ["A", "B", "C"]) = "A, B und C " ∧
    naturalList ["A", "B", "C"] = "A, B und C" ∧
    formatListNaturally (some ["A", "B", "C"]) ≠ naturalList ["A", "B", "C"] ∧
    formatListNaturally none = "" ∧
    (∀ items : List String, items.length ≤ 2 →
      formatListNaturally (some items) = naturalList items) ∧
    (∀ items : List String, 3 ≤ items.length →
      formatListNaturally (some items) = naturalList items ++ " ") :=
  ⟨by decide, by decide, by decide, rfl, formatListNaturally_short, formatListNaturally_long⟩
theorem endsWith_of_subdomain (hostname allowedDomain : String)
    (h : endsWith hostname ("." ++ allowedDomain) = true) :
    endsWith hostname allowedDomain = true := by
  unfold endsWith at h ⊢
  rw [List.isSuffixOf_iff_suffix] at h ⊢
  exact List.IsSuffix.trans (List.suffix_append _ _) h

theorem endsWith_self (s : String) : endsWith s s = true := by
  unfold endsWith
  rw [List.isSuffixOf_iff_suffix]

/-- Whatever the code rejects is a link that is not from an allowed domain. -/
theorem linkNotAllowed_of_urlIsRejected (hostnameOf : String → Option String) (url : String)
    (h : urlIsRejected hostnameOf url = true) : linkNotAllowed hostnameOf url = true := by
  unfold urlIsRejected at h
  unfold linkNotAllowed
  cases hh : hostnameOf url with
  | none => rfl
  | some hostname =>
    rw [hh] at h
    simp only [Bool.not_eq_true', List.any_eq_false] at h
    simp only [Bool.not_eq_true', fromAllowedDomain, List.any_eq_false]
    intro d hd
    have hnot := h d hd
    intro hor
    apply hnot
    simp only [Bool.or_eq_true, beq_iff_eq] at hor
    rcases hor with he | he
    · rw [he]
      exact endsWith_self d
    · exact endsWith_of_subdomain _ _ he

/-- C21 (refuted by the code): the message `see https://evilyoutube.com/watch`
contains one URL; its hostname `evilyoutube.com` is neither an allowed domain
nor a subdomain of one, yet `invalidURLSend` returns `false` and requests no
deletion, because the hostname ends with `youtube.com`. In general the function
returns `true` exactly when some matched URL cannot be parsed or has a hostname
that ends with none of the allowed domains; whatever it rejects is a link not
from an allowed domain, and it returns `false` for a value that is no string,
an empty or blank message and a message without URLs. -/
theorem invalidURLSend_accepts_lookalike_domain :
    matchUrls "see https://evilyoutube.com/watch" = ["https://evilyoutube.com/watch"] ∧
    exampleHostnameOf "https://evilyoutube.com/watch" = some "evilyoutube.com" ∧
    fromAllowedDomain "evilyoutube.com" = false ∧
    linkNotAllowed exampleHostnameOf "https://evilyoutube.com/watch" = true ∧
    invalidURLSend exampleHostnameOf false (JVal.str "see https://evilyoutube.com/watch")
      = { result := false, deleteRequested := false } ∧
    invalidURLSend exampleHostnameOf false (JVal.str "see https://example.org/")
      = { result := true, deleteRequested := true } ∧
    invalidURLSend exampleHostnameOf false (JVal.str "https://www.youtube.com/watch?v=1")
      = { result := false, deleteRequested := false } ∧
    (∀ hostnameOf senderIsMod text,
      (invalidURLSend hostnameOf senderIsMod (JVal.str text)).result = true ↔
        trimIsEmpty text = false ∧
        ∃ url ∈ matchUrls text, urlIsRejected hostnameOf url = true) ∧
    (∀ hostnameOf senderIsMod text,
      (invalidURLSend hostnameOf senderIsMod (JVal.str text)).result = true →
        ∃ url ∈ matchUrls text, linkNotAllowed hostnameOf url = true) ∧
    (∀ hostnameOf senderIsMod text, matchUrls text = [] →
      (invalidURLSend hostnameOf senderIsMod (JVal.str text)).result = false) ∧
    (∀ hostnameOf senderIsMod text, trimIsEmpty text = true →
      (invalidURLSend hostnameOf senderIsMod (JVal.str text)).result = false) ∧
    (∀ hostnameOf senderIsMod,
      (invalidURLSend hostnameOf senderIsMod JVal.undefined).result = false ∧
      (invalidURLSend hostnameOf senderIsMod JVal.null).result = false ∧
      (invalidURLSend hostnameOf senderIsMod (JVal.str "")).result = false) := by
  have hchar : ∀ hostnameOf senderIsMod text,
      (invalidURLSend hostnameOf senderIsMod (JVal.str text)).result = true ↔
        trimIsEmpty text = false ∧
        ∃ url ∈ matchUrls text, urlIsRejected hostnameOf url = true := by
    intro hostnameOf senderIsMod text
    unfold invalidURLSend
    simp only
    cases ht : trimIsEmpty text with
    | true => simp
    | false =>
      cases ha : (matchUrls text).any (urlIsRejected hostnameOf) with
      | true =>
        simp only [Bool.false_eq_true, if_false, if_true, true_and, true_iff]
        exact List.any_eq_true.1 ha
      | false =>
        simp only [Bool.false_eq_true, if_false, true_and, false_iff]
        intro hex
        rw [← List.any_eq_true, ha] at hex
        cases hex
  refine ⟨by decide, by decide, by decide, by decide, by decide, by decide, by decide, hchar,
    ?_, ?_, ?_, ?_⟩
  · intro hostnameOf senderIsMod text h
    obtain ⟨-, url, hu, hr⟩ := (hchar hostnameOf senderIsMod text).1 h
    exact ⟨url, hu, linkNotAllowed_of_urlIsRejected hostnameOf url hr⟩
  · intro hostnameOf senderIsMod text hm
    rw [Bool.eq_false_iff]
    intro h
    obtain ⟨-, url, hu, -⟩ := (hchar hostnameOf senderIsMod text).1 h
    rw [hm] at hu
    cases hu
  · intro hostnameOf senderIsMod text ht
    rw [Bool.eq_false_iff]
    intro h
    obtain ⟨hf, -⟩ := (hchar hostnameOf senderIsMod text).1 h
    rw [ht] at hf
    cases hf
  · intro hostnameOf senderIsMod
    exact ⟨rfl, rfl, rfl⟩
/-- C22 (refuted by the code): in a directory with the entries
`followageCommand.js`, `js`, `notes.txt` and `backup.tar.gz`, the call with the
extensions `['.js']` also returns the entry `js`, which has no extension, and
the call with `['.tar.gz']` does not return `backup.tar.gz`, which has that
extension: the function compares the text after the last dot of the name (the
whole name when it has no dot) with the extensions. In general the result is,
in listing order, the joined paths of the entries for which a dot followed by
the last piece of `split('.')` is one of the extensions, each taken with a
leading dot; it is empty for an extensions argument that is no array or is
empty, and for a directory that cannot be read. -/
theorem getAllLocalFiles_compares_last_piece :
    getAllLocalFiles exampleReaddir exampleJoin "botCommands" (some [".js"])
      = ["botCommands/followageCommand.js", "botCommands/js"] ∧
    hasExtension "js" ".js" = false ∧
    getAllLocalFiles exampleReaddir exampleJoin "botCommands" (some ["js"])
      = ["botCommands/followageCommand.js", "botCommands/js"] ∧
    getAllLocalFiles exampleReaddir exampleJoin "botCommands" (some [".tar.gz"]) = [] ∧
    hasExtension "backup.tar.gz" ".tar.gz" = true ∧
    getAllLocalFiles exampleReaddir exampleJoin "botCommands" (some [".txt", "gz"])
      = ["botCommands/notes.txt", "botCommands/backup.tar.gz"] ∧
    (∀ readdir join directoryPath extensions files,
      extensions ≠ [] → readdir directoryPath = some files →
      getAllLocalFiles readdir join directoryPath (some extensions) =
        (files.filter (fun file =>
          (extensions.map (fun ext => if startsWith ext "." then ext else "." ++ ext)).contains
            ("." ++ splitDotPop file))).map (fun file => join directoryPath file)) ∧
    (∀ readdir join directoryPath,
      getAllLocalFiles readdir join directoryPath none = [] ∧
      getAllLocalFiles readdir join directoryPath (some []) = []) ∧
    (∀ readdir join directoryPath extensions, readdir directoryPath = none →
      getAllLocalFiles readdir join directoryPath extensions = []) := by
  refine ⟨by decide, by decide, by decide, by decide, by decide, by decide, ?_, ?_, ?_⟩
  · intro readdir join directoryPath extensions files hne hr
    unfold getAllLocalFiles
    have hl : ¬ extensions.length = 0 := fun e => hne (List.length_eq_zero.1 e)
    simp only [hl, if_false, hr]
  · intro readdir join directoryPath
    exact ⟨rfl, rfl⟩
  · intro readdir join directoryPath extensions hr
    unfold getAllLocalFiles
    cases extensions with
    | none => rfl
    | some exts =>
      simp only [hr]
      split <;> rfl
/-- C23: whenever the Refresh step is entered (CheckExisting did not succeed)
and the stored refresh token or the stored user id is falsy, the run makes no
refresh attempt: it has no `getAccessTokenForUser` call and no second validator
call. The entry into the Refresh step is followed directly by FullReauth: the
record is cleared and `startOAuthServer` is called, exactly once, on the
cleared record. -/
theorem refresh_skipped_without_credentials (env : Env) (p : Params) (store : ConfigStore)
    (hent : Event.refreshStepEntered ∈ (authenticateAccount env p store).final.trace)
    (hmiss : (storedOf p store).refreshToken.truthy = false ∨
      (storedOf p store).userId.truthy = false) :
    (∀ e ∈ (authenticateAccount env p store).final.trace,
      e.isRefreshAttempt = false ∧
      ∀ tok oc, e ≠ Event.validateToken ValidateSite.afterRefresh tok oc) ∧
    (∃ tail, (authenticateAccount env p store).final.trace =
      checkTrace env (storedOf p store) ++
        [ Event.refreshStepEntered, Event.fullReauthEntered,
          Event.clearAuthData p.configKeyPrefix,
          Event.updateFileConfig (clearValues p.configKeyPrefix),
          Event.startOAuthServer (oauthOptions p (storedOf p store))
            (clearAuthData (getFileConfig store).2 p.configKeyPrefix)
            (env.startOAuthServer (oauthOptions p (storedOf p store))) ] ++ tail) ∧
    (authenticateAccount env p store).final.trace.countP Event.isFlow = 1 ∧
    (authenticateAccount env p store).final.tokenNeedsFullReauth = true ∧
    recordAbsentExceptBrowserHint
      (persistedRecord p.configKeyPrefix
        (clearAuthData (getFileConfig store).2 p.configKeyPrefix)) := by
  obtain ⟨hcred, hc⟩ := refreshEntered_of_mem_trace env p store hent
  have hr := refreshAccepts_false_of_missing env p (storedOf p store) hmiss
  obtain ⟨tail, ht, htail⟩ := tail_after_flow env p store hcred hc hr
  have hrt := refreshTrace_of_missing env (storedOf p store) hmiss
  refine ⟨?_, ⟨tail, ?_⟩, flow_count_full_reauth env p store hcred hc hr, ?_, ?_⟩
  · rw [ht, hrt]
    intro e he
    simp only [List.mem_append, List.mem_singleton] at he
    rcases he with ((he | he) | he) | he
    · rw [mem_checkTrace] at he
      rw [he.2.2]
      exact ⟨rfl, fun _ _ hn => by simp [validateCheckEvent] at hn⟩
    · subst he
      exact ⟨rfl, fun _ _ hn => by cases hn⟩
    · rw [mem_flowTrace] at he
      rcases he with he | he | he | he <;> subst he <;>
        exact ⟨rfl, fun _ _ hn => by cases hn⟩
    · exact ⟨(htail e he).2.2.1, fun tok oc => (htail e he).2.2.2 _ tok oc⟩
  · rw [ht, hrt]
    simp [flowTrace]
  · cases hf : env.startOAuthServer (oauthOptions p (storedOf p store)) with
    | rejects => exact (result_flow_rejects env p store hcred hc hr hf).2.2.2
    | resolves d => exact (result_flow_resolves env p store d hcred hc hr hf).2.2.2.2.1
  · rw [record_at_flow_call]
    simp [recordAbsentExceptBrowserHint, JVal.absent]

/-- C23, on a record with an expired access token and no refresh token: the
run is the validator call, the entry into the Refresh step and FullReauth. -/
theorem refresh_skipped_without_credentials_witness :
    Event.refreshStepEntered
      ∈ (authenticateAccount flowOkEnv botParams noRefreshStore).final.trace ∧
    (storedOf botParams noRefreshStore).refreshToken = JVal.undefined ∧
    (∀ e ∈ (authenticateAccount flowOkEnv botParams noRefreshStore).final.trace,
      e.isRefreshAttempt = false ∧
      ∀ tok oc, e ≠ Event.validateToken ValidateSite.afterRefresh tok oc) ∧
    (authenticateAccount flowOkEnv botParams noRefreshStore).final.trace.countP Event.isFlow
      = 1 :=
  have h := refresh_skipped_without_credentials flowOkEnv botParams noRefreshStore
    (by decide) (Or.inl (by decide))
  ⟨by decide, by decide, h.1, h.2.2.1⟩
/-- C24: whenever the refresh call resolved with a new token `t` and the
validator, called on `t`'s access token, returned `null`, or returned a scope
list that lacks a required scope or has an extra one, the Refresh step does
not succeed: the run goes on to FullReauth (the record is cleared and
`startOAuthServer` is called once), and a session, if one is returned, is
built from the data of the flow, not from the refreshed token. -/
theorem post_refresh_revalidation (env : Env) (p : Params) (store : ConfigStore)
    (uid : JVal) (seed : AccessToken) (t : AccessToken) (oc : ValidateOutcome)
    (hre : Event.getAccessTokenForUser uid seed (RefreshOutcome.returned (some t))
            ∈ (authenticateAccount env p store).final.trace)
    (hva : Event.validateToken ValidateSite.afterRefresh t.accessToken oc
            ∈ (authenticateAccount env p store).final.trace)
    (hbad : oc = ValidateOutcome.returned none ∨
      ∃ v, oc = ValidateOutcome.returned (some v) ∧
        ((∃ s, s ∈ p.requiredScopes ∧ s ∉ v.scopes.asArray) ∨
         (∃ s, s ∈ v.scopes.asArray ∧ s ∉ p.requiredScopes))) :
    refreshAccepts env p (storedOf p store) = false ∧
    (authenticateAccount env p store).final.tokenNeedsFullReauth = true ∧
    Event.fullReauthEntered ∈ (authenticateAccount env p store).final.trace ∧
    Event.clearAuthData p.configKeyPrefix ∈ (authenticateAccount env p store).final.trace ∧
    Event.startOAuthServer (oauthOptions p (storedOf p store))
        (clearAuthData (getFileConfig store).2 p.configKeyPrefix)
        (env.startOAuthServer (oauthOptions p (storedOf p store)))
      ∈ (authenticateAccount env p store).final.trace ∧
    (authenticateAccount env p store).final.trace.countP Event.isFlow = 1 ∧
    (∀ session, (authenticateAccount env p store).result = Except.ok session →
      session.accessToken ≠ UserData.token t ∧
      ∃ d, env.startOAuthServer (oauthOptions p (storedOf p store))
            = FlowOutcome.resolves d ∧
        session.accessToken = UserData.val d.accessToken ∧
        session.userId = d.userId ∧ session.username = d.username) := by
  obtain ⟨hcred, hc, h1, h2, -, -, ho⟩ := refresh_of_mem_trace env p store _ _ _ hre
  obtain ⟨-, -, -, -, t', ho', -, hv⟩ := validateRefresh_of_mem_trace env p store _ _ hva
  rw [← ho] at ho'
  injection ho' with ho'
  injection ho' with ho'
  subst ho'
  have hr : refreshAccepts env p (storedOf p store) = false := by
    rw [Bool.eq_false_iff]
    intro hacc
    obtain ⟨-, -, t', v', ho', hv', -, hm⟩ := (refreshAccepts_spec env p _).1 hacc
    rw [← ho] at ho'
    injection ho' with ho'
    injection ho' with ho'
    subst ho'
    rw [← hv] at hv'
    rcases hbad with hnone | ⟨v, hsome, hmis⟩
    · rw [hnone] at hv'
      cases hv'
    · rw [hsome] at hv'
      injection hv' with hv'
      injection hv' with hv'
      subst hv'
      rcases hmis with ⟨s, hs, hns⟩ | ⟨s, hs, hns⟩
      · exact hns (((scopesMatch_iff _ _).1 hm s).1 hs)
      · exact hns (((scopesMatch_iff _ _).1 hm s).2 hs)
  have hflag : (authenticateAccount env p store).final.tokenNeedsFullReauth = true := by
    cases hf : env.startOAuthServer (oauthOptions p (storedOf p store)) with
    | rejects => exact (result_flow_rejects env p store hcred hc hr hf).2.2.2
    | resolves d => exact (result_flow_resolves env p store d hcred hc hr hf).2.2.2.2.1
  have hsub := flowTrace_subset_trace env p store hcred hc hr
  refine ⟨hr, hflag, hsub _ ((mem_flowTrace env p _ _ _).2 (Or.inl rfl)),
    hsub _ ((mem_flowTrace env p _ _ _).2 (Or.inr (Or.inl rfl))),
    flow_event_mem_trace env p store hcred hc hr,
    flow_count_full_reauth env p store hcred hc hr, ?_⟩
  intro session hres
  obtain ⟨d, hd, ha, hu, hn, -⟩ := session_of_full_reauth env p store hcred hc hr session hres
  refine ⟨?_, d, hd, ha, hu, hn⟩
  rw [ha]
  intro hn
  cases hn

/-- C24, on the complete bot record: the refresh yields A1 / R1, the validator
rejects A1 in one run and reports the extra scope `bits:read` in the other;
both runs call the flow once and return the flow's session. -/
theorem post_refresh_revalidation_witness :
    (Event.getAccessTokenForUser (JVal.str "123")
        (refreshSeed refreshInvalidEnv (storedOf botParams fullBotStore))
        (RefreshOutcome.returned (some refreshedToken))
      ∈ (authenticateAccount refreshInvalidEnv botParams fullBotStore).final.trace ∧
     Event.validateToken ValidateSite.afterRefresh refreshedToken.accessToken
        (ValidateOutcome.returned none)
      ∈ (authenticateAccount refreshInvalidEnv botParams fullBotStore).final.trace ∧
     (authenticateAccount refreshInvalidEnv botParams fullBotStore).final.trace.countP
        Event.isFlow = 1) ∧
    (Event.validateToken ValidateSite.afterRefresh refreshedToken.accessToken
        (ValidateOutcome.returned (some supersetValidation))
      ∈ (authenticateAccount refreshExtraScopeEnv botParams fullBotStore).final.trace ∧
     (authenticateAccount refreshExtraScopeEnv botParams fullBotStore).final.tokenNeedsFullReauth
        = true ∧
     (authenticateAccount refreshExtraScopeEnv botParams fullBotStore).final.trace.countP
        Event.isFlow = 1) :=
  have h1 := post_refresh_revalidation refreshInvalidEnv botParams fullBotStore
    (JVal.str "123") (refreshSeed refreshInvalidEnv (storedOf botParams fullBotStore))
    refreshedToken (ValidateOutcome.returned none) (by decide) (by decide) (Or.inl rfl)
  have h2 := post_refresh_revalidation refreshExtraScopeEnv botParams fullBotStore
    (JVal.str "123") (refreshSeed refreshExtraScopeEnv (storedOf botParams fullBotStore))
    refreshedToken (ValidateOutcome.returned (some supersetValidation)) (by decide) (by decide)
    (Or.inr ⟨supersetValidation, rfl, Or.inr ⟨"bits:read", by decide, by decide⟩⟩)
  ⟨⟨by decide, by decide, h1.2.2.2.2.2.1⟩, ⟨by decide, h2.2.1, h2.2.2.2.2.2.1⟩⟩
/-- C25: whenever the validator, called on the stored access token, returns
`null`, throws, or reports a user id other than the stored one, and likewise
whenever the stored access token or user id is falsy (with the application
credentials present), CheckExisting does not succeed and raises nothing: the
run goes on with the entry into the Refresh step. An error of the run, if any,
is the one of a rejected flow, the one of the final check, or the one `addUser`
throws after a flow that resolved without a refresh token; and a session, if
one is returned, comes from the Refresh step or from the flow. -/
theorem soft_validation_failure (env : Env) (p : Params) (store : ConfigStore)
    (h : (∃ oc, Event.validateToken ValidateSite.checkExisting
              (storedOf p store).accessToken oc
            ∈ (authenticateAccount env p store).final.trace ∧
          (oc = ValidateOutcome.returned none ∨ oc = ValidateOutcome.throws ∨
            ∃ v, oc = ValidateOutcome.returned (some v) ∧
              v.userId.strictEq (storedOf p store).userId = false)) ∨
      (appCredentialsPresent p = true ∧
        ((storedOf p store).accessToken.truthy = false ∨
          (storedOf p store).userId.truthy = false))) :
    validatorAccepts env p (storedOf p store) = false ∧
    (authenticateAccount env p store).final.tokenNeedsRefresh = true ∧
    (∃ rest, (authenticateAccount env p store).final.trace =
      checkTrace env (storedOf p store) ++ Event.refreshStepEntered :: rest) ∧
    (∀ msg, (authenticateAccount env p store).result = Except.error msg →
      msg = oauthFailedMessage p.configKeyPrefix ∨
      msg = notInitializedMessage p.configKeyPrefix ∨
      (refreshAccepts env p (storedOf p store) = false ∧
        ∃ d, env.startOAuthServer (oauthOptions p (storedOf p store))
              = FlowOutcome.resolves d ∧
          d.refreshToken.truthy = false ∧ msg = env.addUserError d.userId)) ∧
    (∀ session, (authenticateAccount env p store).result = Except.ok session →
      (refreshAccepts env p (storedOf p store) = true ∧
        ∃ t, env.getAccessTokenForUser (storedOf p store).userId
              (refreshSeed env (storedOf p store)) = RefreshOutcome.returned (some t) ∧
          session.accessToken = UserData.token t) ∨
      (refreshAccepts env p (storedOf p store) = false ∧
        ∃ d, env.startOAuthServer (oauthOptions p (storedOf p store))
              = FlowOutcome.resolves d ∧
          session.accessToken = UserData.val d.accessToken ∧
          session.userId = d.userId ∧ session.username = d.username)) := by
  have hboth : appCredentialsPresent p = true ∧
      validatorAccepts env p (storedOf p store) = false := by
    rcases h with ⟨oc, hev, hoc⟩ | ⟨hcred, hmiss⟩
    · obtain ⟨hcred, -, -, -, ho⟩ := validateCheck_of_mem_trace env p store _ _ hev
      refine ⟨hcred, ?_⟩
      rw [Bool.eq_false_iff]
      intro hacc
      obtain ⟨-, -, v', ho', hu, -⟩ := (validatorAccepts_spec env p _).1 hacc
      rw [← ho] at ho'
      rcases hoc with hoc | hoc | ⟨v, hoc, hne⟩
      · rw [hoc] at ho'
        cases ho'
      · rw [hoc] at ho'
        cases ho'
      · rw [hoc] at ho'
        injection ho' with ho'
        injection ho' with ho'
        subst ho'
        rw [hu] at hne
        cases hne
    · refine ⟨hcred, ?_⟩
      rw [Bool.eq_false_iff]
      intro hacc
      obtain ⟨h1, h2, -⟩ := (validatorAccepts_spec env p _).1 hacc
      rcases hmiss with hm | hm
      · rw [h1] at hm
        cases hm
      · rw [h2] at hm
        cases hm
  obtain ⟨hcred, hva⟩ := hboth
  have hc := checkAccepts_false_of_validator env p _ hva
  refine ⟨hva, tokenNeedsRefresh_after_failed_check env p store hcred hc,
    trace_after_failed_check env p store hcred hc,
    fun msg hm => (error_messages env p store hcred msg hm).imp_right
      (Or.imp_right fun hlib => hlib.2), ?_⟩
  intro session hres
  cases hr : refreshAccepts env p (storedOf p store) with
  | true => exact Or.inl ⟨rfl, session_of_refresh env p store hcred hc hr session hres⟩
  | false =>
    obtain ⟨d, hd, ha, hu, hn, -⟩ := session_of_full_reauth env p store hcred hc hr session hres
    exact Or.inr ⟨rfl, d, hd, ha, hu, hn⟩

/-- C25, on the complete bot record: the validator returns `null` for the
stored token, the run enters the Refresh step and returns the session of the
refresh. -/
theorem soft_validation_failure_witness :
    Event.validateToken ValidateSite.checkExisting (storedOf botParams fullBotStore).accessToken
        (ValidateOutcome.returned none)
      ∈ (authenticateAccount refreshOkEnv botParams fullBotStore).final.trace ∧
    validatorAccepts refreshOkEnv botParams (storedOf botParams fullBotStore) = false ∧
    (authenticateAccount refreshOkEnv botParams fullBotStore).final.tokenNeedsRefresh = true ∧
    (∃ rest, (authenticateAccount refreshOkEnv botParams fullBotStore).final.trace =
      checkTrace refreshOkEnv (storedOf botParams fullBotStore) ++
        Event.refreshStepEntered :: rest) :=
  have h := soft_validation_failure refreshOkEnv botParams fullBotStore
    (Or.inl ⟨ValidateOutcome.returned none, by decide, Or.inl rfl⟩)
  ⟨by decide, h.1, h.2.1, h.2.2.1⟩
/-- C26: whenever CheckExisting succeeds, that is, the validator, called on the
stored access token, accepts it for the stored user id with a scope set equal
to `requiredScopes`, and a refresh token is stored, so that the provider is
built, the role's persisted scope list after the run is the list the validator
reported. If the
stored list differs from it (in content or only in order), the run writes the
validator's list under the scope key, and this is its only config write; if
the two lists are the same, the run makes no config write at all. -/
theorem scope_update_on_check_success (env : Env) (p : Params) (store : ConfigStore)
    (v : ValidationResult)
    (hev : Event.validateToken ValidateSite.checkExisting (storedOf p store).accessToken
            (ValidateOutcome.returned (some v)) ∈ (authenticateAccount env p store).final.trace)
    (huid : v.userId.strictEq (storedOf p store).userId = true)
    (hsc : ∀ s, s ∈ p.requiredScopes ↔ s ∈ v.scopes.asArray)
    (hrt : (storedOf p store).refreshToken.truthy = true) :
    (persistedRecord p.configKeyPrefix (authenticateAccount env p store).final.store).scopes
      = v.scopes.asArray ∧
    ((storedOf p store).scopes ≠ v.scopes.asArray →
      Event.updateFileConfig [(keyScopes p.configKeyPrefix, JVal.arr v.scopes.asArray)]
        ∈ (authenticateAccount env p store).final.trace ∧
      (authenticateAccount env p store).final.trace.countP Event.isWrite = 1 ∧
      (authenticateAccount env p store).final.store =
        updateFileConfig (getFileConfig store).2
          [(keyScopes p.configKeyPrefix, JVal.arr v.scopes.asArray)]) ∧
    ((storedOf p store).scopes = v.scopes.asArray →
      (∀ e ∈ (authenticateAccount env p store).final.trace, e.isWrite = false) ∧
      (authenticateAccount env p store).final.store = (getFileConfig store).2 ∧
      (getFileConfig (authenticateAccount env p store).final.store).1
        = (getFileConfig store).1) := by
  obtain ⟨hcred, h1, h2, -, ho⟩ := validateCheck_of_mem_trace env p store _ _ hev
  have hc : checkAccepts env p (storedOf p store) = true :=
    (checkAccepts_spec env p _).2 ⟨h1, h2, v, ho.symm, huid, (scopesMatch_iff _ _).2 hsc, hrt⟩
  have hcs : checkScopes env (storedOf p store) = v.scopes.asArray := by
    unfold checkScopes
    rw [← ho]
  have hstore := final_store_check_success env p store hcred hc
  obtain ⟨prov, ht⟩ := trace_check_success env p store hcred hc
  rw [hcs] at hstore ht
  refine ⟨?_, ?_, ?_⟩
  · rw [hstore]
    split
    · exact persistedRecord_scopes_written _ _ _
    · rename_i heq
      rw [persistedRecord_getFileConfig]
      exact not_not.1 heq
  · intro hne
    rw [hstore, ht, if_pos hne, if_pos hne]
    refine ⟨by simp, ?_, rfl⟩
    simp [validateCheckEvent, List.countP_cons, Event.isWrite]
  · intro heq
    have hn : ¬ (storedOf p store).scopes ≠ v.scopes.asArray := not_not.2 heq
    rw [hstore, ht, if_neg hn, if_neg hn]
    refine ⟨?_, rfl, ?_⟩
    · intro e he
      simp only [List.append_nil, List.mem_cons, List.mem_singleton, List.not_mem_nil,
        or_false] at he
      rcases he with he | he <;> subst he <;> rfl
    · rw [getFileConfig_idem]

/-- C26, on the complete bot record, whose stored list [chat:read, chat:edit]
differs from the validator's [chat:edit, chat:read] only in order: the
validator's list is written. -/
theorem scope_update_on_check_success_witness :
    Event.validateToken ValidateSite.checkExisting (storedOf botParams fullBotStore).accessToken
        (ValidateOutcome.returned (some exactValidation))
      ∈ (authenticateAccount checkOkEnv botParams fullBotStore).final.trace ∧
    (storedOf botParams fullBotStore).scopes = ["chat:read", "chat:edit"] ∧
    (storedOf botParams fullBotStore).refreshToken = JVal.str "R0" ∧
    (persistedRecord botParams.configKeyPrefix
      (authenticateAccount checkOkEnv botParams fullBotStore).final.store).scopes
      = ["chat:edit", "chat:read"] ∧
    (authenticateAccount checkOkEnv botParams fullBotStore).final.trace.countP Event.isWrite
      = 1 :=
  have h := scope_update_on_check_success checkOkEnv botParams fullBotStore exactValidation
    (by decide) (by decide)
    (by intro s; simp [botParams, exactValidation, JVal.asArray]; tauto) (by decide)
  ⟨by decide, by decide, by decide, h.1, (h.2.1 (by decide)).2.1⟩
/-- C27: whenever `startOAuthServer` is called and resolves with a falsy
(empty) `userId` or `username`, `authenticateAccount` throws: the error of line
367 when the flow delivered a refresh token (the provider is built, the final
check fails), and the error of `addUser` when it delivered none. Either way the
role's persisted record is the one written from the flow's data before the
throw: it holds the new access token and refresh token together with the
flow's user id and username. The last config write of the run is that of the
new record; nothing clears it again, so with a non-empty new access token the
record is not the cleared one. -/
theorem partial_identity_is_not_rolled_back (env : Env) (p : Params) (store : ConfigStore)
    (o : OAuthServerOptions) (s : ConfigStore) (d : AuthData)
    (hev : Event.startOAuthServer o s (FlowOutcome.resolves d)
            ∈ (authenticateAccount env p store).final.trace)
    (hid : d.userId.truthy = false ∨ d.username.truthy = false) :
    (d.refreshToken.truthy = true →
      (authenticateAccount env p store).result
        = Except.error (notInitializedMessage p.configKeyPrefix) ∧
      ∃ front prov, (authenticateAccount env p store).final.trace =
        front ++ [Event.updateFileConfig (flowValues p.configKeyPrefix d env.nowISO),
          Event.createAndConfigureAuthProvider prov]) ∧
    (d.refreshToken.truthy = false →
      (authenticateAccount env p store).result = Except.error (env.addUserError d.userId) ∧
      ∃ front, (authenticateAccount env p store).final.trace =
        front ++ [Event.updateFileConfig (flowValues p.configKeyPrefix d env.nowISO)]) ∧
    persistedRecord p.configKeyPrefix (authenticateAccount env p store).final.store =
      { accessToken := d.accessToken, refreshToken := d.refreshToken, userId := d.userId,
        username := d.username, scopes := d.scope.asArray, expiresIn := d.expiresIn,
        lastRefresh := JVal.str env.nowISO, browserUserAgent := d.userAgent } ∧
    (authenticateAccount env p store).final.store =
      updateFileConfig (clearAuthData (getFileConfig store).2 p.configKeyPrefix)
        (flowValues p.configKeyPrefix d env.nowISO) ∧
    (d.accessToken.truthy = true →
      persistedRecord p.configKeyPrefix (authenticateAccount env p store).final.store ≠
        persistedRecord p.configKeyPrefix
          (clearAuthData (getFileConfig store).2 p.configKeyPrefix)) := by
  obtain ⟨hcred, hc, hr, -, -, ho⟩ := flow_of_mem_trace env p store _ _ _ hev
  obtain ⟨-, herr, hstore, -, -, hlib⟩ :=
    result_flow_resolves env p store d hcred hc hr ho.symm
  have hcond : (d.userId.truthy && d.username.truthy && d.accessToken.truthy) = false := by
    rcases hid with h | h <;> simp [h]
  have hrec : persistedRecord p.configKeyPrefix (authenticateAccount env p store).final.store =
      { accessToken := d.accessToken, refreshToken := d.refreshToken, userId := d.userId,
        username := d.username, scopes := d.scope.asArray, expiresIn := d.expiresIn,
        lastRefresh := JVal.str env.nowISO, browserUserAgent := d.userAgent } := by
    rw [hstore]
    exact persistedRecord_flowValues _ _ _ _
  obtain ⟨tail, ht, htail⟩ := trace_full_reauth env p store hcred hc hr
  refine ⟨?_, ?_, hrec, hstore, ?_⟩
  · intro hrt
    refine ⟨herr hrt hcond, ?_⟩
    rcases htail with ⟨hrej, -⟩ | ⟨d', prov, hd, -, htl⟩ | ⟨d', hd, hrt', -⟩
    · rw [← ho] at hrej
      cases hrej
    · rw [← ho] at hd
      injection hd with hd
      subst hd
      exact ⟨_, prov, by rw [ht, htl]⟩
    · rw [← ho] at hd
      injection hd with hd
      subst hd
      rw [hrt] at hrt'
      cases hrt'
  · intro hrt
    refine ⟨hlib hrt, ?_⟩
    rcases htail with ⟨hrej, -⟩ | ⟨d', prov, hd, hrt', -⟩ | ⟨d', hd, -, htl⟩
    · rw [← ho] at hrej
      cases hrej
    · rw [← ho] at hd
      injection hd with hd
      subst hd
      rw [hrt] at hrt'
      cases hrt'
    · rw [← ho] at hd
      injection hd with hd
      subst hd
      exact ⟨_, by rw [ht, htl]⟩
  · intro htok habs
    rw [hrec, record_at_flow_call] at habs
    have h1 : d.accessToken = JVal.null := congrArg Stored.accessToken habs
    rw [h1] at htok
    cases htok

/-- C27, on an empty store with a flow whose identity lookup failed: the run
throws, and the record holds A1 / R1 with an empty user id. -/
theorem partial_identity_is_not_rolled_back_witness :
    Event.startOAuthServer (oauthOptions botParams (storedOf botParams emptyStore))
        (clearAuthData emptyStore "BOT") (FlowOutcome.resolves partialAuthData)
      ∈ (authenticateAccount partialIdentityEnv botParams emptyStore).final.trace ∧
    partialAuthData.userId.truthy = false ∧
    partialAuthData.refreshToken.truthy = true ∧
    (authenticateAccount partialIdentityEnv botParams emptyStore).result
      = Except.error (notInitializedMessage botParams.configKeyPrefix) ∧
    persistedRecord botParams.configKeyPrefix
        (authenticateAccount partialIdentityEnv botParams emptyStore).final.store =
      { accessToken := JVal.str "A1", refreshToken := JVal.str "R1", userId := JVal.str "",
        username := JVal.str "", scopes := ["chat:read", "chat:edit"],
        expiresIn := JVal.num 3600, lastRefresh := JVal.str "2024-06-01T12:00:00.000Z",
        browserUserAgent := JVal.str "Mozilla/5.0 Chrome/120.0" } :=
  have h := partial_identity_is_not_rolled_back partialIdentityEnv botParams emptyStore
    (oauthOptions botParams (storedOf botParams emptyStore)) (clearAuthData emptyStore "BOT")
    partialAuthData (by decide) (Or.inl (by decide))
  ⟨by decide, by decide, by decide, (h.1 (by decide)).1, h.2.2.1⟩
/-- C28: if `clientId`, `clientSecret` or `redirectUri` is falsy (empty or
absent), `authenticateAccount` throws the error of line 130, whose message
names the role prefix; the run has no event at all (no validator call, no
refresh, no `clearAuthData`, no `startOAuthServer`, no config write), and the
state of the config loader is exactly what it was: the stored record is not
even read. -/
theorem missing_credentials_throw_first (env : Env) (p : Params) (store : ConfigStore)
    (h : p.clientId.truthy = false ∨ p.clientSecret.truthy = false ∨
      p.redirectUri.truthy = false) :
    (authenticateAccount env p store).result
      = Except.error (missingCredentialsMessage p.configKeyPrefix) ∧
    containsText (missingCredentialsMessage p.configKeyPrefix) p.configKeyPrefix ∧
    (∀ session, (authenticateAccount env p store).result ≠ Except.ok session) ∧
    (authenticateAccount env p store).final.trace = [] ∧
    (authenticateAccount env p store).final.store = store ∧
    (∀ pre, persistedRecord pre (authenticateAccount env p store).final.store
      = persistedRecord pre store) := by
  have hcred : appCredentialsPresent p = false := by
    unfold appCredentialsPresent
    rcases h with h | h | h <;> simp [h]
  rw [authenticateAccount_no_credentials env p store hcred]
  refine ⟨rfl, ⟨"[AuthManager][", _, rfl⟩, ?_, rfl, rfl, fun _ => rfl⟩
  intro session hs
  cases hs

/-- C28, on the complete bot record with an empty client id. -/
theorem missing_credentials_throw_first_witness :
    noClientIdParams.clientId.truthy = false ∧
    (authenticateAccount checkOkEnv noClientIdParams fullBotStore).result
      = Except.error (missingCredentialsMessage "BOT") ∧
    (authenticateAccount checkOkEnv noClientIdParams fullBotStore).final.trace = [] ∧
    (authenticateAccount checkOkEnv noClientIdParams fullBotStore).final.store = fullBotStore :=
  have h := missing_credentials_throw_first checkOkEnv noClientIdParams fullBotStore
    (Or.inl (by decide))
  ⟨by decide, h.1, h.2.2.2.1, h.2.2.2.2.1⟩
/-- C29: for every user-agent string, `getBrowserAppFromUserAgent` returns
`'chrome'`, `'firefox'`, `'edge'`, `'safari'` or `null`. Two non-empty strings
with the same lower-cased form get the same result; the empty string, `null`
and `undefined` get `null`. The result is `'chrome'` exactly when the string is
non-empty and its lower-cased form contains the text `chrome` and neither
`chromium` nor `edge`, and `'safari'` exactly when it is non-empty and its
lower-cased form contains `safari` and none of `chrome`, `firefox` and `edge`;
"contains" is the occurrence of the text somewhere in the string, whatever the
search of `includes` does to find it. This holds whatever function
`toLowerCase` is. -/
theorem browser_detection_priority (lowerCase : String → String) :
    (∀ s, ∃ r, getBrowserAppFromUserAgent lowerCase (JVal.str s) = Except.ok r ∧
      r ∈ [some "chrome", some "firefox", some "edge", some "safari", none]) ∧
    (∀ a b, a ≠ "" → b ≠ "" → lowerCase a = lowerCase b →
      getBrowserAppFromUserAgent lowerCase (JVal.str a)
        = getBrowserAppFromUserAgent lowerCase (JVal.str b)) ∧
    getBrowserAppFromUserAgent lowerCase (JVal.str "") = Except.ok none ∧
    getBrowserAppFromUserAgent lowerCase JVal.null = Except.ok none ∧
    getBrowserAppFromUserAgent lowerCase JVal.undefined = Except.ok none ∧
    (∀ s, getBrowserAppFromUserAgent lowerCase (JVal.str s) = Except.ok (some "chrome") ↔
      s ≠ "" ∧ containsText (lowerCase s) "chrome" ∧
      ¬ containsText (lowerCase s) "chromium" ∧ ¬ containsText (lowerCase s) "edge") ∧
    (∀ s, getBrowserAppFromUserAgent lowerCase (JVal.str s) = Except.ok (some "safari") ↔
      s ≠ "" ∧ containsText (lowerCase s) "safari" ∧
      ¬ containsText (lowerCase s) "chrome" ∧ ¬ containsText (lowerCase s) "firefox" ∧
      ¬ containsText (lowerCase s) "edge") := by
  have hempty : getBrowserAppFromUserAgent lowerCase (JVal.str "") = Except.ok none := rfl
  have hnot : ∀ s t : String, includes s t = false ↔ ¬ containsText s t := by
    intro s t
    rw [← includes_iff, Bool.not_eq_true]
  have hchrome : ∀ s,
      getBrowserAppFromUserAgent lowerCase (JVal.str s) = Except.ok (some "chrome") ↔
      s ≠ "" ∧ includes (lowerCase s) "chrome" = true ∧
      includes (lowerCase s) "chromium" = false ∧ includes (lowerCase s) "edge" = false := by
    intro s
    by_cases hs : s = ""
    · subst hs
      rw [hempty]
      simp
    · rw [getBrowserAppFromUserAgent_str lowerCase s hs]
      cases includes (lowerCase s) "chrome" <;> cases includes (lowerCase s) "chromium" <;>
        cases includes (lowerCase s) "edge" <;> cases includes (lowerCase s) "firefox" <;>
        cases includes (lowerCase s) "safari" <;> simp [hs]
  have hsafari : ∀ s,
      getBrowserAppFromUserAgent lowerCase (JVal.str s) = Except.ok (some "safari") ↔
      s ≠ "" ∧ includes (lowerCase s) "safari" = true ∧
      includes (lowerCase s) "chrome" = false ∧ includes (lowerCase s) "firefox" = false ∧
      includes (lowerCase s) "edge" = false := by
    intro s
    by_cases hs : s = ""
    · subst hs
      rw [hempty]
      simp
    · rw [getBrowserAppFromUserAgent_str lowerCase s hs]
      cases includes (lowerCase s) "chrome" <;> cases includes (lowerCase s) "chromium" <;>
        cases includes (lowerCase s) "edge" <;> cases includes (lowerCase s) "firefox" <;>
        cases includes (lowerCase s) "safari" <;> simp [hs]
  refine ⟨?_, ?_, hempty, rfl, rfl, ?_, ?_⟩
  · intro s
    by_cases hs : s = ""
    · subst hs
      exact ⟨none, hempty, by simp⟩
    · rw [getBrowserAppFromUserAgent_str lowerCase s hs]
      split
      · exact ⟨_, rfl, by simp⟩
      · split
        · exact ⟨_, rfl, by simp⟩
        · split
          · exact ⟨_, rfl, by simp⟩
          · split
            · exact ⟨_, rfl, by simp⟩
            · exact ⟨_, rfl, by simp⟩
  · intro a b ha hb hab
    rw [getBrowserAppFromUserAgent_str lowerCase a ha,
      getBrowserAppFromUserAgent_str lowerCase b hb, hab]
  · intro s
    rw [hchrome s, includes_iff, hnot, hnot]
  · intro s
    rw [hsafari s, includes_iff, hnot, hnot, hnot]

/-- C29 at concrete user agents: a Chrome, an Edge, a Firefox and a Safari
user agent, each of which names other browsers too. -/
theorem browser_detection_priority_witness :
    getBrowserAppFromUserAgent toLowerCase
        (JVal.str "Mozilla/5.0 AppleWebKit/537.36 Chrome/120.0 Safari/537.36")
      = Except.ok (some "chrome") ∧
    getBrowserAppFromUserAgent toLowerCase
        (JVal.str "Mozilla/5.0 AppleWebKit/537.36 Chrome/120.0 Safari/537.36 Edge/18.0")
      = Except.ok (some "edge") ∧
    getBrowserAppFromUserAgent toLowerCase (JVal.str "Mozilla/5.0 Gecko/20100101 Firefox/120.0")
      = Except.ok (some "firefox") ∧
    getBrowserAppFromUserAgent toLowerCase
        (JVal.str "Mozilla/5.0 AppleWebKit/605.1.15 Version/17.0 Safari/605.1.15")
      = Except.ok (some "safari") ∧
    containsText
      (toLowerCase "Mozilla/5.0 AppleWebKit/537.36 Chrome/120.0 Safari/537.36") "chrome" ∧
    ¬ containsText
      (toLowerCase "Mozilla/5.0 AppleWebKit/537.36 Chrome/120.0 Safari/537.36") "edge" :=
  have h := ((browser_detection_priority toLowerCase).2.2.2.2.2.1
    "Mozilla/5.0 AppleWebKit/537.36 Chrome/120.0 Safari/537.36").1 rfl
  ⟨rfl, rfl, rfl, rfl, h.2.1, h.2.2.2⟩
/-- C30: for a non-empty message list, `checkAndSendTimerMessage` calls
`client.say` exactly when the count of chat messages since the last send is at
least `min_messages` and the time since the last send, in seconds, is at least
`message_min_interval_seconds`. A send (a `client.say` that resolves) says the
message at the current index, sets the counter to 0 and the last-send time to
the time of the check, and moves the index on by one modulo the list length,
leaving thresholds and list alone; a check that does not send, and one whose
`client.say` rejects, changes no state. An index inside the list stays inside,
and over any sequence of counted messages and checks the messages go out in
cyclic list order. -/
theorem timer_state_machine (m : TimerModule) (hne : m.timerMessages ≠ []) :
    (∀ t rejects, (checkAndSendTimerMessage m t rejects).said.isSome = true ↔
      m.min_messages ≤ m.messageCountSinceLastTimer ∧
      (m.message_min_interval_seconds : ℚ) ≤ ((t - m.lastTimerSentTime : Int) : ℚ) / 1000) ∧
    (∀ t rejects, (checkAndSendTimerMessage m t rejects).said.isSome = true ↔
      m.min_messages ≤ m.messageCountSinceLastTimer ∧
      1000 * m.message_min_interval_seconds ≤ t - m.lastTimerSentTime) ∧
    (∀ t, (checkAndSendTimerMessage m t false).said.isSome = true →
      checkAndSendTimerMessage m t false =
        { state :=
            { m with
              currentTimerMessageIndex :=
                (m.currentTimerMessageIndex + 1) % m.timerMessages.length,
              messageCountSinceLastTimer := 0,
              lastTimerSentTime := t },
          said := some (timerMessageAt m m.currentTimerMessageIndex), threw := false } ∧
      (checkAndSendTimerMessage m t false).state.currentTimerMessageIndex
        < m.timerMessages.length) ∧
    (∀ t rejects, (checkAndSendTimerMessage m t rejects).said.isSome = false →
      checkAndSendTimerMessage m t rejects = { state := m, said := none, threw := false }) ∧
    (∀ t, (checkAndSendTimerMessage m t true).state = m) ∧
    (∀ t rejects, m.currentTimerMessageIndex < m.timerMessages.length →
      (checkAndSendTimerMessage m t rejects).state.currentTimerMessageIndex
        < (checkAndSendTimerMessage m t rejects).state.timerMessages.length) ∧
    (∀ events, m.currentTimerMessageIndex < m.timerMessages.length →
      (runTimer m events).2 =
        (List.range (runTimer m events).2.length).map
          (fun j => timerMessageAt m
            ((m.currentTimerMessageIndex + j) % m.timerMessages.length)) ∧
      (runTimer m events).1.currentTimerMessageIndex < m.timerMessages.length ∧
      (runTimer m events).1.timerMessages = m.timerMessages) := by
  have hpos : 0 < m.timerMessages.length := List.length_pos.2 hne
  have hsaid : ∀ t rejects,
      (checkAndSendTimerMessage m t rejects).said.isSome = timerDue m t := by
    intro t rejects
    cases hd : timerDue m t with
    | false => rw [checkAndSendTimerMessage_not_due m t rejects hd]; rfl
    | true =>
      cases rejects with
      | true => rw [checkAndSendTimerMessage_rejected m t hne hd]; rfl
      | false => rw [checkAndSendTimerMessage_sent m t hne hd]; rfl
  refine ⟨?_, ?_, ?_, ?_, ?_, ?_, ?_⟩
  · intro t rejects
    rw [hsaid]
    unfold timerDue
    simp only [Bool.and_eq_true, decide_eq_true_eq, ge_iff_le]
  · intro t rejects
    rw [hsaid]
    exact timerDue_iff m t
  · intro t h
    rw [hsaid] at h
    rw [checkAndSendTimerMessage_sent m t hne h]
    exact ⟨rfl, Nat.mod_lt _ hpos⟩
  · intro t rejects h
    rw [hsaid] at h
    exact checkAndSendTimerMessage_not_due m t rejects h
  · intro t
    cases hd : timerDue m t with
    | false => rw [checkAndSendTimerMessage_not_due m t true hd]
    | true => rw [checkAndSendTimerMessage_rejected m t hne hd]
  · intro t rejects hidx
    cases hd : timerDue m t with
    | false =>
      rw [checkAndSendTimerMessage_not_due m t rejects hd]
      exact hidx
    | true =>
      cases rejects with
      | true =>
        rw [checkAndSendTimerMessage_rejected m t hne hd]
        exact hidx
      | false =>
        rw [checkAndSendTimerMessage_sent m t hne hd]
        exact Nat.mod_lt _ hpos
  · intro events hidx
    obtain ⟨h1, h2, h3⟩ := runTimer_cyclic events m hne hidx
    refine ⟨h1, ?_, h3⟩
    rw [h2]
    exact Nat.mod_lt _ hpos

/-- C30 on three messages with the index at the last one: with 30 messages
counted and 1800 seconds passed, the check says the third message and wraps
the index to 0; one millisecond earlier it does nothing. -/
theorem timer_state_machine_witness :
    threeMessageTimer.timerMessages ≠ [] ∧
    checkAndSendTimerMessage threeMessageTimer 1800000 false =
      { state :=
          { threeMessageTimer with
            currentTimerMessageIndex := 0, messageCountSinceLastTimer := 0,
            lastTimerSentTime := 1800000 },
        said := some (JVal.str "third"), threw := false } ∧
    checkAndSendTimerMessage threeMessageTimer 1799999 false =
      { state := threeMessageTimer, said := none, threw := false } :=
  have h := timer_state_machine threeMessageTimer (by decide)
  ⟨by decide,
    (h.2.2.1 1800000 ((h.2.1 1800000 false).2 ⟨by decide, by decide⟩)).1,
    h.2.2.2.1 1799999 false
      (by
        cases hs : (checkAndSendTimerMessage threeMessageTimer 1799999 false).said.isSome with
        | false => rfl
        | true => exact absurd ((h.2.1 1799999 false).1 hs).2 (by decide))⟩
end Bottario
